import Mathlib

/-!
PIHM-MF input loader: a shallow embedding of `read_alloc` (src/src/read_alloc.c).

Conventions of the embedding.

* A C string or file content is a `List Char`, one `Char` per byte.
* `int` values are mathematical integers (`Int`).  In the output schedule
  (lines 841-864) a conversion to `int` or a sum that an `int` of 32 bits cannot
  hold is undefined behaviour; elsewhere numerals that would leave that range
  are outside the model.
* `realtype` (`double`) values are exact rationals (`ℚ`): every arithmetic
  operation is the exact one, no rounding.  `pow (a, i)` with an integer `i` is
  `a ^ i`; `log` only enters through `(int) (log (x) / log (a))`, which is given
  its exact value where the C expression is defined.
* The program can end in three ways: it returns (`Outcome.ok`), it calls
  `exit (status)` after printing a message (`Outcome.exit`), or it reaches an
  operation whose behaviour C leaves undefined (`Outcome.undefined`): an array
  access outside the allocated block, a conversion to `int` of an infinite or
  NaN value or of a value out of range, the use of a stream after `fclose`.
* Memory that `read_alloc` does not initialise keeps the value it had on
  entry: the function takes the initial contents of `*CS`, `*DS` and of its
  scratch buffers as arguments.
* The reading of .para and .calib, the first pass over the time-series files,
  the project name and the order in which the files are opened are modelled
  statement by statement.  The stretches that only fill freshly allocated
  blocks with `fscanf` are parameters of `read_alloc` (`Loaders`).
-/

namespace PIHM

/-! ## Results of a run -/

/-- The fatal-error messages printed by `read_alloc` before `exit`. -/
inductive Fatal where
  /-- "Fatal Error: %s.<ext> is in use or does not exist!" -/
  | cannotOpen (ext : String)
  /-- "ERROR!" after the first pass over a time-series file. -/
  | countMismatch
  /-- "Parameter:%s cannot be recognized." -/
  | unrecognized (optstr : List Char)
  /-- "Fatal Error: ... must be defined in .para file!" -/
  | mustBeDefined (what : String)
  deriving DecidableEq, Repr

/-- How a run of (a part of) `read_alloc` ends. -/
inductive Outcome (α : Type) where
  | ok (val : α)
  | exit (status : Int) (msg : Fatal)
  | undefined
  deriving DecidableEq, Repr

/-- Sequencing: the rest of the function runs only after a normal completion. -/
def Outcome.bind {α β : Type} (x : Outcome α) (f : α → Outcome β) : Outcome β :=
  match x with
  | .ok v => f v
  | .exit s m => .exit s m
  | .undefined => .undefined

/-! ## Constants of pihm.h -/

/-- Value of `#define BADVAL -999`. -/
def BADVAL : Int := -999

/-- Value of `#define MAXSTRING 1024`. -/
def MAXSTRING : Nat := 1024

/-! ## C library: characters and strings -/

/-- The C locale's `isspace`: space, `\t`, `\n`, `\v`, `\f`, `\r`. -/
def isspace (c : Char) : Bool :=
  c = ' ' || c = '\t' || c = '\n' || c = Char.ofNat 11 || c = Char.ofNat 12 || c = '\r'

/-- The C locale's `isdigit`. -/
def isdigit (c : Char) : Bool := '0' ≤ c && c ≤ '9'

/-- The C string held by a buffer: the bytes before the first NUL. -/
def cstr (buf : List Char) : List Char := buf.takeWhile (fun c => c != Char.ofNat 0)

/-- The test `strcasecmp (key, s) == 0`: equality up to the case of ASCII letters. -/
def strcasecmp (key : String) (s : List Char) : Bool :=
  key.toList.map Char.toLower == s.map Char.toLower

/-- Value of a run of decimal digits. -/
def digitsVal (ds : List Char) : Nat :=
  ds.foldl (fun acc c => 10 * acc + (c.toNat - '0'.toNat)) 0

/-! ## C library: the conversions of `sscanf`

Each scanner takes the unread input and gives the converted value with the input
left over, or `none` on a matching failure. -/

/-- White space skipped before a conversion. -/
def skipSpace (s : List Char) : List Char := s.dropWhile isspace

/-- Conversion `%s` (and `%*s`): the next run of non-space bytes. -/
def scanToken (s : List Char) : Option (List Char × List Char) :=
  let t := skipSpace s
  let tok := t.takeWhile (fun c => !isspace c)
  if tok.isEmpty then none else some (tok, t.dropWhile (fun c => !isspace c))

/-- An optional sign: `true` for `-`. -/
def scanSign (s : List Char) : Bool × List Char :=
  match s with
  | '-' :: r => (true, r)
  | '+' :: r => (false, r)
  | _ => (false, s)

/-- Conversion `%d`: optional white space, optional sign, at least one digit. -/
def scanInt (s : List Char) : Option (Int × List Char) :=
  let (neg, t) := scanSign (skipSpace s)
  let ds := t.takeWhile isdigit
  if ds.isEmpty then none
  else
    let n : Int := (digitsVal ds : Nat)
    some (if neg then -n else n, t.dropWhile isdigit)

/-- Decimal exponent part `e[+-]ddd` of a floating numeral; it is only taken
when at least one digit follows. -/
def scanExponent (s : List Char) : Int × List Char :=
  match s with
  | c :: r =>
    if c = 'e' || c = 'E' then
      let (neg, t) := scanSign r
      let ds := t.takeWhile isdigit
      if ds.isEmpty then (0, s)
      else
        let n : Int := (digitsVal ds : Nat)
        (if neg then -n else n, t.dropWhile isdigit)
    else (0, s)
  | [] => (0, s)

/-- Conversion `%lf` for decimal numerals: optional white space, optional sign,
digits with an optional fraction (at least one digit in all), optional decimal
exponent.  The value is the exact rational the numeral denotes.  The forms
`inf`, `nan` and hexadecimal numerals are not modelled. -/
def scanReal (s : List Char) : Option (ℚ × List Char) :=
  let (neg, t) := scanSign (skipSpace s)
  let ip := t.takeWhile isdigit
  let t1 := t.dropWhile isdigit
  let (fp, t2) :=
    match t1 with
    | '.' :: r => (r.takeWhile isdigit, r.dropWhile isdigit)
    | _ => ([], t1)
  if ip.isEmpty && fp.isEmpty then none
  else
    let (e, t3) := scanExponent t2
    let mant : ℚ := ((digitsVal (ip ++ fp) : Nat) : ℚ) / (10 : ℚ) ^ fp.length
    let v : ℚ := mant * (10 : ℚ) ^ e
    some (if neg then -v else v, t3)

/-- A literal byte of a format string: it has to be the next input byte. -/
def scanLit (c : Char) (s : List Char) : Option (List Char) :=
  match s with
  | d :: r => if d = c then some r else none
  | [] => none

/-- Call `sscanf (cmdstr, "%s", optstr)`: the first token of the line; `optstr`
keeps its old content when the line holds no token. -/
def sscanf_s (cmdstr optstr : List Char) : List Char :=
  match scanToken (cstr cmdstr) with
  | some (tok, _) => tok
  | none => optstr

/-- Call `sscanf (cmdstr, "%*s %d", &x)`: the integer after the first token; `x`
keeps its old value on a matching failure. -/
def sscanf_d (cmdstr : List Char) (old : Int) : Int :=
  match scanToken (cstr cmdstr) with
  | some (_, r) =>
    match scanInt r with
    | some (v, _) => v
    | none => old
  | none => old

/-- Call `sscanf (cmdstr, "%*s %lf", &x)`: the real number after the first
token; `x` keeps its old value on a matching failure. -/
def sscanf_lf (cmdstr : List Char) (old : ℚ) : ℚ :=
  match scanToken (cstr cmdstr) with
  | some (_, r) =>
    match scanReal r with
    | some (v, _) => v
    | none => old
  | none => old

/-! ## C library: `struct tm` and `timegm` -/

/-- The fields of `struct tm` that `read_alloc` writes and `timegm` reads. -/
structure Tm where
  tm_sec : Int
  tm_min : Int
  tm_hour : Int
  tm_mday : Int
  tm_mon : Int
  tm_year : Int
  deriving DecidableEq, Repr

/-- Gregorian leap years. -/
def isLeapYear (y : Int) : Bool := y % 4 == 0 && (y % 100 != 0 || y % 400 == 0)

/-- Number of days from 1970-01-01 to January 1st of year `y`. -/
def daysBeforeYear (y : Int) : Int :=
  365 * (y - 1970) + (y - 1) / 4 - (y - 1) / 100 + (y - 1) / 400 - 477

/-- Number of days from January 1st to the first day of month `m` (0 = January). -/
def daysBeforeMonth (leap : Bool) (m : Int) : Int :=
  [0, 31, 59, 90, 120, 151, 181, 212, 243, 273, 304, 334].getD m.toNat 0
    + (if leap && 2 ≤ m then 1 else 0)

/-- Seconds since 1970-01-01 00:00:00 UTC of a broken-down time; fields outside
their usual range are carried over, as `timegm` does. -/
def tmSeconds (t : Tm) : Int :=
  let y := t.tm_year + 1900 + t.tm_mon / 12
  let m := t.tm_mon % 12
  (daysBeforeYear y + daysBeforeMonth (isLeapYear y) m + (t.tm_mday - 1)) * 86400
    + t.tm_hour * 3600 + t.tm_min * 60 + t.tm_sec

/-- Broken-down UTC time of a number of seconds since the epoch (`gmtime`). -/
def gmtime (secs : Int) : Tm :=
  let days := secs / 86400
  let r := secs % 86400
  let z := days + 719468
  let era := z / 146097
  let doe := z % 146097
  let yoe := (doe - doe / 1460 + doe / 36524 - doe / 146096) / 365
  let doy := doe - (365 * yoe + yoe / 4 - yoe / 100)
  let mp := (5 * doy + 2) / 153
  let d := doy - (153 * mp + 2) / 5 + 1
  let m := if mp < 10 then mp + 3 else mp - 9
  let y := yoe + era * 400 + (if m ≤ 2 then 1 else 0)
  { tm_sec := r % 60, tm_min := r % 3600 / 60, tm_hour := r / 3600,
    tm_mday := d, tm_mon := m - 1, tm_year := y - 1900 }

/-- Call `timegm (timeinfo)`: the returned `time_t` and the normalised fields
written back to `*timeinfo`. -/
def timegm (t : Tm) : Int × Tm := (tmSeconds t, gmtime (tmSeconds t))

/-- Call `sscanf (cmdstr, "%*s %d-%d-%d %d:%d", &tm_year, &tm_mon, &tm_mday,
&tm_hour, &tm_min)`: the conversions are done in order and the fields converted
before the first matching failure are stored. -/
def sscanf_date (cmdstr : List Char) (t : Tm) : Tm :=
  match scanToken (cstr cmdstr) with
  | none => t
  | some (_, r0) =>
  match scanInt r0 with
  | none => t
  | some (y, r1) =>
  let t := { t with tm_year := y }
  match (scanLit '-' r1).bind scanInt with
  | none => t
  | some (mo, r2) =>
  let t := { t with tm_mon := mo }
  match (scanLit '-' r2).bind scanInt with
  | none => t
  | some (d, r3) =>
  let t := { t with tm_mday := d }
  match scanInt r3 with
  | none => t
  | some (h, r4) =>
  let t := { t with tm_hour := h }
  match (scanLit ':' r4).bind scanInt with
  | none => t
  | some (mi, _) => { t with tm_min := mi }

/-! ## Data model (pihm.h) -/

/-- The `globalCal` structure: calibration multipliers.  The last seven fields
exist when the program is compiled with `_FLUX_PIHM_`. -/
structure globalCal where
  KsatH : ℚ
  KsatV : ℚ
  infKsatV : ℚ
  macKsatH : ℚ
  macKsatV : ℚ
  infD : ℚ
  RzD : ℚ
  macD : ℚ
  Porosity : ℚ
  Alpha : ℚ
  Beta : ℚ
  vAreaF : ℚ
  hAreaF : ℚ
  Temp : ℚ
  Prep : ℚ
  VegFrac : ℚ
  Albedo : ℚ
  Rough : ℚ
  rivRough : ℚ
  rivKsatH : ℚ
  rivKsatV : ℚ
  rivbedThick : ℚ
  rivDepth : ℚ
  rivShapeCoeff : ℚ
  ThetaRef : ℚ
  ThetaW : ℚ
  Rmin : ℚ
  TF : ℚ
  IS : ℚ
  Czil : ℚ
  fx_soil : ℚ
  fx_canopy : ℚ
  Rs_ref : ℚ
  h_s : ℚ

/-- The `processCal` structure. -/
structure processCal where
  Et0 : ℚ
  Et1 : ℚ
  Et2 : ℚ

/-- The `Control_Data` structure.  `PrintET` is `int [3]`, `PrintRivFlx` is
`int [11]`, `Tout` is the block allocated for the output times.  `NumPrint` and
`PCtrl`, which `read_alloc` never touches, are left out. -/
structure Control_Data where
  Verbose : Int
  Debug : Int
  Ascii : Int
  Spinup : Int
  Solver : Int
  NumSteps : Int
  PrintGW : Int
  PrintSurf : Int
  PrintSnow : Int
  PrintRivStg : Int
  PrintRech : Int
  PrintIS : Int
  PrintUnsat : Int
  PrintET : List Int
  PrintRivFlx : List Int
  init_type : Int
  abstol : ℚ
  reltol : ℚ
  InitStep : ℚ
  MaxStep : ℚ
  ETStep : ℚ
  GSType : Int
  MaxK : Int
  delt : ℚ
  StartTime : ℚ
  EndTime : ℚ
  outtype : Int
  a : ℚ
  b : ℚ
  Tout : List ℚ
  Cal : globalCal

/-- The integer attributes of `element` (mesh and .att file). -/
structure element where
  index : Int
  node : List Int
  nabr : List Int
  soil : Int
  geol : Int
  LC : Int
  meteo : Int
  LAI : Int
  source : Int
  BC : List Int
  Macropore : Int
  deriving DecidableEq, Repr

/-- The fields of `Model_Data` that `read_alloc` reads back while loading, or
writes while reading `.para` and `.calib`.  `TSD_meteo_length` and
`TSD_lai_length` hold the `length` fields of the allocated `TSD_meteo` and
`TSD_lai` blocks; `none` is an entry that has not been written since `malloc`. -/
structure Model_Data where
  UnsatMode : Int
  SurfMode : Int
  RivMode : Int
  pcCal : processCal
  NumEle : Int
  Ele : List element
  NumTS : Int
  TSD_meteo_length : List (Option Int)
  TSD_lai_length : List (Option Int)

/-- Target of the local pointer `count`: the `length` field of a forcing series
or of a LAI series. -/
inductive CountPtr where
  | meteo (k : Nat)
  | lai (k : Nat)
  deriving DecidableEq, Repr

/-- The memory `read_alloc` works on: `*CS`, `*DS` and the locals that live
across the files.  `ind` and `count` are `none` until they are first assigned. -/
structure State where
  CS : Control_Data
  DS : Model_Data
  timeinfo : Tm
  optstr : List Char
  ind : Option Int
  count : Option CountPtr

/-! ## Line-by-line reading -/

/-- The buffers handed to the body of the loop

    fgets (cmdstr, MAXSTRING, f);
    while (!feof (f)) { body; fgets (cmdstr, MAXSTRING, f); }

in order.  `fgets` stores bytes up to and including a newline, at most
`MAXSTRING - 1` of them (`room` counts the bytes that still fit, `acc` holds the
bytes stored so far).  When `fgets` runs into the end of the file it sets the
end-of-file indicator, so the bytes after the last newline (a last line that
is not terminated) are read but the body never runs on them. -/
def fgetsAux (room : Nat) (acc : List Char) : List Char → List (List Char)
  | [] => []
  | c :: cs =>
    if c = '\n' || room ≤ 1 then (acc ++ [c]) :: fgetsAux (MAXSTRING - 1) [] cs
    else fgetsAux (room - 1) (acc ++ [c]) cs

/-- The lines of a file as the `fgets`/`feof` loop sees them. -/
def fgetsLines (content : List Char) : List (List Char) :=
  fgetsAux (MAXSTRING - 1) [] content

/-- First byte `buf[0]` of a C string buffer (NUL for the empty string). -/
def firstByte (buf : List Char) : Char := buf.headD (Char.ofNat 0)

/-! ## The .para file (read_alloc.c, lines 653-909) -/

/-- Lines 660-693: default values for the parameters. -/
def paraDefaults (st : State) : State :=
  { st with
    CS := { st.CS with
      Verbose := 0, Debug := 0, Ascii := 0, Spinup := 0, init_type := 0,
      Solver := 2, GSType := 1, MaxK := 0, delt := 0,
      abstol := BADVAL, reltol := BADVAL, InitStep := BADVAL, MaxStep := BADVAL,
      ETStep := BADVAL, StartTime := BADVAL, EndTime := BADVAL, outtype := BADVAL,
      a := BADVAL, b := BADVAL,
      PrintGW := 0, PrintSurf := 0, PrintSnow := 0, PrintRivStg := 0, PrintRech := 0,
      PrintIS := 0, PrintUnsat := 0,
      PrintET := (List.range 3).foldl (fun l j => l.set j 0) st.CS.PrintET,
      PrintRivFlx := (List.range 10).foldl (fun l j => l.set j 0) st.CS.PrintRivFlx },
    DS := { st.DS with UnsatMode := 2, SurfMode := 2, RivMode := 2 } }

/-- Lines 727-834: the chain of `strcasecmp` tests on `optstr` and the
assignment made for the keyword found; the last `else` is the fatal error for
an unrecognised parameter. -/
def paraKeyword (cmdstr : List Char) (st : State) : Outcome State :=
  if strcasecmp "VERBOSE" st.optstr then
    .ok { st with CS := { st.CS with Verbose := sscanf_d cmdstr st.CS.Verbose } }
  else if strcasecmp "DEBUG" st.optstr then
    .ok { st with CS := { st.CS with Debug := sscanf_d cmdstr st.CS.Debug } }
  else if strcasecmp "INIT_MODE" st.optstr then
    .ok { st with CS := { st.CS with init_type := sscanf_d cmdstr st.CS.init_type } }
  else if strcasecmp "ASCII_OUTPUT" st.optstr then
    .ok { st with CS := { st.CS with Ascii := sscanf_d cmdstr st.CS.Ascii } }
  else if strcasecmp "SPINUP_MODE" st.optstr then
    .ok { st with CS := { st.CS with Spinup := sscanf_d cmdstr st.CS.Spinup } }
  else if strcasecmp "UNSAT_MODE" st.optstr then
    .ok { st with DS := { st.DS with UnsatMode := sscanf_d cmdstr st.DS.UnsatMode } }
  else if strcasecmp "SAT_MODE" st.optstr then
    .ok { st with DS := { st.DS with SurfMode := sscanf_d cmdstr st.DS.SurfMode } }
  else if strcasecmp "RIV_MODE" st.optstr then
    .ok { st with DS := { st.DS with RivMode := sscanf_d cmdstr st.DS.RivMode } }
  else if strcasecmp "SOLVER" st.optstr then
    .ok { st with CS := { st.CS with Solver := sscanf_d cmdstr st.CS.Solver } }
  else if strcasecmp "GSTYPE" st.optstr then
    .ok { st with CS := { st.CS with GSType := sscanf_d cmdstr st.CS.GSType } }
  else if strcasecmp "MAXK" st.optstr then
    .ok { st with CS := { st.CS with MaxK := sscanf_d cmdstr st.CS.MaxK } }
  else if strcasecmp "DELTA" st.optstr then
    .ok { st with CS := { st.CS with delt := sscanf_lf cmdstr st.CS.delt } }
  else if strcasecmp "ABSTOL" st.optstr then
    .ok { st with CS := { st.CS with abstol := sscanf_lf cmdstr st.CS.abstol } }
  else if strcasecmp "RELTOL" st.optstr then
    .ok { st with CS := { st.CS with reltol := sscanf_lf cmdstr st.CS.reltol } }
  else if strcasecmp "INIT_SOLVER_STEP" st.optstr then
    .ok { st with CS := { st.CS with InitStep := sscanf_lf cmdstr st.CS.InitStep } }
  else if strcasecmp "MAX_SOLVER_STEP" st.optstr then
    .ok { st with CS := { st.CS with MaxStep := sscanf_lf cmdstr st.CS.MaxStep } }
  else if strcasecmp "LSM_STEP" st.optstr then
    .ok { st with CS := { st.CS with ETStep := sscanf_lf cmdstr st.CS.ETStep } }
  else if strcasecmp "START" st.optstr then
    let t := sscanf_date cmdstr st.timeinfo
    let t := { t with tm_year := t.tm_year - 1900 }
    let t := { t with tm_mon := t.tm_mon - 1 }
    let t := { t with tm_sec := 0 }
    let r := timegm t
    .ok { st with timeinfo := r.2, CS := { st.CS with StartTime := (r.1 : ℚ) } }
  else if strcasecmp "END" st.optstr then
    let t := sscanf_date cmdstr st.timeinfo
    let t := { t with tm_year := t.tm_year - 1900 }
    let t := { t with tm_mon := t.tm_mon - 1 }
    let t := { t with tm_sec := 0 }
    let r := timegm t
    .ok { st with timeinfo := r.2, CS := { st.CS with EndTime := (r.1 : ℚ) } }
  else if strcasecmp "OUTPUT_TYPE" st.optstr then
    .ok { st with CS := { st.CS with outtype := sscanf_d cmdstr st.CS.outtype } }
  else if strcasecmp "STEPSIZE_FACTOR" st.optstr then
    .ok { st with CS := { st.CS with a := sscanf_lf cmdstr st.CS.a } }
  else if strcasecmp "MODEL_STEPSIZE" st.optstr then
    .ok { st with CS := { st.CS with b := sscanf_lf cmdstr st.CS.b } }
  else if strcasecmp "GW" st.optstr then
    .ok { st with CS := { st.CS with PrintGW := sscanf_d cmdstr st.CS.PrintGW } }
  else if strcasecmp "SURF" st.optstr then
    .ok { st with CS := { st.CS with PrintSurf := sscanf_d cmdstr st.CS.PrintSurf } }
  else if strcasecmp "SNOW" st.optstr then
    .ok { st with CS := { st.CS with PrintSnow := sscanf_d cmdstr st.CS.PrintSnow } }
  else if strcasecmp "RIVSTG" st.optstr then
    .ok { st with CS := { st.CS with PrintRivStg := sscanf_d cmdstr st.CS.PrintRivStg } }
  else if strcasecmp "RECHARGE" st.optstr then
    .ok { st with CS := { st.CS with PrintRech := sscanf_d cmdstr st.CS.PrintRech } }
  else if strcasecmp "CMC" st.optstr then
    .ok { st with CS := { st.CS with PrintIS := sscanf_d cmdstr st.CS.PrintIS } }
  else if strcasecmp "UNSAT" st.optstr then
    .ok { st with CS := { st.CS with PrintUnsat := sscanf_d cmdstr st.CS.PrintUnsat } }
  else if strcasecmp "EC" st.optstr then
    .ok { st with CS := { st.CS with PrintET := st.CS.PrintET.set 0 (sscanf_d cmdstr (st.CS.PrintET.getD 0 0)) } }
  else if strcasecmp "ETT" st.optstr then
    .ok { st with CS := { st.CS with PrintET := st.CS.PrintET.set 1 (sscanf_d cmdstr (st.CS.PrintET.getD 1 0)) } }
  else if strcasecmp "EDIR" st.optstr then
    .ok { st with CS := { st.CS with PrintET := st.CS.PrintET.set 2 (sscanf_d cmdstr (st.CS.PrintET.getD 2 0)) } }
  else if strcasecmp "RIVFLX0" st.optstr then
    .ok { st with CS := { st.CS with PrintRivFlx := st.CS.PrintRivFlx.set 0 (sscanf_d cmdstr (st.CS.PrintRivFlx.getD 0 0)) } }
  else if strcasecmp "RIVFLX1" st.optstr then
    .ok { st with CS := { st.CS with PrintRivFlx := st.CS.PrintRivFlx.set 1 (sscanf_d cmdstr (st.CS.PrintRivFlx.getD 1 0)) } }
  else if strcasecmp "RIVFLX2" st.optstr then
    .ok { st with CS := { st.CS with PrintRivFlx := st.CS.PrintRivFlx.set 2 (sscanf_d cmdstr (st.CS.PrintRivFlx.getD 2 0)) } }
  else if strcasecmp "RIVFLX3" st.optstr then
    .ok { st with CS := { st.CS with PrintRivFlx := st.CS.PrintRivFlx.set 3 (sscanf_d cmdstr (st.CS.PrintRivFlx.getD 3 0)) } }
  else if strcasecmp "RIVFLX4" st.optstr then
    .ok { st with CS := { st.CS with PrintRivFlx := st.CS.PrintRivFlx.set 4 (sscanf_d cmdstr (st.CS.PrintRivFlx.getD 4 0)) } }
  else if strcasecmp "RIVFLX5" st.optstr then
    .ok { st with CS := { st.CS with PrintRivFlx := st.CS.PrintRivFlx.set 5 (sscanf_d cmdstr (st.CS.PrintRivFlx.getD 5 0)) } }
  else if strcasecmp "RIVFLX6" st.optstr then
    .ok { st with CS := { st.CS with PrintRivFlx := st.CS.PrintRivFlx.set 6 (sscanf_d cmdstr (st.CS.PrintRivFlx.getD 6 0)) } }
  else if strcasecmp "RIVFLX7" st.optstr then
    .ok { st with CS := { st.CS with PrintRivFlx := st.CS.PrintRivFlx.set 7 (sscanf_d cmdstr (st.CS.PrintRivFlx.getD 7 0)) } }
  else if strcasecmp "RIVFLX8" st.optstr then
    .ok { st with CS := { st.CS with PrintRivFlx := st.CS.PrintRivFlx.set 8 (sscanf_d cmdstr (st.CS.PrintRivFlx.getD 8 0)) } }
  else if strcasecmp "RIVFLX9" st.optstr then
    .ok { st with CS := { st.CS with PrintRivFlx := st.CS.PrintRivFlx.set 9 (sscanf_d cmdstr (st.CS.PrintRivFlx.getD 9 0)) } }
  else
    .exit 1 (.unrecognized st.optstr)

/-- Lines 711-835: the body of the loop over the lines of the .para file.  A
line that starts with `#`, a newline or NUL is skipped, and so is a line whose
first token starts with `#`. -/
def paraBody (cmdstr : List Char) (st : State) : Outcome State :=
  if firstByte cmdstr != '#' && firstByte cmdstr != '\n' && firstByte cmdstr != Char.ofNat 0 then
    let st := { st with optstr := sscanf_s cmdstr st.optstr }
    if firstByte st.optstr = '#' then .ok st
    else paraKeyword cmdstr st
  else .ok st

/-- Lines 707-837: the loop over the lines of the .para file. -/
def paraLoop : List (List Char) → State → Outcome State
  | [], st => .ok st
  | cmdstr :: rest, st => (paraBody cmdstr st).bind (paraLoop rest)

/-! ## The output schedule (read_alloc.c, lines 841-864) -/

/-- Value of `INT_MAX` of `limits.h` for the `int` of 32 bits. -/
def INT_MAX : Int := 2147483647

/-- Value of `INT_MIN` of `limits.h` for the `int` of 32 bits. -/
def INT_MIN : Int := -2147483648

/-- The integral part of a real: truncation toward zero. -/
def truncQ (q : ℚ) : Int := if 0 ≤ q then ⌊q⌋ else ⌈q⌉

/-- An integer as a value of type `int`: `none` when an `int` cannot hold it. -/
def inInt (z : Int) : Option Int := if INT_MIN ≤ z ∧ z ≤ INT_MAX then some z else none

/-- Conversion `(int) q` of a finite real: the integral part of `q`.  The
behaviour is undefined (`none`) when an `int` cannot hold the integral part. -/
def castInt (q : ℚ) : Option Int := inInt (truncQ q)

/-- Counting up from `n`, at most `fuel` times, while the next power of `base`
still is at most `y`. -/
def ilogAux (base y : ℚ) : Nat → Nat → Nat
  | 0, n => n
  | fuel + 1, n => if base ^ (n + 1) ≤ y then ilogAux base y fuel (n + 1) else n

/-- For `1 < base` and `1 ≤ y`: the largest `n` with `base ^ n ≤ y`, which is
the integer part of `log (y) / log (base)`.  By Bernoulli's inequality that `n`
is at most `y / (base - 1)`, which bounds the count. -/
def ilog (base y : ℚ) : Nat := ilogAux base y ⌈y / (base - 1)⌉.toNat 0

/-- The C expression `(int) (log (x) / log (a))` in exact arithmetic.  It is
undefined (`none`) when the quotient is infinite or NaN: `a < 0` or `x < 0`
(`log` gives NaN), `x = 0` (`log` gives minus infinity), `a = 1` (division by
`log 1 = 0`).  For `a = 0` and `x > 0` the quotient is a finite number divided
by minus infinity, a zero.  Otherwise `log (x) / log (a)` has the magnitude of
`log (y) / log (base)` with `base = max (a, 1/a)`, `y = max (x, 1/x)`, and is
negative exactly when `a` and `x` lie on different sides of 1. -/
def truncLogRatio (x a : ℚ) : Option Int :=
  if a < 0 then none
  else if a = 0 then (if 0 < x then some 0 else none)
  else if x ≤ 0 then none
  else if a = 1 then none
  else
    let base := if 1 < a then a else 1 / a
    let y := if 1 ≤ x then x else 1 / x
    let n : Int := (ilog base y : Nat)
    some (if decide (1 < a) = decide (1 ≤ x) then n else -n)

/-- Lines 841-849: the value of `NumTout`.  A division by `b = 0` gives an
infinity or a NaN, whose conversion to `int` is undefined, and so is the
conversion of a number whose integral part an `int` cannot hold: the period
`EndTime - StartTime` on line 845, and the quotients. -/
def numTout (a b StartTime EndTime : ℚ) : Option Int :=
  if a ≠ 1 then
    if b = 0 then none
    else (truncLogRatio (1 - (EndTime - StartTime) * (1 - a) / b) a).bind inInt
  else
    if b = 0 then none
    else
      match castInt (EndTime - StartTime) with
      | none => none
      | some period =>
        if (EndTime - StartTime) / b - (period : ℚ) / b > 0 then
          castInt ((EndTime - StartTime) / b)
        else
          castInt ((EndTime - StartTime) / b - 1)

/-- Lines 855-861: the value stored in `Tout[i]` by the loop:
`Tout[0] = StartTime`, `Tout[i] = Tout[i - 1] + pow (a, i) * b`. -/
def ToutAt (a b StartTime : ℚ) : Nat → ℚ
  | 0 => StartTime
  | i + 1 => ToutAt a b StartTime i + a ^ (i + 1) * b

/-- Lines 851-864: `NumSteps`, the allocation of `Tout`, the loop that fills
its `NumSteps + 1` entries, and the raising of the last entry to `EndTime`.
With a negative `NumSteps` the block has no entry `Tout[NumSteps]` and the
access on line 863 is out of bounds; the sums `NumTout + 1` of line 851 and
`NumSteps + 1` of lines 853 and 855 are undefined when they exceed `INT_MAX`. -/
def schedule (cs : Control_Data) : Outcome Control_Data :=
  match numTout cs.a cs.b cs.StartTime cs.EndTime with
  | none => .undefined
  | some NumTout =>
    let NumSteps : Int := NumTout + 1
    if NumSteps < 0 ∨ INT_MAX < NumSteps + 1 then .undefined
    else
      let Tout := (List.range (NumSteps.toNat + 1)).map (ToutAt cs.a cs.b cs.StartTime)
      let Tout :=
        if Tout.getD NumSteps.toNat 0 < cs.EndTime then Tout.set NumSteps.toNat cs.EndTime
        else Tout
      .ok { cs with NumSteps := NumSteps, Tout := Tout }

/-- Lines 865-909: the checks that the required parameters have been given. -/
def paraChecks (cs : Control_Data) : Outcome Control_Data :=
  if cs.abstol = BADVAL then .exit 1 (.mustBeDefined "ABSTOL")
  else if cs.reltol = BADVAL then .exit 1 (.mustBeDefined "RELTOL")
  else if cs.InitStep = BADVAL then .exit 1 (.mustBeDefined "INIT_STEP")
  else if cs.MaxStep = BADVAL then .exit 1 (.mustBeDefined "MAX_STEP")
  else if cs.StartTime = BADVAL then .exit 1 (.mustBeDefined "START")
  else if cs.EndTime = BADVAL then .exit 1 (.mustBeDefined "END")
  else if cs.ETStep = BADVAL then .exit 1 (.mustBeDefined "LSM_STEP")
  else if cs.outtype = BADVAL then .exit 1 (.mustBeDefined "OUTPUT_TYPE")
  else if cs.outtype = 0 ∧ (cs.a = BADVAL ∨ cs.b = BADVAL) then .exit 1 (.mustBeDefined "A and B")
  else .ok cs

/-- Lines 657-909: the reading of an opened .para file with content `content`,
from the defaults to the checks. -/
def readPara (content : List Char) (st : State) : Outcome State :=
  (paraLoop (fgetsLines content) (paraDefaults st)).bind fun st1 =>
  (schedule st1.CS).bind fun cs1 =>
  (paraChecks cs1).bind fun cs2 =>
  .ok { st1 with CS := cs2 }

/-! ## The .calib file (read_alloc.c, lines 927-1083)

`FLUX_PIHM` tells whether the program is compiled with `_FLUX_PIHM_`. -/

/-- Lines 930-969: every calibration multiplier is set to 1. -/
def calibDefaults (FLUX_PIHM : Bool) (st : State) : State :=
  let Cal : globalCal := { st.CS.Cal with
    KsatH := 1, KsatV := 1, infKsatV := 1, macKsatH := 1, macKsatV := 1, infD := 1,
    RzD := 1, macD := 1, Porosity := 1, Alpha := 1, Beta := 1, vAreaF := 1, hAreaF := 1,
    VegFrac := 1, Albedo := 1, Rough := 1, Prep := 1, Temp := 1,
    rivRough := 1, rivKsatH := 1, rivKsatV := 1, rivbedThick := 1, rivDepth := 1,
    rivShapeCoeff := 1, Rmin := 1, ThetaRef := 1, ThetaW := 1 }
  let Cal : globalCal :=
    if FLUX_PIHM then
      { Cal with TF := 1, IS := 1, Czil := 1, fx_soil := 1, fx_canopy := 1, Rs_ref := 1, h_s := 1 }
    else Cal
  { st with
    CS := { st.CS with Cal := Cal },
    DS := { st.DS with pcCal := { Et0 := 1, Et1 := 1, Et2 := 1 } } }

/-- Lines 990-1075: the chain of `strcasecmp` tests of the .calib file. -/
def calibKeyword (FLUX_PIHM : Bool) (cmdstr : List Char) (st : State) : Outcome State :=
  if strcasecmp "KSATH" st.optstr then
    .ok { st with CS := { st.CS with Cal := { st.CS.Cal with KsatH := sscanf_lf cmdstr st.CS.Cal.KsatH } } }
  else if strcasecmp "KSATV" st.optstr then
    .ok { st with CS := { st.CS with Cal := { st.CS.Cal with KsatV := sscanf_lf cmdstr st.CS.Cal.KsatV } } }
  else if strcasecmp "KINF" st.optstr then
    .ok { st with CS := { st.CS with Cal := { st.CS.Cal with infKsatV := sscanf_lf cmdstr st.CS.Cal.infKsatV } } }
  else if strcasecmp "KMACSATH" st.optstr then
    .ok { st with CS := { st.CS with Cal := { st.CS.Cal with macKsatH := sscanf_lf cmdstr st.CS.Cal.macKsatH } } }
  else if strcasecmp "KMACSATV" st.optstr then
    .ok { st with CS := { st.CS with Cal := { st.CS.Cal with macKsatV := sscanf_lf cmdstr st.CS.Cal.macKsatV } } }
  else if strcasecmp "DINF" st.optstr then
    .ok { st with CS := { st.CS with Cal := { st.CS.Cal with infD := sscanf_lf cmdstr st.CS.Cal.infD } } }
  else if strcasecmp "DROOT" st.optstr then
    .ok { st with CS := { st.CS with Cal := { st.CS.Cal with RzD := sscanf_lf cmdstr st.CS.Cal.RzD } } }
  else if strcasecmp "DMAC" st.optstr then
    .ok { st with CS := { st.CS with Cal := { st.CS.Cal with macD := sscanf_lf cmdstr st.CS.Cal.macD } } }
  else if strcasecmp "POROSITY" st.optstr then
    .ok { st with CS := { st.CS with Cal := { st.CS.Cal with Porosity := sscanf_lf cmdstr st.CS.Cal.Porosity } } }
  else if strcasecmp "ALPHA" st.optstr then
    .ok { st with CS := { st.CS with Cal := { st.CS.Cal with Alpha := sscanf_lf cmdstr st.CS.Cal.Alpha } } }
  else if strcasecmp "BETA" st.optstr then
    .ok { st with CS := { st.CS with Cal := { st.CS.Cal with Beta := sscanf_lf cmdstr st.CS.Cal.Beta } } }
  else if strcasecmp "MACVF" st.optstr then
    .ok { st with CS := { st.CS with Cal := { st.CS.Cal with vAreaF := sscanf_lf cmdstr st.CS.Cal.vAreaF } } }
  else if strcasecmp "MACHF" st.optstr then
    .ok { st with CS := { st.CS with Cal := { st.CS.Cal with hAreaF := sscanf_lf cmdstr st.CS.Cal.hAreaF } } }
  else if strcasecmp "VEGFRAC" st.optstr then
    .ok { st with CS := { st.CS with Cal := { st.CS.Cal with VegFrac := sscanf_lf cmdstr st.CS.Cal.VegFrac } } }
  else if strcasecmp "ALBEDO" st.optstr then
    .ok { st with CS := { st.CS with Cal := { st.CS.Cal with Albedo := sscanf_lf cmdstr st.CS.Cal.Albedo } } }
  else if strcasecmp "ROUGH" st.optstr then
    .ok { st with CS := { st.CS with Cal := { st.CS.Cal with Rough := sscanf_lf cmdstr st.CS.Cal.Rough } } }
  else if strcasecmp "PRCP" st.optstr then
    .ok { st with CS := { st.CS with Cal := { st.CS.Cal with Prep := sscanf_lf cmdstr st.CS.Cal.Prep } } }
  else if strcasecmp "SFCTMP" st.optstr then
    .ok { st with CS := { st.CS with Cal := { st.CS.Cal with Temp := sscanf_lf cmdstr st.CS.Cal.Temp } } }
  else if strcasecmp "EC" st.optstr then
    .ok { st with DS := { st.DS with pcCal := { st.DS.pcCal with Et0 := sscanf_lf cmdstr st.DS.pcCal.Et0 } } }
  else if strcasecmp "ETT" st.optstr then
    .ok { st with DS := { st.DS with pcCal := { st.DS.pcCal with Et1 := sscanf_lf cmdstr st.DS.pcCal.Et1 } } }
  else if strcasecmp "EDIR" st.optstr then
    .ok { st with DS := { st.DS with pcCal := { st.DS.pcCal with Et2 := sscanf_lf cmdstr st.DS.pcCal.Et2 } } }
  else if strcasecmp "ROUGH_RIV" st.optstr then
    .ok { st with CS := { st.CS with Cal := { st.CS.Cal with rivRough := sscanf_lf cmdstr st.CS.Cal.rivRough } } }
  else if strcasecmp "KRIVH" st.optstr then
    .ok { st with CS := { st.CS with Cal := { st.CS.Cal with rivKsatH := sscanf_lf cmdstr st.CS.Cal.rivKsatH } } }
  else if strcasecmp "KRIVV" st.optstr then
    .ok { st with CS := { st.CS with Cal := { st.CS.Cal with rivKsatV := sscanf_lf cmdstr st.CS.Cal.rivKsatV } } }
  else if strcasecmp "BEDTHCK" st.optstr then
    .ok { st with CS := { st.CS with Cal := { st.CS.Cal with rivbedThick := sscanf_lf cmdstr st.CS.Cal.rivbedThick } } }
  else if strcasecmp "RIV_DPTH" st.optstr then
    .ok { st with CS := { st.CS with Cal := { st.CS.Cal with rivDepth := sscanf_lf cmdstr st.CS.Cal.rivDepth } } }
  else if strcasecmp "RIV_WDTH" st.optstr then
    .ok { st with CS := { st.CS with Cal := { st.CS.Cal with rivShapeCoeff := sscanf_lf cmdstr st.CS.Cal.rivShapeCoeff } } }
  else if strcasecmp "RS" st.optstr then
    .ok { st with CS := { st.CS with Cal := { st.CS.Cal with Rmin := sscanf_lf cmdstr st.CS.Cal.Rmin } } }
  else if strcasecmp "WLTSMC" st.optstr then
    .ok { st with CS := { st.CS with Cal := { st.CS.Cal with ThetaW := sscanf_lf cmdstr st.CS.Cal.ThetaW } } }
  else if strcasecmp "REFSMC" st.optstr then
    .ok { st with CS := { st.CS with Cal := { st.CS.Cal with ThetaRef := sscanf_lf cmdstr st.CS.Cal.ThetaRef } } }
  else if FLUX_PIHM && strcasecmp "DRIP" st.optstr then
    .ok { st with CS := { st.CS with Cal := { st.CS.Cal with TF := sscanf_lf cmdstr st.CS.Cal.TF } } }
  else if FLUX_PIHM && strcasecmp "CMCMAX" st.optstr then
    .ok { st with CS := { st.CS with Cal := { st.CS.Cal with IS := sscanf_lf cmdstr st.CS.Cal.IS } } }
  else if FLUX_PIHM && strcasecmp "CZIL" st.optstr then
    .ok { st with CS := { st.CS with Cal := { st.CS.Cal with Czil := sscanf_lf cmdstr st.CS.Cal.Czil } } }
  else if FLUX_PIHM && strcasecmp "FXEXP" st.optstr then
    .ok { st with CS := { st.CS with Cal := { st.CS.Cal with fx_soil := sscanf_lf cmdstr st.CS.Cal.fx_soil } } }
  else if FLUX_PIHM && strcasecmp "CFACTR" st.optstr then
    .ok { st with CS := { st.CS with Cal := { st.CS.Cal with fx_canopy := sscanf_lf cmdstr st.CS.Cal.fx_canopy } } }
  else if FLUX_PIHM && strcasecmp "RGL" st.optstr then
    .ok { st with CS := { st.CS with Cal := { st.CS.Cal with Rs_ref := sscanf_lf cmdstr st.CS.Cal.Rs_ref } } }
  else if FLUX_PIHM && strcasecmp "HS" st.optstr then
    .ok { st with CS := { st.CS with Cal := { st.CS.Cal with h_s := sscanf_lf cmdstr st.CS.Cal.h_s } } }
  else
    .exit 1 (.unrecognized st.optstr)

/-- Lines 974-1076: the body of the loop over the lines of the .calib file.
For a line whose first token starts with `#` the body calls
`fgets (cmdstr, MAXSTRING, para_file)` (line 983) on the stream that line 839
has closed: the behaviour is undefined. -/
def calibBody (FLUX_PIHM : Bool) (cmdstr : List Char) (st : State) : Outcome State :=
  if firstByte cmdstr != '#' && firstByte cmdstr != '\n' && firstByte cmdstr != Char.ofNat 0 then
    let st := { st with optstr := sscanf_s cmdstr st.optstr }
    if firstByte st.optstr = '#' then .undefined
    else calibKeyword FLUX_PIHM cmdstr st
  else .ok st

/-- Lines 970-1078: the loop over the lines of the .calib file. -/
def calibLoop (FLUX_PIHM : Bool) : List (List Char) → State → Outcome State
  | [], st => .ok st
  | cmdstr :: rest, st => (calibBody FLUX_PIHM cmdstr st).bind (calibLoop FLUX_PIHM rest)

/-- Lines 927-1083: the reading of an opened .calib file. -/
def readCalib (FLUX_PIHM : Bool) (content : List Char) (st : State) : Outcome State :=
  calibLoop FLUX_PIHM (fgetsLines content) (calibDefaults FLUX_PIHM st)

/-! ## Project name and files (read_alloc.c, lines 59-97) -/

/-- Call `strtok (tempname, ".")`: the first run of bytes other than `.`, or
`NULL` (`none`) when there is none. -/
def strtokDot (s : List Char) : Option (List Char) :=
  let t := s.dropWhile (fun c => c == '.')
  if t.isEmpty then none else some (t.takeWhile (fun c => c != '.'))

/-- Lines 61-77: `projectname` and `ensemble_mode`.  When `filename` contains a
`.` but `strtok` finds no token, `strlen (token)` is applied to `NULL`. -/
def projectName (filename : List Char) : Option (List Char × Bool) :=
  if filename.contains '.' then
    match strtokDot filename with
    | some token => some (token, true)
    | none => none
  else some (filename, false)

/-- The path `"input/%s/%s.<ext>"` built by `sprintf`. -/
def inputPath (projectname : List Char) (ext : String) : List Char :=
  "input/".toList ++ projectname ++ "/".toList ++ projectname ++ ".".toList ++ ext.toList

/-- Call `fopen (path, "r")` followed by the test of the result against `NULL`
and the fatal error of that file. -/
def openInput (fopen : List Char → Option (List Char)) (path : List Char) (ext : String) :
    Outcome (List Char) :=
  match fopen path with
  | some content => .ok content
  | none => .exit 1 (.cannotOpen ext)

/-- The parts of `read_alloc` that load the data of an opened file with `fscanf`
into freshly allocated blocks, each taken as a function of the file content
and of the memory before it.  They contain no call of `exit`; `none` stands for
undefined behaviour inside the part. -/
structure Loaders where
  /-- Lines 99-166, the .riv file. -/
  riv : List Char → State → Option State
  /-- Lines 185-208, the .mesh file. -/
  mesh : List Char → State → Option State
  /-- Lines 229-251, the .att file. -/
  att : List Char → State → Option State
  /-- Lines 269-284, the .soil file. -/
  soil : List Char → State → Option State
  /-- Lines 302-314, the .geol file. -/
  geol : List Char → State → Option State
  /-- Lines 333-358, the land-cover table. -/
  lc : List Char → State → Option State
  /-- Lines 434-465, allocation and second pass over the .forc file. -/
  forcData : List Char → State → Option State
  /-- Lines 533-557, allocation and second pass over the .lai file. -/
  laiData : Int → List Char → State → Option State
  /-- Lines 585-636, the .ibc file. -/
  ibc : List Char → State → Option State

/-- Result of a loading part as an outcome. -/
def Outcome.ofOption {α : Type} : Option α → Outcome α
  | some v => .ok v
  | none => .undefined

/-! ## First pass over a time-series file (lines 391-432 and 505-531) -/

/-- Call `fscanf (f, "%*s %d", &x)` at the start of a file. -/
def fscanf_d (content : List Char) (old : Option Int) : Option Int :=
  match scanToken content with
  | some (_, r) =>
    match scanInt r with
    | some (v, _) => some v
    | none => old
  | none => old

/-- Call `sscanf (cmdstr, "%*s %d", &ind)` for a variable that may not have been
assigned yet. -/
def sscanf_ind (cmdstr : List Char) (old : Option Int) : Option Int :=
  fscanf_d (cstr cmdstr) old

/-- The `length` field a `count` pointer refers to. -/
def getLength (p : CountPtr) (ds : Model_Data) : Option Int :=
  match p with
  | .meteo k => (ds.TSD_meteo_length.getD k none)
  | .lai k => (ds.TSD_lai_length.getD k none)

/-- Assignment to the `length` field a `count` pointer refers to. -/
def setLength (p : CountPtr) (v : Int) (ds : Model_Data) : Model_Data :=
  match p with
  | .meteo k => { ds with TSD_meteo_length := ds.TSD_meteo_length.set k (some v) }
  | .lai k => { ds with TSD_lai_length := ds.TSD_lai_length.set k (some v) }

/-- Body of the first-pass loop: a header line (`METEO_TS` or `LAI_TS`) sets
`ind`, resets the length of series `ind - 1` (an entry of the block of `n`
series) and points `count` to it; `TIME` and `TS` lines are skipped; every
other line that does not start with a newline, NUL or tab increments `*count`. -/
def tsPass1Body (key : String) (mk : Nat → CountPtr) (n : Int) (cmdstr : List Char)
    (st : State) : Outcome State :=
  if firstByte cmdstr != '\n' && firstByte cmdstr != Char.ofNat 0 && firstByte cmdstr != '\t' then
    let st := { st with optstr := sscanf_s cmdstr st.optstr }
    if strcasecmp key st.optstr then
      let st := { st with ind := sscanf_ind cmdstr st.ind }
      match st.ind with
      | none => .undefined
      | some ind =>
        if 1 ≤ ind ∧ ind ≤ n then
          .ok { st with DS := setLength (mk (ind - 1).toNat) 0 st.DS,
                        count := some (mk (ind - 1).toNat) }
        else .undefined
    else if strcasecmp "TIME" st.optstr then .ok st
    else if strcasecmp "TS" st.optstr then .ok st
    else
      match st.count with
      | none => .undefined
      | some p =>
        match getLength p st.DS with
        | none => .undefined
        | some len => .ok { st with DS := setLength p (len + 1) st.DS }
  else .ok st

/-- The first-pass loop over the lines after the top line. -/
def tsPass1 (key : String) (mk : Nat → CountPtr) (n : Int) :
    List (List Char) → State → Outcome State
  | [], st => .ok st
  | cmdstr :: rest, st => (tsPass1Body key mk n cmdstr st).bind (tsPass1 key mk n rest)

/-- The test `if (ind != n) { printf ("ERROR!\n"); exit (1); }`. -/
def checkCount (n : Int) (st : State) : Outcome State :=
  match st.ind with
  | none => .undefined
  | some ind => if ind ≠ n then .exit 1 .countMismatch else .ok st

/-- Lines 361-465: the .forc file. -/
def readForc (L : Loaders) (content : List Char) (st : State) : Outcome State :=
  match fscanf_d content (some st.DS.NumTS) with
  | none => .undefined
  | some n =>
    let ds : Model_Data :=
      { st.DS with NumTS := n, TSD_meteo_length := List.replicate n.toNat none }
    let st : State := { st with DS := ds }
    (tsPass1 "METEO_TS" CountPtr.meteo n (fgetsLines content).tail st).bind fun st =>
    (checkCount n st).bind fun st =>
    Outcome.ofOption (L.forcData content st)

/-- Lines 470-477: `read_lai`, set when some element has a positive LAI type. -/
def read_lai (ds : Model_Data) : Bool :=
  (ds.Ele.take ds.NumEle.toNat).any (fun e => decide (e.LAI > 0))

/-- Lines 493-559: the .lai file. -/
def readLai (L : Loaders) (content : List Char) (st : State) : Outcome State :=
  match fscanf_d content none with
  | none => .undefined
  | some num_lai_ts =>
    let ds : Model_Data :=
      { st.DS with TSD_lai_length := List.replicate num_lai_ts.toNat none }
    let st : State := { st with DS := ds }
    (tsPass1 "LAI_TS" CountPtr.lai num_lai_ts (fgetsLines content).tail st).bind fun st =>
    (checkCount num_lai_ts st).bind fun st =>
    Outcome.ofOption (L.laiData num_lai_ts content st)

/-! ## The whole of `read_alloc` -/

/-- The function `read_alloc (filename, DS, CS)`: the files are opened and read
in the order .riv, .mesh, .att, .soil, .geol, vegprmt.tbl, .forc, .lai (when
needed), .ibc, .para, .calib.  `fopen` maps a path to the content of the file,
or to `none` when it cannot be opened. -/
def read_alloc (FLUX_PIHM : Bool) (L : Loaders) (fopen : List Char → Option (List Char))
    (filename : List Char) (st : State) : Outcome State :=
  match projectName filename with
  | none => .undefined
  | some (projectname, _) =>
    (openInput fopen (inputPath projectname "riv") "riv").bind fun riv_file =>
    (Outcome.ofOption (L.riv riv_file st)).bind fun st =>
    (openInput fopen (inputPath projectname "mesh") "mesh").bind fun mesh_file =>
    (Outcome.ofOption (L.mesh mesh_file st)).bind fun st =>
    (openInput fopen (inputPath projectname "att") "att").bind fun att_file =>
    (Outcome.ofOption (L.att att_file st)).bind fun st =>
    (openInput fopen (inputPath projectname "soil") "soil").bind fun soil_file =>
    (Outcome.ofOption (L.soil soil_file st)).bind fun st =>
    (openInput fopen (inputPath projectname "geol") "geol").bind fun geol_file =>
    (Outcome.ofOption (L.geol geol_file st)).bind fun st =>
    (openInput fopen "input/vegprmt.tbl".toList "lc").bind fun lc_file =>
    (Outcome.ofOption (L.lc lc_file st)).bind fun st =>
    (openInput fopen (inputPath projectname "forc") "forc").bind fun forc_file =>
    (readForc L forc_file st).bind fun st =>
    (if read_lai st.DS then
      (openInput fopen (inputPath projectname "lai") "lai").bind fun lai_file =>
      readLai L lai_file st
     else .ok st).bind fun st =>
    (openInput fopen (inputPath projectname "ibc") "ibc").bind fun ibc_file =>
    (Outcome.ofOption (L.ibc ibc_file st)).bind fun st =>
    (openInput fopen (inputPath projectname "para") "para").bind fun para_file =>
    (readPara para_file st).bind fun st =>
    (openInput fopen (inputPath projectname "calib") "calib").bind fun global_calib =>
    readCalib FLUX_PIHM global_calib st

/-! ## Observing outcomes, and concrete inputs -/

/-- The outcome with a function applied to the returned value. -/
def Outcome.map {α β : Type} (f : α → β) : Outcome α → Outcome β
  | .ok v => .ok (f v)
  | .exit s m => .exit s m
  | .undefined => .undefined

/-- First token of a line as `sscanf (cmdstr, "%s", optstr)` finds it. -/
def firstToken (cmdstr : List Char) : Option (List Char) :=
  (scanToken (cstr cmdstr)).map Prod.fst

/-- The keyword `key` is absent from a file: no line that the `fgets` loop
reads has it as its first token, whatever the case of the letters. -/
def keywordAbsent (key : String) (content : List Char) : Bool :=
  (fgetsLines content).all fun cmdstr =>
    match firstToken cmdstr with
    | some tok => !strcasecmp key tok
    | none => true

/-- The keywords of the .para file, in the order of the tests of lines 727-824. -/
def paraKeywords : List String :=
  ["VERBOSE", "DEBUG", "INIT_MODE", "ASCII_OUTPUT", "SPINUP_MODE", "UNSAT_MODE", "SAT_MODE",
   "RIV_MODE", "SOLVER", "GSTYPE", "MAXK", "DELTA", "ABSTOL", "RELTOL", "INIT_SOLVER_STEP",
   "MAX_SOLVER_STEP", "LSM_STEP", "START", "END", "OUTPUT_TYPE", "STEPSIZE_FACTOR",
   "MODEL_STEPSIZE", "GW", "SURF", "SNOW", "RIVSTG", "RECHARGE", "CMC", "UNSAT", "EC", "ETT",
   "EDIR", "RIVFLX0", "RIVFLX1", "RIVFLX2", "RIVFLX3", "RIVFLX4", "RIVFLX5", "RIVFLX6",
   "RIVFLX7", "RIVFLX8", "RIVFLX9"]

/-- The token is one of the keywords of the .para file, up to letter case. -/
def isParaKeyword (tok : List Char) : Bool := paraKeywords.any fun key => strcasecmp key tok

/-- The keywords of the .calib file, in the order of the tests of lines 990-1064;
the last seven only with `_FLUX_PIHM_`. -/
def calibKeywords (FLUX_PIHM : Bool) : List String :=
  ["KSATH", "KSATV", "KINF", "KMACSATH", "KMACSATV", "DINF", "DROOT", "DMAC", "POROSITY",
   "ALPHA", "BETA", "MACVF", "MACHF", "VEGFRAC", "ALBEDO", "ROUGH", "PRCP", "SFCTMP", "EC",
   "ETT", "EDIR", "ROUGH_RIV", "KRIVH", "KRIVV", "BEDTHCK", "RIV_DPTH", "RIV_WDTH", "RS",
   "WLTSMC", "REFSMC"] ++
  (if FLUX_PIHM then ["DRIP", "CMCMAX", "CZIL", "FXEXP", "CFACTR", "RGL", "HS"] else [])

/-- The token is one of the keywords of the .calib file, up to letter case. -/
def isCalibKeyword (FLUX_PIHM : Bool) (tok : List Char) : Bool :=
  (calibKeywords FLUX_PIHM).any fun key => strcasecmp key tok

/-- A line of the .calib file on which the loop body does not reach line 983:
a line skipped for its first byte, or a line with a first token that does not
start with `#`. -/
def calibPlain (cmdstr : List Char) : Bool :=
  firstByte cmdstr == '#' || firstByte cmdstr == '\n' || firstByte cmdstr == Char.ofNat 0 ||
    match firstToken cmdstr with
    | some tok => firstByte tok != '#'
    | none => false

/-- The output times before the last one is raised: entries `0 .. N`. -/
def rawTout (a b S : ℚ) (N : Nat) : List ℚ := (List.range (N + 1)).map (ToutAt a b S)

/-- The schedule stored in a control structure is the one lines 841-864 compute
from its own `a`, `b`, `StartTime` and `EndTime`. -/
def IsSchedule (cs : Control_Data) : Prop :=
  ∃ NumTout : Int, numTout cs.a cs.b cs.StartTime cs.EndTime = some NumTout ∧
    cs.NumSteps = NumTout + 1 ∧ 0 ≤ cs.NumSteps ∧
    cs.Tout = (if ToutAt cs.a cs.b cs.StartTime cs.NumSteps.toNat < cs.EndTime
      then (rawTout cs.a cs.b cs.StartTime cs.NumSteps.toNat).set cs.NumSteps.toNat cs.EndTime
      else rawTout cs.a cs.b cs.StartTime cs.NumSteps.toNat)

/-- Every `exit` of the run has status 1. -/
def ExitsOne {α : Type} (x : Outcome α) : Prop := ∀ c m, x = .exit c m → c = 1

/-- A `globalCal` whose fields all hold `v`. -/
def calFill (v : ℚ) : globalCal :=
  ⟨v, v, v, v, v, v, v, v, v, v, v, v, v, v, v, v, v, v, v, v, v, v, v, v, v, v, v,
   v, v, v, v, v, v, v⟩

/-- A memory content on entry: every field holds the value 7 left there by
earlier use; no element, no series. -/
def mem7 : State :=
  { CS := { Verbose := 7, Debug := 7, Ascii := 7, Spinup := 7, Solver := 7, NumSteps := 7,
            PrintGW := 7, PrintSurf := 7, PrintSnow := 7, PrintRivStg := 7, PrintRech := 7,
            PrintIS := 7, PrintUnsat := 7, PrintET := [7, 7, 7],
            PrintRivFlx := [7, 7, 7, 7, 7, 7, 7, 7, 7, 7, 7], init_type := 7,
            abstol := 7, reltol := 7, InitStep := 7, MaxStep := 7, ETStep := 7, GSType := 7,
            MaxK := 7, delt := 7, StartTime := 7, EndTime := 7, outtype := 7, a := 7, b := 7,
            Tout := [], Cal := calFill 7 },
    DS := { UnsatMode := 7, SurfMode := 7, RivMode := 7, pcCal := ⟨7, 7, 7⟩, NumEle := 0,
            Ele := [], NumTS := 0, TSD_meteo_length := [], TSD_lai_length := [] },
    timeinfo := ⟨7, 7, 7, 7, 7, 7⟩, optstr := [], ind := none, count := none }

/-- A .para file with the required keywords, hourly output over one day. -/
def paraDay : String :=
  "ABSTOL 1E-4\nRELTOL 1E-3\nINIT_SOLVER_STEP 5E-5\nMAX_SOLVER_STEP 60\nLSM_STEP 900\n" ++
  "START 2000-01-01 00:00\nEND 2000-01-02 00:00\nOUTPUT_TYPE 1\n" ++
  "STEPSIZE_FACTOR 1\nMODEL_STEPSIZE 3600\n"

/-- The control structure after the loop over the file `paraDay`, before the schedule is
built: hourly output over one day. -/
def csDay : Control_Data :=
  { mem7.CS with a := 1, b := 3600, StartTime := 946684800, EndTime := 946771200 }

/-- The file `paraDay` with the step-size factor 2. -/
def paraGrow : String :=
  "ABSTOL 1E-4\nRELTOL 1E-3\nINIT_SOLVER_STEP 5E-5\nMAX_SOLVER_STEP 60\nLSM_STEP 900\n" ++
  "START 2000-01-01 00:00\nEND 2000-01-02 00:00\nOUTPUT_TYPE 1\n" ++
  "STEPSIZE_FACTOR 2\nMODEL_STEPSIZE 3600\n"

/-- The file `paraDay` without its END line. -/
def paraNoEnd : String :=
  "ABSTOL 1E-4\nRELTOL 1E-3\nINIT_SOLVER_STEP 5E-5\nMAX_SOLVER_STEP 60\nLSM_STEP 900\n" ++
  "START 2000-01-01 00:00\nOUTPUT_TYPE 1\n" ++
  "STEPSIZE_FACTOR 1\nMODEL_STEPSIZE 3600\n"

/-- The file `paraDay` with tolerances and solver steps that are zero or negative. -/
def paraBadTol : String :=
  "ABSTOL 0\nRELTOL -1\nINIT_SOLVER_STEP -5E-5\nMAX_SOLVER_STEP 0\nLSM_STEP 900\n" ++
  "START 2000-01-01 00:00\nEND 2000-01-02 00:00\nOUTPUT_TYPE 1\n" ++
  "STEPSIZE_FACTOR 1\nMODEL_STEPSIZE 3600\n"

/-- A .para file without MODEL_STEPSIZE, with OUTPUT_TYPE 1 and a simulation of
ten minutes. -/
def paraNoB : String :=
  "ABSTOL 1E-4\nRELTOL 1E-3\nINIT_SOLVER_STEP 5E-5\nMAX_SOLVER_STEP 60\nLSM_STEP 900\n" ++
  "START 2000-01-01 00:00\nEND 2000-01-01 00:10\nOUTPUT_TYPE 1\n" ++
  "STEPSIZE_FACTOR 1\n"

/-- A .para file whose base step (one hour) is longer than the simulation (one
minute). -/
def paraLongStep : String :=
  "ABSTOL 1E-4\nRELTOL 1E-3\nINIT_SOLVER_STEP 5E-5\nMAX_SOLVER_STEP 60\nLSM_STEP 900\n" ++
  "START 2000-01-01 00:00\nEND 2000-01-01 00:01\nOUTPUT_TYPE 1\n" ++
  "STEPSIZE_FACTOR 1\nMODEL_STEPSIZE 3600\n"

/-- The file `paraDay` followed by a last line `FOO 1` without a newline. -/
def paraTail : String := paraDay ++ "FOO 1"

/-- Loading parts that leave the memory as it is. -/
def loadNothing : Loaders :=
  { riv := fun _ st => some st, mesh := fun _ st => some st, att := fun _ st => some st,
    soil := fun _ st => some st, geol := fun _ st => some st, lc := fun _ st => some st,
    forcData := fun _ st => some st, laiData := fun _ _ st => some st,
    ibc := fun _ st => some st }

/-- A directory without any file: every `fopen` fails. -/
def noFiles : List Char → Option (List Char) := fun _ => none

/-- A .forc file with one forcing series of two rows. -/
def forcOne : String :=
  "NUM_METEO_TS 1\nMETEO_TS 1 WIND_LVL 10\nTIME PRCP SFCTMP RH SFCSPD SOLAR LONGWV PRES\n" ++
  "TS kg/m2/s K % m/s W/m2 W/m2 Pa\n" ++
  "2000-01-01 00:00 0 280 60 2 0 300 100000\n2000-01-01 01:00 0 280 60 2 0 300 100000\n"

/-- The file `forcOne` with the number of series declared as 2. -/
def forcTwoDeclared : String :=
  "NUM_METEO_TS 2\nMETEO_TS 1 WIND_LVL 10\nTIME PRCP SFCTMP RH SFCSPD SOLAR LONGWV PRES\n" ++
  "TS kg/m2/s K % m/s W/m2 W/m2 Pa\n" ++
  "2000-01-01 00:00 0 280 60 2 0 300 100000\n2000-01-01 01:00 0 280 60 2 0 300 100000\n"

/-- The file `paraDay` without its ABSTOL line. -/
def paraNoAbstol : String :=
  "RELTOL 1E-3\nINIT_SOLVER_STEP 5E-5\nMAX_SOLVER_STEP 60\nLSM_STEP 900\n" ++
  "START 2000-01-01 00:00\nEND 2000-01-02 00:00\nOUTPUT_TYPE 1\n" ++
  "STEPSIZE_FACTOR 1\nMODEL_STEPSIZE 3600\n"

/-- A project directory in which every input file exists: the given .forc,
.para and .calib contents, and empty files otherwise. -/
def projFiles (forc para calib : String) : List Char → Option (List Char) := fun path =>
  if path = inputPath "proj".toList "forc" then some forc.toList
  else if path = inputPath "proj".toList "para" then some para.toList
  else if path = inputPath "proj".toList "calib" then some calib.toList
  else some []

/-! ## The schedule as a series -/

/-- The unclamped value of the recurrence after `n` steps, as a sum:
`StartTime + sum_{k = 1 .. n} a ^ k * b`. -/
def unclampedSum (a b S : ℚ) (n : Nat) : ℚ :=
  S + ((List.range n).map fun k => a ^ (k + 1) * b).sum

/-- Partial sum of the geometric series with first step `b` and ratio `a`, the
series from which the step count of line 842 is derived:
`StartTime + b * (1 - a ^ i) / (1 - a)`. -/
def seriesFromB (a b S : ℚ) (i : Nat) : ℚ := S + b * (1 - a ^ i) / (1 - a)

/-- A .calib file with a comment line whose `#` is indented. -/
def calibIndented : String := "KSATH 2\n  # comment\nKSATV 3\n"

/-! ## C library: `fscanf` on an open file

The stream is the input not yet read.  A conversion that fails leaves its
variable as it was and the stream after the white space it has skipped; the
conversions after it in the same call are not done. -/

/-- Conversion `%*s` of `fscanf`: the next token is read and dropped. -/
def fscanf_skip (s : List Char) : List Char :=
  match scanToken s with
  | some (_, r) => r
  | none => skipSpace s

/-- One call of `fscanf` whose format is a row of `%d` conversions, one for each
variable of the list `olds` (the values the variables hold before the call). -/
def fscanf_ints : List Int → List Char → List Int × List Char
  | [], s => ([], s)
  | old :: olds, s =>
    match scanInt s with
    | none => (old :: olds, skipSpace s)
    | some (v, r) =>
      let (vs, r') := fscanf_ints olds r
      (v :: vs, r')

/-- One call of `fscanf` whose format is a row of `%lf` conversions. -/
def fscanf_reals : List ℚ → List Char → List ℚ × List Char
  | [], s => ([], s)
  | old :: olds, s =>
    match scanReal s with
    | none => (old :: olds, skipSpace s)
    | some (v, r) =>
      let (vs, r') := fscanf_reals olds r
      (v :: vs, r')

/-- Call `fscanf (f, "%d %*s ... %*s", &x)` with `nskip` conversions `%*s`: a
table size followed by the column titles. -/
def fscanf_count (nskip : Nat) (old : Int) (s : List Char) : Int × List Char :=
  match scanInt s with
  | none => (old, skipSpace s)
  | some (v, r) => (v, fscanf_skip^[nskip] r)

/-! ## The .mesh file (read_alloc.c, lines 187-196) and the .att file (lines 231-248) -/

/-- Lines 193-195: the three calls of `fscanf` that read the index, the nodes and
the neighbours of element `Ele[i]`. -/
def readEleRow (e : element) (s : List Char) : element × List Char :=
  let (index, s1) := fscanf_ints [e.index] s
  let (node, s2) := fscanf_ints [e.node.getD 0 0, e.node.getD 1 0, e.node.getD 2 0] s1
  let (nabr, s3) := fscanf_ints [e.nabr.getD 0 0, e.nabr.getD 1 0, e.nabr.getD 2 0] s2
  ({ e with index := index.getD 0 0, node := node, nabr := nabr }, s3)

/-- A loop `for (i = 0; i < n; i++)` that reads one row into each of the first
`n` entries of a block; `none` when the block has fewer than `n` entries. -/
def readRows (row : element → List Char → element × List Char) :
    Nat → List element → List Char → Option (List element × List Char)
  | 0, block, s => some (block, s)
  | _ + 1, [], _ => none
  | n + 1, e :: block, s =>
    match readRows row n block (row e s).2 with
    | none => none
    | some (es, s') => some ((row e s).1 :: es, s')

/-- Lines 187-196: the element table of the .mesh file.  `NumRiv` is the value
of `DS->NumRiv` set by the .riv file, `junk` the content of the entries of the
block that `malloc` returns.  The node table that follows (lines 198-205) is
stored in `DS->Node`, which the model leaves out. -/
def readMesh (junk : element) (NumRiv : Int) (content : List Char) (ds : Model_Data) :
    Option (Model_Data × List Char) :=
  let (NumEle, s) := fscanf_count 6 ds.NumEle content
  match readRows readEleRow NumEle.toNat (List.replicate (NumEle + NumRiv).toNat junk) s with
  | none => none
  | some (Ele, s') => some ({ ds with NumEle := NumEle, Ele := Ele }, s')

/-- Lines 235-247: the calls of `fscanf` that read the attributes of element
`Ele[i]`; the initial conditions go to `DS->Ele_IC`, which the model leaves out. -/
def readAttRow (e : element) (s : List Char) : element × List Char :=
  let s0 := match scanInt s with
    | some (_, r) => r
    | none => skipSpace s
  let (v1, s1) := fscanf_ints [e.soil, e.geol, e.LC] s0
  let (_, s2) := fscanf_reals [0, 0, 0, 0, 0] s1
  let (v3, s3) := fscanf_ints [e.meteo, e.LAI] s2
  let (v4, s4) := fscanf_ints [e.source] s3
  let (b0, s5) := fscanf_ints [e.BC.getD 0 0] s4
  let (b1, s6) := fscanf_ints [e.BC.getD 1 0] s5
  let (b2, s7) := fscanf_ints [e.BC.getD 2 0] s6
  let (v8, s8) := fscanf_ints [e.Macropore] s7
  ({ e with soil := v1.getD 0 0, geol := v1.getD 1 0, LC := v1.getD 2 0,
            meteo := v3.getD 0 0, LAI := v3.getD 1 0, source := v4.getD 0 0,
            BC := b0 ++ b1 ++ b2, Macropore := v8.getD 0 0 }, s8)

/-- Lines 231-248: the .att file: sixteen column titles, then one row for each
of the `NumEle` elements. -/
def readAtt (content : List Char) (ds : Model_Data) : Option Model_Data :=
  match readRows readAttRow ds.NumEle.toNat ds.Ele (fscanf_skip^[16] content) with
  | none => none
  | some (Ele, _) => some { ds with Ele := Ele }

/-- The loading parts with the .mesh and .att files read by `readMesh` and
`readAtt`, and the other parts leaving the memory as it is. -/
def loadMeshAtt (junk : element) (NumRiv : Int) : Loaders :=
  { loadNothing with
    mesh := fun content st =>
      (readMesh junk NumRiv content st.DS).map fun p => { st with DS := p.1 },
    att := fun content st => (readAtt content st.DS).map fun ds => { st with DS := ds } }

/-- An element whose fields all hold 9. -/
def junk9 : element :=
  { index := 9, node := [9, 9, 9], nabr := [9, 9, 9], soil := 9, geol := 9, LC := 9, meteo := 9,
    LAI := 9, source := 9, BC := [9, 9, 9], Macropore := 9 }

/-- A .mesh file with two elements: element 1 names element 2 as its neighbour
across edge 0, element 2 has no neighbour. -/
def meshOneWay : String :=
  "2 INDEX NODE1 NODE2 NODE3 NABR1 NABR2\n1 1 2 3 2 0 0\n2 2 4 3 0 0 0\n" ++
  "4 INDEX X Y ZMIN\n1 0 0 0 10\n2 1 0 0 10\n3 0 1 0 10\n4 1 1 0 10\n"

/-- A .att file for two elements; `lai1` and `lai2` are their LAI forcing types. -/
def attTwo (lai1 lai2 : String) : String :=
  "IND SOIL GEOL LC IS SNOW SURF UNSAT GW METEO LAI SS BC0 BC1 BC2 MACP\n" ++
  "1 1 1 1 0 0 0 0.5 1.5 1 " ++ lai1 ++ " 0 0 0 0 0\n" ++
  "2 1 1 1 0 0 0 0.5 1.5 1 " ++ lai2 ++ " 0 0 0 0 0\n"

/-- A project directory with the given .mesh, .att, .forc, .para and .calib
files and, when `lai` is given, a .lai file; the other files are empty. -/
def projFilesLai (mesh att forc para calib : String) (lai : Option String) :
    List Char → Option (List Char) := fun path =>
  if path = inputPath "proj".toList "mesh" then some mesh.toList
  else if path = inputPath "proj".toList "att" then some att.toList
  else if path = inputPath "proj".toList "forc" then some forc.toList
  else if path = inputPath "proj".toList "para" then some para.toList
  else if path = inputPath "proj".toList "calib" then some calib.toList
  else if path = inputPath "proj".toList "lai" then lai.map String.toList
  else some []

/-! ## Decimal numerals and the text of a .mesh file -/

/-- The character of a decimal digit. -/
def digitChar (d : Nat) : Char := Char.ofNat (48 + d)

/-- Decimal digits of `n` in front of `acc`, most significant first; `fuel`
bounds the number of digits. -/
def showNatAux : Nat → Nat → List Char → List Char
  | 0, _, acc => acc
  | fuel + 1, n, acc =>
    if n < 10 then digitChar n :: acc
    else showNatAux fuel (n / 10) (digitChar (n % 10) :: acc)

/-- Decimal numeral of a natural number. -/
def showNat (n : Nat) : List Char := showNatAux (n + 1) n []

/-- Decimal numeral of an integer, with `-` for a negative one. -/
def showInt (z : Int) : List Char :=
  match z with
  | Int.ofNat n => showNat n
  | Int.negSucc n => '-' :: showNat (n + 1)

/-- Input that is at its end or goes on with a white-space byte. -/
def atGap (s : List Char) : Prop := s = [] ∨ ∃ c r, s = c :: r ∧ isspace c = true

/-- One row of the element table as it is written in a .mesh file. -/
structure MeshRow where
  index : Int
  node : Int × Int × Int
  nabr : Int × Int × Int
  deriving DecidableEq, Repr

/-- Integers written one after the other, each after a blank. -/
def intsText : List Int → List Char
  | [] => []
  | z :: zs => ' ' :: (showInt z ++ intsText zs)

/-- A row of the element table on a line of its own. -/
def rowText (r : MeshRow) : List Char :=
  '\n' :: (showInt r.index ++
    intsText [r.node.1, r.node.2.1, r.node.2.2, r.nabr.1, r.nabr.2.1, r.nabr.2.2])

/-- The rows of the element table. -/
def rowsText : List MeshRow → List Char
  | [] => []
  | r :: rs => rowText r ++ rowsText rs

/-- A column title: a token, not empty and without white space. -/
def isTitle (w : List Char) : Bool := !w.isEmpty && w.all fun c => !isspace c

/-- Column titles written one after the other, each after a blank. -/
def titlesText : List (List Char) → List Char
  | [] => []
  | w :: ws => ' ' :: (w ++ titlesText ws)

/-- The head of a .mesh file: the number of rows, the column titles and the rows
of the element table. -/
def meshText (titles : List (List Char)) (rows : List MeshRow) : List Char :=
  showInt rows.length ++ (titlesText titles ++ rowsText rows)

/-- The element that row `r` of the table gives when it is read into an entry
holding `junk`. -/
def rowElement (junk : element) (r : MeshRow) : element :=
  { junk with index := r.index, node := [r.node.1, r.node.2.1, r.node.2.2],
              nabr := [r.nabr.1, r.nabr.2.1, r.nabr.2.2] }

/-! ## The neighbour invariant, and a .mesh file that breaks it -/

/-- The neighbour invariant in the words of the specification: every neighbour
reference of every loaded element is 0, or the number `k` of a loaded element
(`1 ≤ k ≤ NumEle`, stored in `Ele[k - 1]`) whose own neighbour list holds the
number of the first element. -/
def neighboursConsistent (ds : Model_Data) : Bool :=
  let loaded := ds.Ele.take ds.NumEle.toNat
  (List.range loaded.length).all fun i =>
    match loaded[i]? with
    | none => true
    | some e =>
      e.nabr.all fun k =>
        k == 0 ||
          (decide (1 ≤ k) && decide (k ≤ ds.NumEle) &&
            match loaded[k.toNat - 1]? with
            | none => false
            | some e' => e'.nabr.contains ((i : Int) + 1))

/-- The column titles of the element table in `meshOneWay`. -/
def oneWayTitles : List (List Char) :=
  ["INDEX".toList, "NODE1".toList, "NODE2".toList, "NODE3".toList, "NABR1".toList,
    "NABR2".toList]

/-- The rows of the element table in `meshOneWay`. -/
def oneWayRows : List MeshRow :=
  [{ index := 1, node := (1, 2, 3), nabr := (2, 0, 0) },
   { index := 2, node := (2, 4, 3), nabr := (0, 0, 0) }]

/-- The node table that follows the element table in `meshOneWay`. -/
def oneWayNodes : String :=
  "\n4 INDEX X Y ZMIN\n1 0 0 0 10\n2 1 0 0 10\n3 0 1 0 10\n4 1 1 0 10\n"

/-! ## Time-series rows (read_alloc.c, lines 143-157, 445-459, 544-557, 595-635) -/

/-- The fields of a `TSD` that the readers of time series use (the type is
declared in a header that is not among the source files).  `TS` holds the rows
`TS[j]`, each a block of `realtype` cells; `none` is a cell that has not been
written since `malloc`. -/
structure TSD where
  name : List Char
  index : Int
  length : Int
  TS : List (List (Option ℚ))
  deriving DecidableEq, Repr

/-- The memory a loop over the rows of a series works on: the rows, `*timeinfo`
and the input not yet read. -/
structure SeriesState where
  TS : List (List (Option ℚ))
  timeinfo : Tm
  stream : List Char
  deriving DecidableEq, Repr

/-- A directive of a format string: a conversion `%d`, a byte that has to be the
next input byte, or white space (any amount of white space is read). -/
inductive Directive where
  | int
  | lit (c : Char)
  | space
  deriving DecidableEq, Repr

/-- The directives of a format are matched in order: the integers converted
before the first matching failure, the input left over, and whether every
directive was matched. -/
def fscanf_fmt : List Directive → List Char → List Int × List Char × Bool
  | [], s => ([], s, true)
  | .space :: ds, s => fscanf_fmt ds (skipSpace s)
  | .lit c :: ds, s =>
    match scanLit c s with
    | none => ([], s, false)
    | some r => fscanf_fmt ds r
  | .int :: ds, s =>
    match scanInt s with
    | none => ([], skipSpace s, false)
    | some (v, r) =>
      let (vs, r', all) := fscanf_fmt ds r
      (v :: vs, r', all)

/-- The directives of `"%d-%d-%d %d:%d:%d"`. -/
def stampFormat : List Directive :=
  [.int, .lit '-', .int, .lit '-', .int, .space, .int, .lit ':', .int, .lit ':', .int]

/-- The integers converted by `"%d-%d-%d %d:%d:%d"` stored in `tm_year`,
`tm_mon`, `tm_mday`, `tm_hour`, `tm_min`, `tm_sec`, in this order; a field whose
conversion was not done keeps its value. -/
def storeTm (vs : List Int) (t : Tm) : Tm :=
  { tm_year := vs.getD 0 t.tm_year, tm_mon := vs.getD 1 t.tm_mon, tm_mday := vs.getD 2 t.tm_mday,
    tm_hour := vs.getD 3 t.tm_hour, tm_min := vs.getD 4 t.tm_min, tm_sec := vs.getD 5 t.tm_sec }

/-- A row of `%lf` conversions into cells. -/
def fscanf_cells : List (Option ℚ) → List Char → List (Option ℚ) × List Char
  | [], s => ([], s)
  | old :: olds, s =>
    match scanReal s with
    | none => (old :: olds, skipSpace s)
    | some (v, r) =>
      let (vs, r') := fscanf_cells olds r
      (some v :: vs, r')

/-- One call `fscanf (f, "%d-%d-%d %d:%d:%d %lf ... %lf", &timeinfo->tm_year,
..., &timeinfo->tm_sec, &TS[j][1], ...)` with one `%lf` for each cell of the
row after `TS[j][0]`. -/
def fscanf_row (s : List Char) (t : Tm) (row : List (Option ℚ)) :
    Tm × List (Option ℚ) × List Char :=
  let (vs, s1, all) := fscanf_fmt stampFormat s
  if all then
    let (cells, s2) := fscanf_cells (row.drop 1) s1
    (storeTm vs t, row.take 1 ++ cells, s2)
  else (storeTm vs t, row, s1)

/-- The three statements

    timeinfo->tm_year = timeinfo->tm_year - 1900;
    timeinfo->tm_mon = timeinfo->tm_mon - 1;
    rawtime = timegm (timeinfo);

giving `rawtime` and the new content of `*timeinfo`. -/
def stampTime (t : Tm) : Int × Tm :=
  timegm { t with tm_year := t.tm_year - 1900, tm_mon := t.tm_mon - 1 }

/-- The store `TS[j][k] = v`; `none` when row `j` or cell `k` lies outside of
what was allocated. -/
def storeCell (TS : List (List (Option ℚ))) (j k : Nat) (v : ℚ) :
    Option (List (List (Option ℚ))) :=
  match TS[j]? with
  | none => none
  | some row => if k < row.length then some (TS.set j (row.set k (some v))) else none

/-- A loop `for (; j < length; j++) body` with `n` iterations left. -/
def seriesLoop (body : Nat → SeriesState → Option SeriesState) :
    Nat → Nat → SeriesState → Option SeriesState
  | 0, _, st => some st
  | n + 1, j, st =>
    match body j st with
    | none => none
    | some st' => seriesLoop body n (j + 1) st'

/-- The call of `fscanf` for row `j` alone (line 152). -/
def scanBody (j : Nat) (st : SeriesState) : Option SeriesState :=
  match st.TS[j]? with
  | none => none
  | some row =>
    let (t1, row1, s1) := fscanf_row st.stream st.timeinfo row
    some { TS := st.TS.set j row1, timeinfo := t1, stream := s1 }

/-- The braced loop body of lines 603-609 (also 452-458, 550-556 and 627-633): the
call of `fscanf` for row `j`, then the time of the row stored in `TS[j][0]`. -/
def stampedBody (j : Nat) (st : SeriesState) : Option SeriesState :=
  match scanBody j st with
  | none => none
  | some st1 =>
    match storeCell st1.TS j 0 (stampTime st1.timeinfo).1 with
    | none => none
    | some TS => some { st1 with TS := TS, timeinfo := (stampTime st1.timeinfo).2 }

/-- Call `fscanf (f, "%s %d %d", name, &index, &length)` on an entry fresh from
`malloc`; `none` when a conversion fails, since `length` is then read (line 147)
without having been written. -/
def fscanf_series (s : List Char) : Option (List Char × Int × Int × List Char) :=
  match scanToken s with
  | none => none
  | some (name, r1) =>
    match scanInt r1 with
    | none => none
    | some (index, r2) =>
      match scanInt r2 with
      | none => none
      | some (length, r3) => some (name, index, length, r3)

/-- The rows allocated by lines 147-149: `length` rows of two cells. -/
def allocRows (length : Int) : List (List (Option ℚ)) :=
  List.replicate length.toNat [none, none]

/-- Lines 145-156, one series of river boundary conditions.  The loop of lines
151-152 has no braces, so its body is the call of `fscanf` alone; lines 153-156
run once after it, with `j` equal to the number of rows. -/
def rivSeries (s : List Char) (t : Tm) : Option (TSD × Tm × List Char) :=
  match fscanf_series s with
  | none => none
  | some (name, index, length, s0) =>
    match seriesLoop scanBody length.toNat 0
        { TS := allocRows length, timeinfo := t, stream := s0 } with
    | none => none
    | some st =>
      match storeCell st.TS length.toNat 0 (stampTime st.timeinfo).1 with
      | none => none
      | some TS =>
        some ({ name := name, index := index, length := length, TS := TS },
          (stampTime st.timeinfo).2, st.stream)

/-- Lines 597-610, one series of element boundary conditions. -/
def eleBCSeries (s : List Char) (t : Tm) : Option (TSD × Tm × List Char) :=
  match fscanf_series s with
  | none => none
  | some (name, index, length, s0) =>
    match seriesLoop stampedBody length.toNat 0
        { TS := allocRows length, timeinfo := t, stream := s0 } with
    | none => none
    | some st =>
      some ({ name := name, index := index, length := length, TS := st.TS },
        st.timeinfo, st.stream)

/-- A loop `for (i = 0; i < n; i++)` over the series of a file. -/
def seriesBlock (series : List Char → Tm → Option (TSD × Tm × List Char)) :
    Nat → List Char → Tm → Option (List TSD × Tm × List Char)
  | 0, s, t => some ([], t, s)
  | n + 1, s, t =>
    match series s t with
    | none => none
    | some (d, t1, s1) =>
      match seriesBlock series n s1 t1 with
      | none => none
      | some (ds, t2, s2) => some (d :: ds, t2, s2)

/-- Lines 139-157: the section of the .riv file with the boundary conditions,
from the title of the section on; `NumRivBC` is the value of `DS->NumRivBC`
before. -/
def readRivBC (NumRivBC : Int) (s : List Char) (t : Tm) :
    Option (Int × List TSD × Tm × List Char) :=
  let (n, s1) := fscanf_count 0 NumRivBC (fscanf_skip s)
  match seriesBlock rivSeries n.toNat s1 t with
  | none => none
  | some (ds, t1, s2) => some (n, ds, t1, s2)

/-- A boundary-condition section with one series of two rows. -/
def rivBCTwoRows : String :=
  "BC 1\nQ 1 2\n2000-01-01 00:00:00 1.5\n2000-01-02 00:00:00 2.5\nRES 0\n"

/-- A boundary-condition section without any series. -/
def rivBCNone : String := "BC 0\nRES 0\n"

/-- The broken-down time 2000-01-01 00:00:00. -/
def tmY2K : Tm :=
  { tm_sec := 0, tm_min := 0, tm_hour := 0, tm_mday := 1, tm_mon := 0, tm_year := 100 }

/-! ## Carbon and nitrogen state (bgc/bgc_struct.h) -/

/-- The fields of `cstate_struct` (bgc_struct.h, lines 141-193). -/
inductive CField where
  | leafc | leafc_storage | leafc_transfer
  | frootc | frootc_storage | frootc_transfer
  | livestemc | livestemc_storage | livestemc_transfer
  | deadstemc | deadstemc_storage | deadstemc_transfer
  | livecrootc | livecrootc_storage | livecrootc_transfer
  | deadcrootc | deadcrootc_storage | deadcrootc_transfer
  | gresp_storage | gresp_transfer
  | cwdc | litr1c | litr2c | litr3c | litr4c
  | soil1c | soil2c | soil3c | soil4c
  | cpool
  | psnsun_src | psnshade_src
  | leaf_mr_snk | leaf_gr_snk | froot_mr_snk | froot_gr_snk
  | livestem_mr_snk | livestem_gr_snk | deadstem_gr_snk
  | livecroot_mr_snk | livecroot_gr_snk | deadcroot_gr_snk
  | litr1_hr_snk | litr2_hr_snk | litr4_hr_snk
  | soil1_hr_snk | soil2_hr_snk | soil3_hr_snk | soil4_hr_snk
  | fire_snk
  deriving DecidableEq, Repr

/-- The fields of `nstate_struct` (bgc_struct.h, lines 341-378). -/
inductive NField where
  | leafn | leafn_storage | leafn_transfer
  | frootn | frootn_storage | frootn_transfer
  | livestemn | livestemn_storage | livestemn_transfer
  | deadstemn | deadstemn_storage | deadstemn_transfer
  | livecrootn | livecrootn_storage | livecrootn_transfer
  | deadcrootn | deadcrootn_storage | deadcrootn_transfer
  | cwdn | litr1n | litr2n | litr3n | litr4n
  | soil1n | soil2n | soil3n | soil4n
  | sminn | retransn | npool
  | nfix_src | ndep_src
  | nleached_snk | nvol_snk | fire_snk
  deriving DecidableEq, Repr

/-- What a field of a state structure holds: a pool, or the sum of what came in
from a source (`_src`), or the sum of what went out to a sink (`_snk`). -/
inductive FieldKind where
  | pool
  | src
  | snk
  deriving DecidableEq, Repr

/-- Kind of a field of `cstate_struct`, as its name and comment say. -/
def CField.kind : CField → FieldKind
  | .psnsun_src | .psnshade_src => .src
  | .leaf_mr_snk | .leaf_gr_snk | .froot_mr_snk | .froot_gr_snk | .livestem_mr_snk
  | .livestem_gr_snk | .deadstem_gr_snk | .livecroot_mr_snk | .livecroot_gr_snk
  | .deadcroot_gr_snk | .litr1_hr_snk | .litr2_hr_snk | .litr4_hr_snk | .soil1_hr_snk
  | .soil2_hr_snk | .soil3_hr_snk | .soil4_hr_snk | .fire_snk => .snk
  | _ => .pool

/-- Kind of a field of `nstate_struct`, as its name and comment say. -/
def NField.kind : NField → FieldKind
  | .nfix_src | .ndep_src => .src
  | .nleached_snk | .nvol_snk | .fire_snk => .snk
  | _ => .pool

/-- Every field of `cstate_struct`, in the order of the declaration. -/
def cFields : List CField :=
  [.leafc, .leafc_storage, .leafc_transfer, .frootc, .frootc_storage, .frootc_transfer,
   .livestemc, .livestemc_storage, .livestemc_transfer, .deadstemc, .deadstemc_storage,
   .deadstemc_transfer, .livecrootc, .livecrootc_storage, .livecrootc_transfer, .deadcrootc,
   .deadcrootc_storage, .deadcrootc_transfer, .gresp_storage, .gresp_transfer, .cwdc, .litr1c,
   .litr2c, .litr3c, .litr4c, .soil1c, .soil2c, .soil3c, .soil4c, .cpool, .psnsun_src,
   .psnshade_src, .leaf_mr_snk, .leaf_gr_snk, .froot_mr_snk, .froot_gr_snk, .livestem_mr_snk,
   .livestem_gr_snk, .deadstem_gr_snk, .livecroot_mr_snk, .livecroot_gr_snk, .deadcroot_gr_snk,
   .litr1_hr_snk, .litr2_hr_snk, .litr4_hr_snk, .soil1_hr_snk, .soil2_hr_snk, .soil3_hr_snk,
   .soil4_hr_snk, .fire_snk]

/-- Every field of `nstate_struct`, in the order of the declaration. -/
def nFields : List NField :=
  [.leafn, .leafn_storage, .leafn_transfer, .frootn, .frootn_storage, .frootn_transfer,
   .livestemn, .livestemn_storage, .livestemn_transfer, .deadstemn, .deadstemn_storage,
   .deadstemn_transfer, .livecrootn, .livecrootn_storage, .livecrootn_transfer, .deadcrootn,
   .deadcrootn_storage, .deadcrootn_transfer, .cwdn, .litr1n, .litr2n, .litr3n, .litr4n,
   .soil1n, .soil2n, .soil3n, .soil4n, .sminn, .retransn, .npool, .nfix_src, .ndep_src,
   .nleached_snk, .nvol_snk, .fire_snk]

/-- Sign of a field in the mass balance: pools and sink sums count, source
sums are taken off. -/
def FieldKind.sign : FieldKind → ℚ
  | .pool => 1
  | .snk => 1
  | .src => -1

/-- The balance of a state: the sum of the pools, plus the sink sums, minus the
source sums. -/
def balance {F : Type} (fields : List F) (kind : F → FieldKind) (s : F → ℚ) : ℚ :=
  (fields.map fun f => (kind f).sign * s f).sum

/-- Modelled from the spec: a daily flux of the update that is not among the
source files, an amount of mass that leaves the field `src` and enters the field
`dst`. -/
structure Flux (F : Type) where
  src : F
  dst : F
  amount : ℚ

/-- Modelled from the spec: a flux of the daily update leaves a pool or a source
and enters another field, a pool or a sink. -/
def Flux.wellFormed {F : Type} [DecidableEq F] (kind : F → FieldKind) (x : Flux F) : Bool :=
  decide (kind x.src ≠ .snk) && decide (kind x.dst ≠ .src) && decide (x.src ≠ x.dst)

/-- Modelled from the spec: the state update of one flux, which is not among the
source files.  The amount is taken out of the pool it leaves, or added to the
sum of the source it comes from ("cumulative source sums"), and it is added to
the pool or to the sink sum it enters. -/
def applyFlux {F : Type} [DecidableEq F] (kind : F → FieldKind) (s : F → ℚ) (x : Flux F) :
    F → ℚ :=
  let s1 := Function.update s x.src
    (if kind x.src = .src then s x.src + x.amount else s x.src - x.amount)
  Function.update s1 x.dst (s1 x.dst + x.amount)

/-- Modelled from the spec: the daily biogeochemistry update of the state of one
element, which is not among the source files (section 4.3: photosynthesis and
respiration, phenology, allocation, decomposition, nitrogen reconciliation).
Whatever the steps compute, the state changes by the fluxes of the day, applied
one after the other. -/
def dailyUpdate {F : Type} [DecidableEq F] (kind : F → FieldKind) (fluxes : List (Flux F))
    (s : F → ℚ) : F → ℚ :=
  fluxes.foldl (applyFlux kind) s

/-- A day of carbon fluxes: photosynthesis, maintenance respiration, allocation
to leaves, litterfall, decomposition with its respiration, fire. -/
def dayCarbon : List (Flux CField) :=
  [⟨.psnsun_src, .cpool, 5⟩, ⟨.psnshade_src, .cpool, 2⟩, ⟨.cpool, .leaf_mr_snk, 1⟩,
   ⟨.cpool, .leafc, 3⟩, ⟨.cpool, .leaf_gr_snk, 1 / 2⟩, ⟨.leafc, .litr1c, 1 / 4⟩,
   ⟨.litr1c, .soil1c, 1 / 8⟩, ⟨.litr1c, .litr1_hr_snk, 1 / 16⟩, ⟨.cwdc, .fire_snk, 1 / 3⟩]

/-- A day of nitrogen fluxes: deposition, fixation, plant uptake, allocation,
litterfall, immobilisation, mineralisation, leaching. -/
def dayNitrogen : List (Flux NField) :=
  [⟨.ndep_src, .sminn, 1 / 100⟩, ⟨.nfix_src, .sminn, 1 / 200⟩, ⟨.sminn, .npool, 1 / 50⟩,
   ⟨.npool, .leafn, 1 / 60⟩, ⟨.leafn, .litr1n, 1 / 70⟩, ⟨.sminn, .soil1n, 1 / 80⟩,
   ⟨.soil4n, .sminn, 1 / 90⟩, ⟨.sminn, .nleached_snk, 1 / 300⟩]

/-! ## Nitrogen reconciliation -/

/-- Modelled from the spec: how the reconciliation, which is not among the
source files, shares the mineral nitrogen when it does not cover both demands
(the spec leaves the tie-break open). -/
inductive Priority where
  | proportional
  | immobilizationFirst
  | plantFirst
  deriving DecidableEq, Repr

/-- Modelled from the spec: the result of the reconciliation, which is not among
the source files: the scalars `fpi` (`epvar_struct.fpi`,
fraction of potential immobilization) and `downreg` (fractional reduction of the
plant uptake), the immobilization that decomposition carries out and the plant
uptake `sminn_to_npool` that allocation carries out. -/
structure Reconciled where
  fpi : ℚ
  downreg : ℚ
  actual_immob : ℚ
  sminn_to_npool : ℚ
  deriving DecidableEq, Repr

/-- Modelled from the spec: the nitrogen reconciliation of the daily update
(section 4.3, step 5), which is not among the source files.  `sminn` is the
mineral nitrogen available, `plant_ndemand` the demand of allocation and
`potential_immob` (`ntemp_struct`) the potential immobilization of the
decomposition cascade.  When the mineral nitrogen covers both they are met in
full.  Otherwise both are throttled, in proportion or, the tie-break being
configurable, one after the other; `fpi` and `downreg` are the fractions that
result, and the two fluxes are the potential ones scaled by them. -/
def reconcile (priority : Priority) (sminn plant_ndemand potential_immob : ℚ) : Reconciled :=
  let immob : ℚ :=
    if plant_ndemand + potential_immob ≤ sminn then potential_immob
    else
      match priority with
      | .proportional => sminn / (plant_ndemand + potential_immob) * potential_immob
      | .immobilizationFirst => min potential_immob sminn
      | .plantFirst => sminn - min plant_ndemand sminn
  let uptake : ℚ :=
    if plant_ndemand + potential_immob ≤ sminn then plant_ndemand
    else
      match priority with
      | .proportional => sminn / (plant_ndemand + potential_immob) * plant_ndemand
      | .immobilizationFirst => sminn - min potential_immob sminn
      | .plantFirst => min plant_ndemand sminn
  let fpi : ℚ := if potential_immob = 0 then 1 else immob / potential_immob
  let downreg : ℚ := if plant_ndemand = 0 then 0 else 1 - uptake / plant_ndemand
  { fpi := fpi, downreg := downreg, actual_immob := fpi * potential_immob,
    sminn_to_npool := (1 - downreg) * plant_ndemand }

/-! ## The project name and the last line, in the words of the claims -/

/-- The project name in the words of the claim: `name` is the first maximal
non-empty run of bytes of `filename` without a `.`; only dots stand before it,
and a `.` or the end of the name follows it. -/
def IsFirstRun (name filename : List Char) : Prop :=
  ∃ dots rest, filename = dots ++ name ++ rest ∧ (∀ c ∈ dots, c = '.') ∧ name ≠ [] ∧
    '.' ∉ name ∧ (rest = [] ∨ ∃ r, rest = '.' :: r)

/-- A last line of 1023 bytes without a newline: `VERBOSE 1` and 1014 blanks. -/
def longTail : List Char := "VERBOSE 1".toList ++ List.replicate 1014 ' '

/-! ## The calibration multipliers -/

/-- The calibration multipliers: the fields of `CS->Cal` (`globalCal`) and of
`DS->pcCal` (`processCal`), in the order of the tests of lines 990-1064. -/
inductive CalField where
  | KsatH | KsatV | infKsatV | macKsatH | macKsatV | infD | RzD | macD | Porosity | Alpha
  | Beta | vAreaF | hAreaF | VegFrac | Albedo | Rough | Prep | Temp | Et0 | Et1 | Et2
  | rivRough | rivKsatH | rivKsatV | rivbedThick | rivDepth | rivShapeCoeff | Rmin | ThetaW
  | ThetaRef | TF | IS | Czil | fx_soil | fx_canopy | Rs_ref | h_s
  deriving DecidableEq, Repr

/-- The keyword of the .calib file whose branch (lines 990-1064) assigns the field. -/
def CalField.keyword : CalField → String
  | .KsatH => "KSATH"
  | .KsatV => "KSATV"
  | .infKsatV => "KINF"
  | .macKsatH => "KMACSATH"
  | .macKsatV => "KMACSATV"
  | .infD => "DINF"
  | .RzD => "DROOT"
  | .macD => "DMAC"
  | .Porosity => "POROSITY"
  | .Alpha => "ALPHA"
  | .Beta => "BETA"
  | .vAreaF => "MACVF"
  | .hAreaF => "MACHF"
  | .VegFrac => "VEGFRAC"
  | .Albedo => "ALBEDO"
  | .Rough => "ROUGH"
  | .Prep => "PRCP"
  | .Temp => "SFCTMP"
  | .Et0 => "EC"
  | .Et1 => "ETT"
  | .Et2 => "EDIR"
  | .rivRough => "ROUGH_RIV"
  | .rivKsatH => "KRIVH"
  | .rivKsatV => "KRIVV"
  | .rivbedThick => "BEDTHCK"
  | .rivDepth => "RIV_DPTH"
  | .rivShapeCoeff => "RIV_WDTH"
  | .Rmin => "RS"
  | .ThetaW => "WLTSMC"
  | .ThetaRef => "REFSMC"
  | .TF => "DRIP"
  | .IS => "CMCMAX"
  | .Czil => "CZIL"
  | .fx_soil => "FXEXP"
  | .fx_canopy => "CFACTR"
  | .Rs_ref => "RGL"
  | .h_s => "HS"

/-- The value of a calibration multiplier in the memory. -/
def CalField.get (st : State) : CalField → ℚ
  | .KsatH => st.CS.Cal.KsatH
  | .KsatV => st.CS.Cal.KsatV
  | .infKsatV => st.CS.Cal.infKsatV
  | .macKsatH => st.CS.Cal.macKsatH
  | .macKsatV => st.CS.Cal.macKsatV
  | .infD => st.CS.Cal.infD
  | .RzD => st.CS.Cal.RzD
  | .macD => st.CS.Cal.macD
  | .Porosity => st.CS.Cal.Porosity
  | .Alpha => st.CS.Cal.Alpha
  | .Beta => st.CS.Cal.Beta
  | .vAreaF => st.CS.Cal.vAreaF
  | .hAreaF => st.CS.Cal.hAreaF
  | .VegFrac => st.CS.Cal.VegFrac
  | .Albedo => st.CS.Cal.Albedo
  | .Rough => st.CS.Cal.Rough
  | .Prep => st.CS.Cal.Prep
  | .Temp => st.CS.Cal.Temp
  | .Et0 => st.DS.pcCal.Et0
  | .Et1 => st.DS.pcCal.Et1
  | .Et2 => st.DS.pcCal.Et2
  | .rivRough => st.CS.Cal.rivRough
  | .rivKsatH => st.CS.Cal.rivKsatH
  | .rivKsatV => st.CS.Cal.rivKsatV
  | .rivbedThick => st.CS.Cal.rivbedThick
  | .rivDepth => st.CS.Cal.rivDepth
  | .rivShapeCoeff => st.CS.Cal.rivShapeCoeff
  | .Rmin => st.CS.Cal.Rmin
  | .ThetaW => st.CS.Cal.ThetaW
  | .ThetaRef => st.CS.Cal.ThetaRef
  | .TF => st.CS.Cal.TF
  | .IS => st.CS.Cal.IS
  | .Czil => st.CS.Cal.Czil
  | .fx_soil => st.CS.Cal.fx_soil
  | .fx_canopy => st.CS.Cal.fx_canopy
  | .Rs_ref => st.CS.Cal.Rs_ref
  | .h_s => st.CS.Cal.h_s

/-- The field exists in the build: the last seven fields of `globalCal` are
declared only with `_FLUX_PIHM_`. -/
def CalField.inBuild (FLUX_PIHM : Bool) : CalField → Bool
  | .TF | .IS | .Czil | .fx_soil | .fx_canopy | .Rs_ref | .h_s => FLUX_PIHM
  | _ => true

/-- A .calib file with comments and empty lines only. -/
def calibComments : String := "# calibration\n\n# nothing is scaled\n"

/-! ## The .ibc file (read_alloc.c, lines 585-636) -/

/-- The fields of `Model_Data` that the .ibc file sets.  `TSD_EleBC` holds the
entries of the block that the pointer refers to, `none` for an entry that has
not been written since `malloc`; `allocated` tells whether line 588 has
allocated a block (without one the list is empty). -/
structure EleBCData where
  Num1BC : Int
  Num2BC : Int
  allocated : Bool
  TSD_EleBC : List (Option TSD)
  deriving DecidableEq, Repr

/-- A loop `for (; ...; i++)` of lines 595-610 or 618-634 with `n` iterations
left: the series read next from the file is stored in `TSD_EleBC[i]`; `none`
when the entry lies outside of the block. -/
def eleBCLoop : Nat → Int → List (Option TSD) → List Char → Tm →
    Option (List (Option TSD) × Tm × List Char)
  | 0, _, blk, s, t => some (blk, t, s)
  | n + 1, i, blk, s, t =>
    if 0 ≤ i ∧ i < blk.length then
      match eleBCSeries s t with
      | none => none
      | some (d, t1, s1) => eleBCLoop n (i + 1) (blk.set i.toNat (some d)) s1 t1
    else none

/-- Lines 585-636: the .ibc file.  `Num1BC` and `Num2BC` are the values of the
fields before the call of `fscanf` at line 585. -/
def readIbc (Num1BC Num2BC : Int) (s : List Char) (t : Tm) :
    Option (EleBCData × Tm × List Char) :=
  let (v, s0) := fscanf_ints [Num1BC, Num2BC] s
  let n1 := v.getD 0 Num1BC
  let n2 := v.getD 1 Num2BC
  let blk : List (Option TSD) :=
    if n1 + n2 > 0 then List.replicate (n1 + n2).toNat none else []
  match (if n1 > 0 then eleBCLoop n1.toNat 0 blk s0 t else some (blk, t, s0)) with
  | none => none
  | some (blk1, t1, s1) =>
    match (if n2 > 0 then eleBCLoop n2.toNat n1 blk1 s1 t1 else some (blk1, t1, s1)) with
    | none => none
    | some (blk2, t2, s2) =>
      some ({ Num1BC := n1, Num2BC := n2, allocated := decide (n1 + n2 > 0),
              TSD_EleBC := blk2 }, t2, s2)

/-- An .ibc file with one Dirichlet series of two rows and two Neumann series of
one row each. -/
def ibcThree : String :=
  "1 2\nHEAD 1 2\n2000-01-01 00:00:00 1.5\n2000-01-02 00:00:00 2.5\n" ++
  "FLUXA 2 1\n2000-01-01 00:00:00 0.5\nFLUXB 3 1\n2000-01-01 00:00:00 0.25\n"

/-- An .ibc file without any series. -/
def ibcNone : String := "0 0\n"

/-- The Dirichlet series of the file `ibcThree`. -/
def ibcThreeDir : List TSD :=
  [{ name := "HEAD".toList, index := 1, length := 2,
     TS := [[some 946684800, some (3 / 2)], [some 946771200, some (5 / 2)]] }]

/-- The Neumann series of the file `ibcThree`. -/
def ibcThreeNeu : List TSD :=
  [{ name := "FLUXA".toList, index := 2, length := 1, TS := [[some 946684800, some (1 / 2)]] },
   { name := "FLUXB".toList, index := 3, length := 1, TS := [[some 946684800, some (1 / 4)]] }]

/-- The file `ibcThree` after its counts. -/
def ibcThreeSeries : String :=
  "\nHEAD 1 2\n2000-01-01 00:00:00 1.5\n2000-01-02 00:00:00 2.5\n" ++
  "FLUXA 2 1\n2000-01-01 00:00:00 0.5\nFLUXB 3 1\n2000-01-01 00:00:00 0.25\n"

/-- The file `ibcThree` after its Dirichlet series. -/
def ibcThreeNeumann : String :=
  "\nFLUXA 2 1\n2000-01-01 00:00:00 0.5\nFLUXB 3 1\n2000-01-01 00:00:00 0.25\n"

/-- The broken-down time 2000-01-02 00:00:00. -/
def tmJan2 : Tm :=
  { tm_sec := 0, tm_min := 0, tm_hour := 0, tm_mday := 2, tm_mon := 0, tm_year := 100 }

/-! ## The first pass in the words of the claims -/

/-- The lines of a file: the runs of bytes up to and including each newline; bytes
after the last newline are no line. -/
def fileLinesAux (acc : List Char) : List Char → List (List Char)
  | [] => []
  | c :: cs =>
    if c = '\n' then (acc ++ [c]) :: fileLinesAux [] cs else fileLinesAux (acc ++ [c]) cs

/-- The lines of a file. -/
def fileLines (content : List Char) : List (List Char) := fileLinesAux [] content

/-- The line does not begin with a newline, NUL or a tab (the test of line 401). -/
def passLine (cmdstr : List Char) : Bool :=
  firstByte cmdstr != '\n' && firstByte cmdstr != Char.ofNat 0 && firstByte cmdstr != '\t'

/-- A header line of a series: a line that passes the test of line 401 and whose
first token is the keyword, whatever the case of the letters. -/
def isHeader (key : String) (cmdstr : List Char) : Bool :=
  passLine cmdstr &&
    match firstToken cmdstr with
    | some tok => strcasecmp key tok
    | none => false

/-- The index written on a header line: the integer after the first token. -/
def headerIndex (cmdstr : List Char) : Option Int := sscanf_ind cmdstr none

/-- A counted line: it passes the test of line 401 and its first token is none
of the keyword, `TIME` and `TS`, whatever the case of the letters. -/
def isRow (key : String) (cmdstr : List Char) : Bool :=
  passLine cmdstr &&
    match firstToken cmdstr with
    | some tok => !strcasecmp key tok && !strcasecmp "TIME" tok && !strcasecmp "TS" tok
    | none => false

/-- Number of counted lines before the next header line (or the end). -/
def rowsUntilHeader (key : String) : List (List Char) → Nat
  | [] => 0
  | l :: rest =>
    if isHeader key l then 0 else (if isRow key l then 1 else 0) + rowsUntilHeader key rest

/-- Number of counted lines between the last header line with index `k` and the
next header line (or the end); `none` when no header line has index `k`. -/
def seriesRows (key : String) (k : Int) : List (List Char) → Option Nat
  | [] => none
  | l :: rest =>
    match seriesRows key k rest with
    | some c => some c
    | none =>
      if isHeader key l && headerIndex l == some k then some (rowsUntilHeader key rest) else none

/-- The index on the last header line; `none` when there is no header line. -/
def lastHeaderIndex (key : String) : List (List Char) → Option Int
  | [] => none
  | l :: rest =>
    match lastHeaderIndex key rest with
    | some i => some i
    | none => if isHeader key l then headerIndex l else none

/-- Every line that passes the test of line 401 has a first token, and every
header line carries an index in `1 .. n`. -/
def wellFormedPass (key : String) (n : Int) (lines : List (List Char)) : Bool :=
  lines.all fun l =>
    !passLine l ||
      match firstToken l with
      | none => false
      | some _ =>
        !isHeader key l ||
          match headerIndex l with
          | some i => decide (1 ≤ i) && decide (i ≤ n)
          | none => false

/-- The memory in which line 393 has allocated the block `TSD_meteo` of `n`
series, none of them written yet. -/
def forcAlloc (n : Int) (st : State) : State :=
  { st with DS := { st.DS with NumTS := n, TSD_meteo_length := List.replicate n.toNat none } }

/-- A .forc file with two series, of two rows and of one row. -/
def forcTwo : String :=
  "NUM_METEO_TS 2\nMETEO_TS 1 WIND_LVL 10\nTIME PRCP SFCTMP RH SFCSPD SOLAR LONGWV PRES\n" ++
  "TS kg/m2/s K % m/s W/m2 W/m2 Pa\n" ++
  "2000-01-01 00:00 0 280 60 2 0 300 100000\n2000-01-01 01:00 0 280 60 2 0 300 100000\n" ++
  "METEO_TS 2 WIND_LVL 10\nTIME PRCP SFCTMP RH SFCSPD SOLAR LONGWV PRES\n" ++
  "TS kg/m2/s K % m/s W/m2 W/m2 Pa\n2000-01-01 00:00 0 280 60 2 0 300 100000\n"

/-- A .forc file with one series of one row; the row is a line of 1217 bytes. -/
def forcLongRow : List Char :=
  ("NUM_METEO_TS 1\nMETEO_TS 1 WIND_LVL 10\nTIME PRCP SFCTMP RH SFCSPD SOLAR LONGWV PRES\n" ++
    "TS kg/m2/s K % m/s W/m2 W/m2 Pa\n2000-01-01 00:00").toList ++
  (List.replicate 600 [' ', '0']).flatten ++ ['\n']

/-- The file `forcOne` with a line of one blank after the first row. -/
def forcBlankAfterRow : String :=
  "NUM_METEO_TS 1\nMETEO_TS 1 WIND_LVL 10\nTIME PRCP SFCTMP RH SFCSPD SOLAR LONGWV PRES\n" ++
  "TS kg/m2/s K % m/s W/m2 W/m2 Pa\n" ++
  "2000-01-01 00:00 0 280 60 2 0 300 100000\n \n2000-01-01 01:00 0 280 60 2 0 300 100000\n"

/-- The file `forcOne` with a line of one blank before the first row. -/
def forcBlankAfterUnits : String :=
  "NUM_METEO_TS 1\nMETEO_TS 1 WIND_LVL 10\nTIME PRCP SFCTMP RH SFCSPD SOLAR LONGWV PRES\n" ++
  "TS kg/m2/s K % m/s W/m2 W/m2 Pa\n \n" ++
  "2000-01-01 00:00 0 280 60 2 0 300 100000\n2000-01-01 01:00 0 280 60 2 0 300 100000\n"

/-- A .forc file that declares one series and whose header line has the index 2. -/
def forcIndexTwo : String :=
  "NUM_METEO_TS 1\nMETEO_TS 2 WIND_LVL 10\nTIME PRCP SFCTMP RH SFCSPD SOLAR LONGWV PRES\n" ++
  "TS kg/m2/s K % m/s W/m2 W/m2 Pa\n" ++
  "2000-01-01 00:00 0 280 60 2 0 300 100000\n2000-01-01 01:00 0 280 60 2 0 300 100000\n"

/-- A .forc file that declares two series and has a header line for the second
one only. -/
def forcSecondOnly : String :=
  "NUM_METEO_TS 2\nMETEO_TS 2 WIND_LVL 10\nTIME PRCP SFCTMP RH SFCSPD SOLAR LONGWV PRES\n" ++
  "TS kg/m2/s K % m/s W/m2 W/m2 Pa\n" ++
  "2000-01-01 00:00 0 280 60 2 0 300 100000\n2000-01-01 01:00 0 280 60 2 0 300 100000\n"

/-! ## The fields that the keywords of the .para file assign -/

/-- The fields of `*CS` and `*DS` that have a keyword in the .para file, in the order of
the tests of lines 727-824; `PrintET0` stands for `PrintET[0]`, and so on. -/
inductive ParaField where
  | Verbose | Debug | init_type | Ascii | Spinup | UnsatMode | SurfMode | RivMode | Solver
  | GSType | MaxK | delt | abstol | reltol | InitStep | MaxStep | ETStep | StartTime | EndTime
  | outtype | a | b | PrintGW | PrintSurf | PrintSnow | PrintRivStg | PrintRech | PrintIS
  | PrintUnsat | PrintET0 | PrintET1 | PrintET2 | PrintRivFlx0 | PrintRivFlx1 | PrintRivFlx2
  | PrintRivFlx3 | PrintRivFlx4 | PrintRivFlx5 | PrintRivFlx6 | PrintRivFlx7 | PrintRivFlx8
  | PrintRivFlx9
  deriving DecidableEq, Repr

/-- The keyword whose branch (lines 727-824) assigns the field. -/
def ParaField.keyword : ParaField → String
  | .Verbose => "VERBOSE"
  | .Debug => "DEBUG"
  | .init_type => "INIT_MODE"
  | .Ascii => "ASCII_OUTPUT"
  | .Spinup => "SPINUP_MODE"
  | .UnsatMode => "UNSAT_MODE"
  | .SurfMode => "SAT_MODE"
  | .RivMode => "RIV_MODE"
  | .Solver => "SOLVER"
  | .GSType => "GSTYPE"
  | .MaxK => "MAXK"
  | .delt => "DELTA"
  | .abstol => "ABSTOL"
  | .reltol => "RELTOL"
  | .InitStep => "INIT_SOLVER_STEP"
  | .MaxStep => "MAX_SOLVER_STEP"
  | .ETStep => "LSM_STEP"
  | .StartTime => "START"
  | .EndTime => "END"
  | .outtype => "OUTPUT_TYPE"
  | .a => "STEPSIZE_FACTOR"
  | .b => "MODEL_STEPSIZE"
  | .PrintGW => "GW"
  | .PrintSurf => "SURF"
  | .PrintSnow => "SNOW"
  | .PrintRivStg => "RIVSTG"
  | .PrintRech => "RECHARGE"
  | .PrintIS => "CMC"
  | .PrintUnsat => "UNSAT"
  | .PrintET0 => "EC"
  | .PrintET1 => "ETT"
  | .PrintET2 => "EDIR"
  | .PrintRivFlx0 => "RIVFLX0"
  | .PrintRivFlx1 => "RIVFLX1"
  | .PrintRivFlx2 => "RIVFLX2"
  | .PrintRivFlx3 => "RIVFLX3"
  | .PrintRivFlx4 => "RIVFLX4"
  | .PrintRivFlx5 => "RIVFLX5"
  | .PrintRivFlx6 => "RIVFLX6"
  | .PrintRivFlx7 => "RIVFLX7"
  | .PrintRivFlx8 => "RIVFLX8"
  | .PrintRivFlx9 => "RIVFLX9"

/-- The field whose branch a keyword selects. -/
def fieldOfKeyword (key : String) : Option ParaField :=
  if key = "VERBOSE" then some .Verbose
  else if key = "DEBUG" then some .Debug
  else if key = "INIT_MODE" then some .init_type
  else if key = "ASCII_OUTPUT" then some .Ascii
  else if key = "SPINUP_MODE" then some .Spinup
  else if key = "UNSAT_MODE" then some .UnsatMode
  else if key = "SAT_MODE" then some .SurfMode
  else if key = "RIV_MODE" then some .RivMode
  else if key = "SOLVER" then some .Solver
  else if key = "GSTYPE" then some .GSType
  else if key = "MAXK" then some .MaxK
  else if key = "DELTA" then some .delt
  else if key = "ABSTOL" then some .abstol
  else if key = "RELTOL" then some .reltol
  else if key = "INIT_SOLVER_STEP" then some .InitStep
  else if key = "MAX_SOLVER_STEP" then some .MaxStep
  else if key = "LSM_STEP" then some .ETStep
  else if key = "START" then some .StartTime
  else if key = "END" then some .EndTime
  else if key = "OUTPUT_TYPE" then some .outtype
  else if key = "STEPSIZE_FACTOR" then some .a
  else if key = "MODEL_STEPSIZE" then some .b
  else if key = "GW" then some .PrintGW
  else if key = "SURF" then some .PrintSurf
  else if key = "SNOW" then some .PrintSnow
  else if key = "RIVSTG" then some .PrintRivStg
  else if key = "RECHARGE" then some .PrintRech
  else if key = "CMC" then some .PrintIS
  else if key = "UNSAT" then some .PrintUnsat
  else if key = "EC" then some .PrintET0
  else if key = "ETT" then some .PrintET1
  else if key = "EDIR" then some .PrintET2
  else if key = "RIVFLX0" then some .PrintRivFlx0
  else if key = "RIVFLX1" then some .PrintRivFlx1
  else if key = "RIVFLX2" then some .PrintRivFlx2
  else if key = "RIVFLX3" then some .PrintRivFlx3
  else if key = "RIVFLX4" then some .PrintRivFlx4
  else if key = "RIVFLX5" then some .PrintRivFlx5
  else if key = "RIVFLX6" then some .PrintRivFlx6
  else if key = "RIVFLX7" then some .PrintRivFlx7
  else if key = "RIVFLX8" then some .PrintRivFlx8
  else if key = "RIVFLX9" then some .PrintRivFlx9
  else none

/-- The value of a field in the memory, as a real number. -/
def ParaField.get (st : State) : ParaField → ℚ
  | .Verbose => (st.CS.Verbose : ℚ)
  | .Debug => (st.CS.Debug : ℚ)
  | .init_type => (st.CS.init_type : ℚ)
  | .Ascii => (st.CS.Ascii : ℚ)
  | .Spinup => (st.CS.Spinup : ℚ)
  | .UnsatMode => (st.DS.UnsatMode : ℚ)
  | .SurfMode => (st.DS.SurfMode : ℚ)
  | .RivMode => (st.DS.RivMode : ℚ)
  | .Solver => (st.CS.Solver : ℚ)
  | .GSType => (st.CS.GSType : ℚ)
  | .MaxK => (st.CS.MaxK : ℚ)
  | .delt => st.CS.delt
  | .abstol => st.CS.abstol
  | .reltol => st.CS.reltol
  | .InitStep => st.CS.InitStep
  | .MaxStep => st.CS.MaxStep
  | .ETStep => st.CS.ETStep
  | .StartTime => st.CS.StartTime
  | .EndTime => st.CS.EndTime
  | .outtype => (st.CS.outtype : ℚ)
  | .a => st.CS.a
  | .b => st.CS.b
  | .PrintGW => (st.CS.PrintGW : ℚ)
  | .PrintSurf => (st.CS.PrintSurf : ℚ)
  | .PrintSnow => (st.CS.PrintSnow : ℚ)
  | .PrintRivStg => (st.CS.PrintRivStg : ℚ)
  | .PrintRech => (st.CS.PrintRech : ℚ)
  | .PrintIS => (st.CS.PrintIS : ℚ)
  | .PrintUnsat => (st.CS.PrintUnsat : ℚ)
  | .PrintET0 => (st.CS.PrintET.getD 0 0 : ℚ)
  | .PrintET1 => (st.CS.PrintET.getD 1 0 : ℚ)
  | .PrintET2 => (st.CS.PrintET.getD 2 0 : ℚ)
  | .PrintRivFlx0 => (st.CS.PrintRivFlx.getD 0 0 : ℚ)
  | .PrintRivFlx1 => (st.CS.PrintRivFlx.getD 1 0 : ℚ)
  | .PrintRivFlx2 => (st.CS.PrintRivFlx.getD 2 0 : ℚ)
  | .PrintRivFlx3 => (st.CS.PrintRivFlx.getD 3 0 : ℚ)
  | .PrintRivFlx4 => (st.CS.PrintRivFlx.getD 4 0 : ℚ)
  | .PrintRivFlx5 => (st.CS.PrintRivFlx.getD 5 0 : ℚ)
  | .PrintRivFlx6 => (st.CS.PrintRivFlx.getD 6 0 : ℚ)
  | .PrintRivFlx7 => (st.CS.PrintRivFlx.getD 7 0 : ℚ)
  | .PrintRivFlx8 => (st.CS.PrintRivFlx.getD 8 0 : ℚ)
  | .PrintRivFlx9 => (st.CS.PrintRivFlx.getD 9 0 : ℚ)

/-- The broken-down time that the branch of `START` or `END` hands to `timegm`
(lines 763-766). -/
def stampedDate (cmdstr : List Char) (timeinfo : Tm) : Tm :=
  let t := sscanf_date cmdstr timeinfo
  { t with tm_year := t.tm_year - 1900, tm_mon := t.tm_mon - 1, tm_sec := 0 }

/-- The value that the call of `sscanf` in the branch of a field converts on a line
(the value the field has when no conversion is made), for `StartTime` and
`EndTime` the time that `timegm` returns. -/
def ParaField.scan (cmdstr : List Char) (st : State) : ParaField → ℚ
  | .Verbose => (sscanf_d cmdstr st.CS.Verbose : ℚ)
  | .Debug => (sscanf_d cmdstr st.CS.Debug : ℚ)
  | .init_type => (sscanf_d cmdstr st.CS.init_type : ℚ)
  | .Ascii => (sscanf_d cmdstr st.CS.Ascii : ℚ)
  | .Spinup => (sscanf_d cmdstr st.CS.Spinup : ℚ)
  | .UnsatMode => (sscanf_d cmdstr st.DS.UnsatMode : ℚ)
  | .SurfMode => (sscanf_d cmdstr st.DS.SurfMode : ℚ)
  | .RivMode => (sscanf_d cmdstr st.DS.RivMode : ℚ)
  | .Solver => (sscanf_d cmdstr st.CS.Solver : ℚ)
  | .GSType => (sscanf_d cmdstr st.CS.GSType : ℚ)
  | .MaxK => (sscanf_d cmdstr st.CS.MaxK : ℚ)
  | .delt => sscanf_lf cmdstr st.CS.delt
  | .abstol => sscanf_lf cmdstr st.CS.abstol
  | .reltol => sscanf_lf cmdstr st.CS.reltol
  | .InitStep => sscanf_lf cmdstr st.CS.InitStep
  | .MaxStep => sscanf_lf cmdstr st.CS.MaxStep
  | .ETStep => sscanf_lf cmdstr st.CS.ETStep
  | .StartTime => ((timegm (stampedDate cmdstr st.timeinfo)).1 : ℚ)
  | .EndTime => ((timegm (stampedDate cmdstr st.timeinfo)).1 : ℚ)
  | .outtype => (sscanf_d cmdstr st.CS.outtype : ℚ)
  | .a => sscanf_lf cmdstr st.CS.a
  | .b => sscanf_lf cmdstr st.CS.b
  | .PrintGW => (sscanf_d cmdstr st.CS.PrintGW : ℚ)
  | .PrintSurf => (sscanf_d cmdstr st.CS.PrintSurf : ℚ)
  | .PrintSnow => (sscanf_d cmdstr st.CS.PrintSnow : ℚ)
  | .PrintRivStg => (sscanf_d cmdstr st.CS.PrintRivStg : ℚ)
  | .PrintRech => (sscanf_d cmdstr st.CS.PrintRech : ℚ)
  | .PrintIS => (sscanf_d cmdstr st.CS.PrintIS : ℚ)
  | .PrintUnsat => (sscanf_d cmdstr st.CS.PrintUnsat : ℚ)
  | .PrintET0 => (sscanf_d cmdstr (st.CS.PrintET.getD 0 0) : ℚ)
  | .PrintET1 => (sscanf_d cmdstr (st.CS.PrintET.getD 1 0) : ℚ)
  | .PrintET2 => (sscanf_d cmdstr (st.CS.PrintET.getD 2 0) : ℚ)
  | .PrintRivFlx0 => (sscanf_d cmdstr (st.CS.PrintRivFlx.getD 0 0) : ℚ)
  | .PrintRivFlx1 => (sscanf_d cmdstr (st.CS.PrintRivFlx.getD 1 0) : ℚ)
  | .PrintRivFlx2 => (sscanf_d cmdstr (st.CS.PrintRivFlx.getD 2 0) : ℚ)
  | .PrintRivFlx3 => (sscanf_d cmdstr (st.CS.PrintRivFlx.getD 3 0) : ℚ)
  | .PrintRivFlx4 => (sscanf_d cmdstr (st.CS.PrintRivFlx.getD 4 0) : ℚ)
  | .PrintRivFlx5 => (sscanf_d cmdstr (st.CS.PrintRivFlx.getD 5 0) : ℚ)
  | .PrintRivFlx6 => (sscanf_d cmdstr (st.CS.PrintRivFlx.getD 6 0) : ℚ)
  | .PrintRivFlx7 => (sscanf_d cmdstr (st.CS.PrintRivFlx.getD 7 0) : ℚ)
  | .PrintRivFlx8 => (sscanf_d cmdstr (st.CS.PrintRivFlx.getD 8 0) : ℚ)
  | .PrintRivFlx9 => (sscanf_d cmdstr (st.CS.PrintRivFlx.getD 9 0) : ℚ)

/-- The entry of `PrintET` or `PrintRivFlx` that the field stands for lies inside
of the array; the other fields are no array entries. -/
def ParaField.inArray (st : State) : ParaField → Bool
  | .PrintET0 => decide (0 < st.CS.PrintET.length)
  | .PrintET1 => decide (1 < st.CS.PrintET.length)
  | .PrintET2 => decide (2 < st.CS.PrintET.length)
  | .PrintRivFlx0 => decide (0 < st.CS.PrintRivFlx.length)
  | .PrintRivFlx1 => decide (1 < st.CS.PrintRivFlx.length)
  | .PrintRivFlx2 => decide (2 < st.CS.PrintRivFlx.length)
  | .PrintRivFlx3 => decide (3 < st.CS.PrintRivFlx.length)
  | .PrintRivFlx4 => decide (4 < st.CS.PrintRivFlx.length)
  | .PrintRivFlx5 => decide (5 < st.CS.PrintRivFlx.length)
  | .PrintRivFlx6 => decide (6 < st.CS.PrintRivFlx.length)
  | .PrintRivFlx7 => decide (7 < st.CS.PrintRivFlx.length)
  | .PrintRivFlx8 => decide (8 < st.CS.PrintRivFlx.length)
  | .PrintRivFlx9 => decide (9 < st.CS.PrintRivFlx.length)
  | _ => true

/-- The two memories agree on what no keyword of the .para file assigns. -/
def SameRest (s t : State) : Prop :=
  s.CS.NumSteps = t.CS.NumSteps ∧ s.CS.Tout = t.CS.Tout ∧ s.CS.Cal = t.CS.Cal ∧
    s.CS.PrintET.length = t.CS.PrintET.length ∧
    s.CS.PrintRivFlx.length = t.CS.PrintRivFlx.length ∧
    s.CS.PrintRivFlx.getD 10 0 = t.CS.PrintRivFlx.getD 10 0 ∧ s.DS.pcCal = t.DS.pcCal ∧
    s.DS.NumEle = t.DS.NumEle ∧ s.DS.Ele = t.DS.Ele ∧ s.DS.NumTS = t.DS.NumTS ∧
    s.DS.TSD_meteo_length = t.DS.TSD_meteo_length ∧ s.DS.TSD_lai_length = t.DS.TSD_lai_length

/-- The lines of a .para file with two START lines followed by a line of one
blank. -/
def paraStartBlank : String := "START 2000-01-01 00:00\nSTART 2001-01-01 00:00\n \n"

/-- The file `paraStartBlank` without its last line. -/
def paraStartTwice : String := "START 2000-01-01 00:00\nSTART 2001-01-01 00:00\n"

/-! ## Civil date and time, counted from the epoch -/

/-- A civil date and time of day, to the minute. -/
structure Civil where
  year : Int
  month : Int
  day : Int
  hour : Int
  minute : Int
  deriving DecidableEq, Repr

/-- Number of days of a month (0 = January) in a common or a leap year. -/
def daysInMonth (leap : Bool) (m : Nat) : Int :=
  [31, if leap then 29 else 28, 31, 30, 31, 30, 31, 31, 30, 31, 30, 31].getD m 0

/-- Number of days of a year. -/
def daysInYear (y : Int) : Int := if isLeapYear y then 366 else 365

/-- Number of days from 1970-01-01 to January 1st of the year `1970 + n`, counted
year by year. -/
def daysFrom1970 : Nat → Int
  | 0 => 0
  | n + 1 => daysFrom1970 n + daysInYear (1970 + n)

/-- Number of days from January 1st of the year `1970 - n` to 1970-01-01, counted
year by year. -/
def daysTo1970 : Nat → Int
  | 0 => 0
  | n + 1 => daysTo1970 n + daysInYear (1970 - (n + 1))

/-- The date and time exist in the calendar. -/
def Civil.valid (c : Civil) : Bool :=
  decide (1 ≤ c.month) && decide (c.month ≤ 12) && decide (1 ≤ c.day) &&
    decide (c.day ≤ daysInMonth (isLeapYear c.year) (c.month - 1).toNat) &&
    decide (0 ≤ c.hour) && decide (c.hour < 24) && decide (0 ≤ c.minute) &&
    decide (c.minute < 60)

/-- Number of days from 1970-01-01 to the day of a civil date: whole years, then
whole months of the year, then days of the month. -/
def Civil.days (c : Civil) : Int :=
  (if 1970 ≤ c.year then daysFrom1970 (c.year - 1970).toNat
    else -daysTo1970 (1970 - c.year).toNat) +
    ((List.range (c.month - 1).toNat).map (daysInMonth (isLeapYear c.year))).sum + (c.day - 1)

/-- Number of seconds from 1970-01-01 00:00:00 UTC to a civil date and time, its
seconds being 0. -/
def Civil.seconds (c : Civil) : Int := ((c.days * 24 + c.hour) * 60 + c.minute) * 60

/-- The first date and time is earlier than the second. -/
def Civil.before (c d : Civil) : Prop :=
  c.year < d.year ∨ (c.year = d.year ∧ (c.month < d.month ∨ (c.month = d.month ∧
    (c.day < d.day ∨ (c.day = d.day ∧ (c.hour < d.hour ∨
      (c.hour = d.hour ∧ c.minute < d.minute)))))))

/-- A decimal numeral without sign: digits, at least one. -/
def isNumeral (ds : List Char) : Bool := !ds.isEmpty && ds.all isdigit

/-- A line `KEY Y-M-D h:m` of the .para file. -/
def dateLine (key Y M D h m : List Char) : List Char :=
  key ++ ' ' :: (Y ++ '-' :: (M ++ '-' :: (D ++ ' ' :: (h ++ ':' :: (m ++ ['\n'])))))

/-- The date and time that the numerals of a line name. -/
def civilOf (Y M D h m : List Char) : Civil :=
  { year := digitsVal Y, month := digitsVal M, day := digitsVal D, hour := digitsVal h,
    minute := digitsVal m }

/-! ## Lemmas -/

theorem Outcome.bind_eq_ok {α β : Type} {x : Outcome α} {f : α → Outcome β} {r : β} :
    x.bind f = .ok r ↔ ∃ v, x = .ok v ∧ f v = .ok r := by
  cases x <;> simp [Outcome.bind]

theorem Outcome.bind_eq_exit {α β : Type} {x : Outcome α} {f : α → Outcome β} {c : Int}
    {m : Fatal} :
    x.bind f = .exit c m ↔ x = .exit c m ∨ ∃ v, x = .ok v ∧ f v = .exit c m := by
  cases x <;> simp [Outcome.bind]

theorem paraChecks_ok {cs cs2 : Control_Data} (h : paraChecks cs = .ok cs2) : cs2 = cs := by
  unfold paraChecks at h
  split_ifs at h
  simpa using h.symm

theorem rawTout_getElem? (a b S : ℚ) (N i : Nat) (h : i ≤ N) :
    (rawTout a b S N)[i]? = some (ToutAt a b S i) := by
  unfold rawTout
  rw [List.getElem?_map, List.getElem?_range (by omega)]
  rfl

theorem rawTout_length (a b S : ℚ) (N : Nat) : (rawTout a b S N).length = N + 1 := by
  simp [rawTout]

theorem schedule_ok {cs cs1 : Control_Data} (h : schedule cs = .ok cs1) :
    IsSchedule cs1 ∧ cs1.a = cs.a ∧ cs1.b = cs.b ∧ cs1.StartTime = cs.StartTime ∧
      cs1.EndTime = cs.EndTime ∧ cs1.outtype = cs.outtype ∧ cs1.abstol = cs.abstol ∧
      cs1.reltol = cs.reltol ∧ cs1.InitStep = cs.InitStep ∧ cs1.MaxStep = cs.MaxStep := by
  unfold schedule at h
  split at h
  · cases h
  · rename_i NumTout hN
    simp only at h
    split_ifs at h with h1 h2
    · injection h with h
      subst h
      refine ⟨⟨NumTout, hN, rfl, not_lt.1 (not_or.1 h1).1, ?_⟩, rfl, rfl, rfl, rfl, rfl, rfl, rfl, rfl,
        rfl⟩
      have h3 : ToutAt cs.a cs.b cs.StartTime (NumTout + 1).toNat < cs.EndTime := by
        have := rawTout_getElem? cs.a cs.b cs.StartTime (NumTout + 1).toNat _ le_rfl
        rw [List.getD_eq_getElem?_getD] at h2
        unfold rawTout at this
        rw [this] at h2
        simpa using h2
      simp only [h3, if_true]
      rfl
    · injection h with h
      subst h
      refine ⟨⟨NumTout, hN, rfl, not_lt.1 (not_or.1 h1).1, ?_⟩, rfl, rfl, rfl, rfl, rfl, rfl, rfl, rfl,
        rfl⟩
      have h3 : ¬ ToutAt cs.a cs.b cs.StartTime (NumTout + 1).toNat < cs.EndTime := by
        have := rawTout_getElem? cs.a cs.b cs.StartTime (NumTout + 1).toNat _ le_rfl
        rw [List.getD_eq_getElem?_getD] at h2
        unfold rawTout at this
        rw [this] at h2
        simpa using h2
      simp only [h3, if_false]
      rfl

theorem readPara_ok {content : List Char} {st r : State} (h : readPara content st = .ok r) :
    ∃ st1, paraLoop (fgetsLines content) (paraDefaults st) = .ok st1 ∧
      schedule st1.CS = .ok r.CS ∧ paraChecks r.CS = .ok r.CS ∧ r = { st1 with CS := r.CS } := by
  unfold readPara at h
  obtain ⟨st1, h1, ha⟩ := Outcome.bind_eq_ok.1 h
  obtain ⟨cs1, h2, hb⟩ := Outcome.bind_eq_ok.1 ha
  obtain ⟨cs2, h3, hc⟩ := Outcome.bind_eq_ok.1 hb
  have h4 := paraChecks_ok h3
  subst h4
  injection hc with hc
  subst hc
  exact ⟨st1, h1, h2, h3, rfl⟩

theorem readPara_isSchedule {content : List Char} {st r : State}
    (h : readPara content st = .ok r) : IsSchedule r.CS := by
  obtain ⟨st1, -, h2, -, -⟩ := readPara_ok h
  exact (schedule_ok h2).1

theorem IsSchedule.length {cs : Control_Data} (h : IsSchedule cs) :
    cs.Tout.length = cs.NumSteps.toNat + 1 := by
  obtain ⟨n, -, -, -, hT⟩ := h
  rw [hT]
  split_ifs <;> simp [rawTout_length]

theorem IsSchedule.interior {cs : Control_Data} (h : IsSchedule cs) (i : Nat)
    (hi : (i : Int) < cs.NumSteps) :
    cs.Tout[i]? = some (ToutAt cs.a cs.b cs.StartTime i) := by
  obtain ⟨n, -, -, h0, hT⟩ := h
  have hi2 : i < cs.NumSteps.toNat := by omega
  rw [hT]
  split_ifs
  · rw [List.getElem?_set_ne (by omega)]
    exact rawTout_getElem? _ _ _ _ _ (by omega)
  · exact rawTout_getElem? _ _ _ _ _ (by omega)

theorem IsSchedule.last {cs : Control_Data} (h : IsSchedule cs) :
    cs.Tout[cs.NumSteps.toNat]? =
      some (max (ToutAt cs.a cs.b cs.StartTime cs.NumSteps.toNat) cs.EndTime) := by
  obtain ⟨n, -, -, h0, hT⟩ := h
  rw [hT]
  split_ifs with h1
  · rw [List.getElem?_set_self (by simp [rawTout_length])]
    rw [max_eq_right h1.le]
  · rw [rawTout_getElem? _ _ _ _ _ le_rfl, max_eq_left (not_lt.1 h1)]

theorem ToutAt_one (b S : ℚ) (i : Nat) : ToutAt 1 b S i = S + i * b := by
  induction i with
  | zero => simp [ToutAt]
  | succ k ih => rw [ToutAt, ih]; push_cast; ring

theorem ToutAt_step (a b S : ℚ) (i : Nat) :
    ToutAt a b S (i + 2) - ToutAt a b S (i + 1) = a * (ToutAt a b S (i + 1) - ToutAt a b S i) := by
  simp only [ToutAt]
  ring

theorem ToutAt_mono_one {b S : ℚ} (hb : 0 ≤ b) {i j : Nat} (h : i ≤ j) :
    ToutAt 1 b S i ≤ ToutAt 1 b S j := by
  rw [ToutAt_one, ToutAt_one]
  have : (i : ℚ) ≤ j := by exact_mod_cast h
  nlinarith

theorem inInt_eq_some {z n : Int} (h : inInt z = some n) :
    n = z ∧ INT_MIN ≤ z ∧ z ≤ INT_MAX := by
  unfold inInt at h
  split_ifs at h with hr
  injection h with h
  exact ⟨h.symm, hr⟩

theorem castInt_eq_some {q : ℚ} {n : Int} (h : castInt q = some n) :
    n = truncQ q ∧ INT_MIN ≤ truncQ q ∧ truncQ q ≤ INT_MAX :=
  inInt_eq_some h

theorem truncQ_nonneg {q : ℚ} (h : 0 ≤ q) : 0 ≤ truncQ q := by
  unfold truncQ
  rw [if_pos h]
  exact Int.floor_nonneg.2 h

theorem truncQ_ge_neg_one {q : ℚ} (h : -1 ≤ q) : -1 ≤ truncQ q := by
  unfold truncQ
  split_ifs with h0
  · have := Int.floor_nonneg.2 h0
    omega
  · have h1 : ((-1 : Int) : ℚ) ≤ ((⌈q⌉ : Int) : ℚ) := by
      push_cast
      exact h.trans (Int.le_ceil q)
    exact_mod_cast h1

theorem truncQ_nonneg_of_gt {q : ℚ} (h : -1 < q) : 0 ≤ truncQ q := by
  unfold truncQ
  split_ifs with h0
  · exact Int.floor_nonneg.2 h0
  · have h1 : ((-1 : Int) : ℚ) < ((⌈q⌉ : Int) : ℚ) := by
      push_cast
      exact lt_of_lt_of_le h (Int.le_ceil q)
    have h2 : (-1 : Int) < ⌈q⌉ := by exact_mod_cast h1
    omega

theorem truncQ_intCast (z : Int) : truncQ (z : ℚ) = z := by
  unfold truncQ
  split_ifs
  · exact Int.floor_intCast z
  · exact Int.ceil_intCast z

theorem ilog_one {base : ℚ} (h : 1 < base) : ilog base 1 = 0 := by
  unfold ilog
  cases ⌈(1 : ℚ) / (base - 1)⌉.toNat with
  | zero => rfl
  | succ k =>
    unfold ilogAux
    rw [if_neg]
    simpa using h

theorem ilogAux_spec (base y : ℚ) :
    ∀ (fuel n : Nat), base ^ n ≤ y →
      base ^ (ilogAux base y fuel n) ≤ y ∧
        (y < base ^ (ilogAux base y fuel n + 1) ∨ ilogAux base y fuel n = n + fuel) := by
  intro fuel
  induction fuel with
  | zero =>
    intro n hn
    exact ⟨hn, Or.inr rfl⟩
  | succ k ih =>
    intro n hn
    unfold ilogAux
    split_ifs with h
    · obtain ⟨h1, h2⟩ := ih (n + 1) h
      refine ⟨h1, ?_⟩
      rcases h2 with h2 | h2
      · exact Or.inl h2
      · exact Or.inr (by omega)
    · exact ⟨hn, Or.inl (not_le.1 h)⟩

/-- The count of `ilog` suffices: for `1 < base` and `1 ≤ y` the result `n` is the integer with
`base ^ n ≤ y < base ^ (n + 1)`. -/
theorem ilog_spec {base y : ℚ} (hb : 1 < base) (hy : 1 ≤ y) :
    base ^ (ilog base y) ≤ y ∧ y < base ^ (ilog base y + 1) := by
  unfold ilog
  obtain ⟨h1, h2⟩ := ilogAux_spec base y ⌈y / (base - 1)⌉.toNat 0 (by simpa using hy)
  refine ⟨h1, ?_⟩
  rcases h2 with h2 | h2
  · exact h2
  · rw [h2, Nat.zero_add]
    have hpos : 0 < base - 1 := by linarith
    have hF : y / (base - 1) ≤ (⌈y / (base - 1)⌉.toNat : ℚ) := by
      have h3 : y / (base - 1) ≤ (⌈y / (base - 1)⌉ : ℚ) := Int.le_ceil _
      have h4 : (⌈y / (base - 1)⌉ : ℤ) ≤ (⌈y / (base - 1)⌉.toNat : ℤ) := Int.self_le_toNat _
      have h5 : ((⌈y / (base - 1)⌉ : ℤ) : ℚ) ≤ ((⌈y / (base - 1)⌉.toNat : ℤ) : ℚ) := by
        exact_mod_cast h4
      have h6 : ((⌈y / (base - 1)⌉.toNat : ℤ) : ℚ) = (⌈y / (base - 1)⌉.toNat : ℚ) := by
        push_cast
        rfl
      linarith
    have hF2 : y ≤ (⌈y / (base - 1)⌉.toNat : ℚ) * (base - 1) := (div_le_iff₀ hpos).1 hF
    have hB := one_add_mul_le_pow (show (-2 : ℚ) ≤ base - 1 by linarith)
      (⌈y / (base - 1)⌉.toNat + 1)
    have hB2 : (1 : ℚ) + (base - 1) = base := by ring
    rw [hB2] at hB
    push_cast at hB
    nlinarith

theorem truncLogRatio_nonneg {a b D : ℚ} {n : Int} (hb : 0 < b) (hD : 0 ≤ D)
    (h : truncLogRatio (1 - D * (1 - a) / b) a = some n) : 0 ≤ n := by
  unfold truncLogRatio at h
  by_cases h1 : a < 0
  · simp [h1] at h
  rw [if_neg h1] at h
  by_cases h2 : a = 0
  · rw [if_pos h2] at h
    split_ifs at h
    simp at h; omega
  rw [if_neg h2] at h
  by_cases h4 : 1 - D * (1 - a) / b ≤ 0
  · simp [h4] at h
  rw [if_neg h4] at h
  by_cases h5 : a = 1
  · simp [h5] at h
  rw [if_neg h5] at h
  simp only [Option.some.injEq] at h
  subst h
  by_cases ha : 1 < a
  · have hx : 1 ≤ 1 - D * (1 - a) / b := by
      have : D * (1 - a) / b ≤ 0 := by
        apply div_nonpos_of_nonpos_of_nonneg _ hb.le
        nlinarith
      linarith
    simp [ha, hx]
  · have ha1 : a < 1 := lt_of_le_of_ne (not_lt.1 ha) h5
    have hle : 1 - D * (1 - a) / b ≤ 1 := by
      have : 0 ≤ D * (1 - a) / b := by
        apply div_nonneg _ hb.le
        nlinarith
      linarith
    by_cases hx : 1 ≤ 1 - D * (1 - a) / b
    · have hx1 : 1 - D * (1 - a) / b = 1 := le_antisymm hle hx
      have hbase : (1 : ℚ) < 1 / a := by
        have ha0 : 0 < a := lt_of_le_of_ne (not_lt.1 h1) (Ne.symm h2)
        rw [lt_div_iff₀ ha0]
        linarith
      rw [one_div] at hbase
      simp [ha, hx1, ilog_one hbase]
    · simp [ha, hx]

theorem numTout_bounds {a b S E : ℚ} {n : Int} (hb : 0 < b) (hSE : S ≤ E)
    (h : numTout a b S E = some n) : -1 ≤ n ∧ (S < E → 0 ≤ n) := by
  unfold numTout at h
  have hD : 0 ≤ E - S := by linarith
  split_ifs at h with h1 h2 h3
  · obtain ⟨m, hm, hin⟩ := Option.bind_eq_some.1 h
    obtain ⟨rfl, -, -⟩ := inInt_eq_some hin
    have := truncLogRatio_nonneg hb hD hm
    exact ⟨by omega, fun _ => this⟩
  · cases hp : castInt (E - S) with
    | none => rw [hp] at h; cases h
    | some period =>
      rw [hp] at h
      dsimp only at h
      split_ifs at h with h4
      · obtain ⟨rfl, -, -⟩ := castInt_eq_some h
        have : 0 ≤ truncQ ((E - S) / b) := truncQ_nonneg (div_nonneg hD hb.le)
        exact ⟨by omega, fun _ => this⟩
      · obtain ⟨rfl, -, -⟩ := castInt_eq_some h
        have h0 : 0 ≤ (E - S) / b := div_nonneg hD hb.le
        refine ⟨truncQ_ge_neg_one (by linarith), fun hlt => truncQ_nonneg_of_gt ?_⟩
        have : 0 < (E - S) / b := div_pos (by linarith) hb
        linarith

theorem Outcome.of_map_eq_ok {α β : Type} {f : α → β} {x : Outcome α} {v : β}
    (h : Outcome.map f x = .ok v) : ∃ r, x = .ok r ∧ f r = v := by
  cases x with
  | ok r => exact ⟨r, rfl, by simpa [Outcome.map] using h⟩
  | exit c m => simp [Outcome.map] at h
  | undefined => simp [Outcome.map] at h

theorem numTout_const_integral {b S E : ℚ} {n : Int} (zS zE : Int) (hS : S = zS) (hE : E = zE)
    (hb : 0 < b) (hstep : b ≤ E - S) (h : numTout 1 b S E = some n) :
    n + 1 = ⌊(E - S) / b⌋ ∧ zE - zS ≤ INT_MAX := by
  unfold numTout at h
  rw [if_neg (by simp), if_neg hb.ne'] at h
  have hD : truncQ (E - S) = zE - zS := by
    rw [hS, hE]
    have : ((zE : ℚ) - zS) = ((zE - zS : Int) : ℚ) := by push_cast; ring
    rw [this, truncQ_intCast]
  cases hp : castInt (E - S) with
  | none => rw [hp] at h; cases h
  | some period =>
    rw [hp] at h
    dsimp only at h
    obtain ⟨hper, -, hmax⟩ := castInt_eq_some hp
    rw [hD] at hper hmax
    subst hper
    have hz : ¬ ((E - S) / b - (((zE - zS : Int)) : ℚ) / b > 0) := by
      rw [hS, hE]; push_cast; simp
    rw [if_neg hz] at h
    obtain ⟨rfl, -, -⟩ := castInt_eq_some h
    refine ⟨?_, hmax⟩
    have h1 : 0 ≤ (E - S) / b - 1 := by
      have : 1 ≤ (E - S) / b := by rw [le_div_iff₀ hb]; linarith
      linarith
    unfold truncQ
    rw [if_pos h1, Int.floor_sub_one]
    ring

/-- A period `EndTime - StartTime` beyond `INT_MAX` seconds: the conversion of line 845 is
undefined, whatever the step. -/
theorem numTout_long_period {b S E : ℚ} (h : INT_MAX < truncQ (E - S)) :
    numTout 1 b S E = none := by
  unfold numTout
  rw [if_neg (by simp)]
  split_ifs
  · rfl
  · have hc : castInt (E - S) = none := by
      unfold castInt inInt
      rw [if_neg (by omega)]
    rw [hc]

/-- The period from 1950-01-01 to 2030-01-01 is 2524608000 seconds, more than `INT_MAX`. -/
theorem numTout_1950_2030 : numTout 1 864000000 (-631152000) 1893456000 = none := by
  decide!

/-- Constant step, integral times and a whole step that is at most the period: the schedule
stored ends at `EndTime`. -/
theorem IsSchedule.const_end {cs : Control_Data} (hs : IsSchedule cs) (ha : cs.a = 1)
    (zb zS zE : Int) (hbz : cs.b = zb) (hS : cs.StartTime = zS) (hE : cs.EndTime = zE)
    (hpos : 0 < zb) (hstep : zb ≤ zE - zS) :
    cs.Tout[cs.NumSteps.toNat]? = some cs.EndTime ∧ (∀ t ∈ cs.Tout, t ≤ cs.EndTime) ∧
      cs.NumSteps = (zE - zS) / zb := by
  have hb : 0 < cs.b := by rw [hbz]; exact_mod_cast hpos
  have hstepq : cs.b ≤ cs.EndTime - cs.StartTime := by
    rw [hbz, hS, hE]; exact_mod_cast hstep
  obtain ⟨n, hn, hN, h0, -⟩ := id hs
  rw [ha] at hn
  obtain ⟨hfl, -⟩ := numTout_const_integral zS zE hS hE hb hstepq hn
  have hquot : ⌊(cs.EndTime - cs.StartTime) / cs.b⌋ = (zE - zS) / zb := by
    obtain ⟨k, rfl⟩ := Int.eq_ofNat_of_zero_le hpos.le
    rw [hbz, hS, hE]
    have e : ((zE : ℚ) - zS) / ((k : Int) : ℚ) = (((zE - zS : Int)) : ℚ) / (k : ℚ) := by
      push_cast; ring
    rw [e, Rat.floor_intCast_div_natCast]
  have hraw : ToutAt cs.a cs.b cs.StartTime cs.NumSteps.toNat ≤ cs.EndTime := by
    rw [ha, ToutAt_one]
    have h1 : ((cs.NumSteps.toNat : Nat) : ℚ) = ((cs.NumSteps : Int) : ℚ) := by
      have := Int.toNat_of_nonneg h0
      exact_mod_cast this
    rw [h1, hN, hfl]
    have h2 := Int.floor_le ((cs.EndTime - cs.StartTime) / cs.b)
    have h3 := (le_div_iff₀ hb).1 h2
    linarith
  have hlast : cs.Tout[cs.NumSteps.toNat]? = some cs.EndTime := by
    rw [hs.last, max_eq_right hraw]
  refine ⟨hlast, fun t ht => ?_, by rw [hN, hfl, hquot]⟩
  obtain ⟨i, hi⟩ := List.mem_iff_getElem?.1 ht
  have hlen := hs.length
  have hi_lt : i < cs.Tout.length := by
    by_contra hc
    rw [List.getElem?_eq_none (by omega)] at hi
    cases hi
  by_cases hiN : i = cs.NumSteps.toNat
  · rw [hiN, hlast] at hi
    injection hi with hi
    exact hi.ge
  · have hi2 : i < cs.NumSteps.toNat := by omega
    rw [hs.interior i (by omega)] at hi
    injection hi with hi
    rw [← hi, ha]
    rw [ha] at hraw
    exact (ToutAt_mono_one hb.le hi2.le).trans hraw

/-- Constant step, integral times, a whole step that is at most the period, and a period below
`INT_MAX`: every conversion of lines 845-851 is defined. -/
theorem numTout_const_some (zb zS zE : Int) (hpos : 0 < zb) (hstep : zb ≤ zE - zS)
    (hrange : zE - zS < INT_MAX) :
    numTout 1 (zb : ℚ) (zS : ℚ) (zE : ℚ) = some ((zE - zS) / zb - 1) := by
  have hq1 : 1 ≤ (zE - zS) / zb := (Int.le_ediv_iff_mul_le hpos).2 (by omega)
  have hq2 : (zE - zS) / zb ≤ zE - zS := Int.ediv_le_self _ (by omega)
  have hmax : INT_MAX = 2147483647 := rfl
  have hmin : INT_MIN = -2147483648 := rfl
  have hD : truncQ ((zE : ℚ) - zS) = zE - zS := by
    have : ((zE : ℚ) - zS) = ((zE - zS : Int) : ℚ) := by push_cast; ring
    rw [this, truncQ_intCast]
  have hc : castInt ((zE : ℚ) - zS) = some (zE - zS) := by
    unfold castInt inInt
    rw [hD, if_pos (by omega)]
  have hquot : ⌊((zE : ℚ) - zS) / (zb : ℚ)⌋ = (zE - zS) / zb := by
    obtain ⟨k, rfl⟩ := Int.eq_ofNat_of_zero_le hpos.le
    have e : ((zE : ℚ) - zS) / ((k : Int) : ℚ) = (((zE - zS : Int)) : ℚ) / (k : ℚ) := by
      push_cast; ring
    rw [e, Rat.floor_intCast_div_natCast]
  have hb : (0 : ℚ) < zb := by exact_mod_cast hpos
  have h1 : 0 ≤ ((zE : ℚ) - zS) / zb - 1 := by
    have : (1 : ℚ) ≤ ((zE : ℚ) - zS) / zb := by
      rw [le_div_iff₀ hb]
      have : (zb : ℚ) ≤ ((zE - zS : Int) : ℚ) := by exact_mod_cast hstep
      push_cast at this
      linarith
    linarith
  have ht : truncQ (((zE : ℚ) - zS) / zb - 1) = (zE - zS) / zb - 1 := by
    unfold truncQ
    rw [if_pos h1, Int.floor_sub_one, hquot]
  unfold numTout
  rw [if_neg (by simp), if_neg hb.ne', hc]
  dsimp only
  rw [if_neg (by push_cast; simp)]
  unfold castInt inInt
  rw [ht, if_pos (by omega)]

theorem sscanf_lf_noToken {cmdstr : List Char} (x : ℚ) (h : scanToken (cstr cmdstr) = none) :
    sscanf_lf cmdstr x = x := by
  unfold sscanf_lf
  rw [h]

theorem noToken_of_stale {key : String} {cmdstr o : List Char}
    (habs : ∀ tok, firstToken cmdstr = some tok → strcasecmp key tok = false)
    (hk : strcasecmp key (sscanf_s cmdstr o) = true) : scanToken (cstr cmdstr) = none := by
  cases h : scanToken (cstr cmdstr) with
  | none => rfl
  | some p =>
    obtain ⟨tok, r⟩ := p
    have h1 : firstToken cmdstr = some tok := by simp [firstToken, h]
    have h2 : sscanf_s cmdstr o = tok := by simp [sscanf_s, h]
    rw [h2, habs tok h1] at hk
    cases hk

theorem ite_eq_cases {α : Type} {c : Prop} [Decidable c] {A B r : α}
    (h : (if c then A else B) = r) : (c ∧ A = r) ∨ (¬ c ∧ B = r) := by
  by_cases hc : c
  · exact Or.inl ⟨hc, by rwa [if_pos hc] at h⟩
  · exact Or.inr ⟨hc, by rwa [if_neg hc] at h⟩

theorem paraKeyword_frame_ab {cmdstr o : List Char} {st st' : State}
    (h : paraKeyword cmdstr { st with optstr := sscanf_s cmdstr o } = .ok st') :
    ((∀ tok, firstToken cmdstr = some tok → strcasecmp "STEPSIZE_FACTOR" tok = false) →
      st'.CS.a = st.CS.a) ∧
    ((∀ tok, firstToken cmdstr = some tok → strcasecmp "MODEL_STEPSIZE" tok = false) →
      st'.CS.b = st.CS.b) := by
  unfold paraKeyword at h
  iterate 42
    rcases ite_eq_cases h with ⟨hk, h⟩ | ⟨-, h⟩
    · injection h with h
      subst h
      refine ⟨fun ha => ?_, fun hb => ?_⟩ <;>
        first
        | rfl
        | exact sscanf_lf_noToken _ (noToken_of_stale ha hk)
        | exact sscanf_lf_noToken _ (noToken_of_stale hb hk)
  cases h

theorem paraBody_frame_ab {cmdstr : List Char} {st st' : State}
    (h : paraBody cmdstr st = .ok st') :
    ((∀ tok, firstToken cmdstr = some tok → strcasecmp "STEPSIZE_FACTOR" tok = false) →
      st'.CS.a = st.CS.a) ∧
    ((∀ tok, firstToken cmdstr = some tok → strcasecmp "MODEL_STEPSIZE" tok = false) →
      st'.CS.b = st.CS.b) := by
  unfold paraBody at h
  rcases ite_eq_cases h with ⟨-, h1⟩ | ⟨-, h1⟩
  · rcases ite_eq_cases h1 with ⟨-, h2⟩ | ⟨-, h2⟩
    · injection h2 with h2
      subst h2
      exact ⟨fun _ => rfl, fun _ => rfl⟩
    · exact paraKeyword_frame_ab h2
  · injection h1 with h1
    subst h1
    exact ⟨fun _ => rfl, fun _ => rfl⟩

theorem absent_line {key : String} {cmdstr : List Char}
    (h : (match firstToken cmdstr with
      | some tok => !strcasecmp key tok
      | none => true) = true) :
    ∀ tok, firstToken cmdstr = some tok → strcasecmp key tok = false := by
  intro tok ht
  rw [ht] at h
  simpa using h

theorem paraLoop_frame_ab (lines : List (List Char)) :
    ∀ (st st' : State), paraLoop lines st = .ok st' →
    (((lines.all fun cmdstr =>
        match firstToken cmdstr with
        | some tok => !strcasecmp "STEPSIZE_FACTOR" tok
        | none => true) = true → st'.CS.a = st.CS.a) ∧
     ((lines.all fun cmdstr =>
        match firstToken cmdstr with
        | some tok => !strcasecmp "MODEL_STEPSIZE" tok
        | none => true) = true → st'.CS.b = st.CS.b)) := by
  induction lines with
  | nil =>
    intro st st' h
    simp only [paraLoop, Outcome.ok.injEq] at h
    subst h
    exact ⟨fun _ => rfl, fun _ => rfl⟩
  | cons l rest ih =>
    intro st st' h
    rw [paraLoop] at h
    obtain ⟨st1, h1, h2⟩ := Outcome.bind_eq_ok.1 h
    have hb := paraBody_frame_ab h1
    have hr := ih st1 st' h2
    constructor
    · intro hall
      rw [List.all_cons, Bool.and_eq_true] at hall
      rw [hr.1 hall.2, hb.1 (absent_line hall.1)]
    · intro hall
      rw [List.all_cons, Bool.and_eq_true] at hall
      rw [hr.2 hall.2, hb.2 (absent_line hall.1)]

theorem paraKeyword_spec (cmdstr : List Char) (st : State) (res : Outcome State)
    (h : paraKeyword cmdstr st = res) :
    (isParaKeyword st.optstr = true ∧ ∃ st', res = .ok st') ∨
      (isParaKeyword st.optstr = false ∧ res = .exit 1 (.unrecognized st.optstr)) := by
  unfold paraKeyword at h
  iterate 42
    have h2 := ite_eq_cases h
    clear h
    rcases h2 with ⟨hk, h⟩ | ⟨hk, h⟩
    · left
      exact ⟨List.any_eq_true.2 ⟨_, by simp [paraKeywords], hk⟩, _, h.symm⟩
  right
  refine ⟨?_, h.symm⟩
  rw [isParaKeyword, List.any_eq_false]
  intro k hmem
  simp only [paraKeywords, List.mem_cons, List.mem_singleton] at hmem
  repeat
    rcases hmem with rfl | hmem
    · assumption
  cases hmem

theorem calibKeyword_spec (F : Bool) (cmdstr : List Char) (st : State) (res : Outcome State)
    (h : calibKeyword F cmdstr st = res) :
    (isCalibKeyword F st.optstr = true ∧ ∃ st', res = .ok st') ∨
      (isCalibKeyword F st.optstr = false ∧ res = .exit 1 (.unrecognized st.optstr)) := by
  unfold calibKeyword at h
  iterate 30
    have h2 := ite_eq_cases h
    clear h
    rcases h2 with ⟨hk, h⟩ | ⟨hk, h⟩
    · left
      exact ⟨List.any_eq_true.2 ⟨_, by simp [calibKeywords], hk⟩, _, h.symm⟩
  iterate 7
    have h2 := ite_eq_cases h
    clear h
    rcases h2 with ⟨hk, h⟩ | ⟨hk, h⟩
    · left
      rw [Bool.and_eq_true] at hk
      exact ⟨List.any_eq_true.2 ⟨_, by simp [calibKeywords, hk.1], hk.2⟩, _, h.symm⟩
  right
  refine ⟨?_, h.symm⟩
  rw [isCalibKeyword, List.any_eq_false]
  intro k hmem
  simp only [calibKeywords, List.mem_append, List.mem_cons, List.mem_singleton] at hmem
  rcases hmem with hmem | hmem
  · repeat
      rcases hmem with rfl | hmem
      · assumption
    cases hmem
  · cases F
    · simp at hmem
    · simp only [if_true, List.mem_cons, List.mem_singleton] at hmem
      simp only [Bool.true_and] at *
      repeat
        rcases hmem with rfl | hmem
        · assumption
      cases hmem

theorem fgetsAux_cons (room : Nat) (acc : List Char) (c : Char) (cs : List Char) :
    fgetsAux room acc (c :: cs) =
      if (c = '\n' || room ≤ 1) = true then (acc ++ [c]) :: fgetsAux (MAXSTRING - 1) [] cs
      else fgetsAux (room - 1) (acc ++ [c]) cs := rfl

theorem fgetsAux_line (line post : List Char) (hnl : '\n' ∉ line) :
    ∀ (room : Nat) (acc : List Char), line.length < room →
      fgetsAux room acc (line ++ '\n' :: post) = (acc ++ line ++ ['\n']) :: fgetsLines post := by
  induction line with
  | nil =>
    intro room acc _
    rw [List.nil_append, fgetsAux_cons, if_pos (by simp)]
    simp [fgetsLines]
  | cons c cs ih =>
    intro room acc hlen
    have hc : c ≠ '\n' := fun h => hnl (by simp [h])
    have hcs : '\n' ∉ cs := fun h => hnl (by simp [h])
    simp only [List.length_cons] at hlen
    have hroom : ¬ room ≤ 1 := by omega
    rw [List.cons_append, fgetsAux_cons, if_neg (by simp [hc, hroom]),
      ih hcs (room - 1) (acc ++ [c]) (by omega)]
    simp

theorem fgetsAux_append (pre rest : List Char) (hlast : pre.getLast? = some '\n') :
    ∀ (room : Nat) (acc : List Char),
      fgetsAux room acc (pre ++ rest) = fgetsAux room acc pre ++ fgetsLines rest := by
  induction pre with
  | nil => simp at hlast
  | cons c cs ih =>
    intro room acc
    cases cs with
    | nil =>
      simp only [List.getLast?_singleton, Option.some.injEq] at hlast
      subst hlast
      rw [List.cons_append, List.nil_append, fgetsAux_cons, fgetsAux_cons, if_pos (by simp),
        if_pos (by simp)]
      simp [fgetsAux, fgetsLines]
    | cons d tl =>
      have hl : (d :: tl).getLast? = some '\n' := by
        rw [List.getLast?_cons_cons] at hlast
        exact hlast
      rw [List.cons_append, fgetsAux_cons, fgetsAux_cons room acc c (d :: tl)]
      split_ifs
      · rw [ih hl]
        rfl
      · rw [ih hl]

theorem mem_fgetsLines (pre line post : List Char)
    (hpre : pre = [] ∨ pre.getLast? = some '\n') (hnl : '\n' ∉ line)
    (hlen : line.length + 1 < MAXSTRING) :
    line ++ ['\n'] ∈ fgetsLines (pre ++ line ++ '\n' :: post) := by
  have hM : MAXSTRING = 1024 := rfl
  have hline : fgetsLines (line ++ '\n' :: post) = (line ++ ['\n']) :: fgetsLines post := by
    have := fgetsAux_line line post hnl (MAXSTRING - 1) [] (by omega)
    simpa [fgetsLines] using this
  rcases hpre with rfl | hpre
  · rw [List.nil_append, hline]
    exact List.mem_cons_self _ _
  · rw [List.append_assoc, fgetsLines, fgetsAux_append pre _ hpre, hline]
    exact List.mem_append_right _ (List.mem_cons_self _ _)

theorem fgetsLines_split (pre line post : List Char)
    (hpre : pre = [] ∨ pre.getLast? = some '\n') (hnl : '\n' ∉ line)
    (hlen : line.length + 1 < MAXSTRING) :
    fgetsLines (pre ++ line ++ '\n' :: post) =
      fgetsLines pre ++ (line ++ ['\n']) :: fgetsLines post := by
  have hM : MAXSTRING = 1024 := rfl
  have hline : fgetsLines (line ++ '\n' :: post) = (line ++ ['\n']) :: fgetsLines post := by
    have := fgetsAux_line line post hnl (MAXSTRING - 1) [] (by omega)
    simpa [fgetsLines] using this
  rcases hpre with rfl | hpre
  · rw [List.nil_append, hline]
    rfl
  · rw [List.append_assoc, fgetsLines, fgetsAux_append pre _ hpre, hline]
    rfl

theorem firstByte_ne_nul_of_token {cmdstr tok : List Char} (h : firstToken cmdstr = some tok) :
    firstByte cmdstr ≠ Char.ofNat 0 := by
  intro h0
  cases cmdstr with
  | nil => simp [firstToken, cstr, scanToken, skipSpace] at h
  | cons c cs =>
    simp only [firstByte, List.headD_cons] at h0
    subst h0
    simp [firstToken, cstr, scanToken, skipSpace] at h

theorem firstByte_line_ne_newline {line tok : List Char} (hnl : '\n' ∉ line)
    (h : firstToken (line ++ ['\n']) = some tok) : firstByte (line ++ ['\n']) ≠ '\n' := by
  cases line with
  | nil =>
    have hn : firstToken ([] ++ ['\n']) = none := by decide
    rw [hn] at h
    cases h
  | cons c cs =>
    intro h0
    simp only [List.cons_append, firstByte, List.headD_cons] at h0
    exact hnl (by simp [h0])

theorem sscanf_s_of_token {cmdstr tok : List Char} (o : List Char)
    (h : firstToken cmdstr = some tok) : sscanf_s cmdstr o = tok := by
  unfold firstToken at h
  unfold sscanf_s
  cases hs : scanToken (cstr cmdstr) with
  | none => rw [hs] at h; cases h
  | some p =>
    rw [hs] at h
    simpa using h

theorem paraBody_statement {cmdstr tok : List Char} (st : State)
    (h1 : firstByte cmdstr ≠ '#') (h2 : firstByte cmdstr ≠ '\n')
    (htok : firstToken cmdstr = some tok) (h3 : firstByte tok ≠ '#') :
    paraBody cmdstr st = paraKeyword cmdstr { st with optstr := tok } := by
  have h0 := firstByte_ne_nul_of_token htok
  unfold paraBody
  rw [if_pos (by simp [h0, h1, h2])]
  simp only [sscanf_s_of_token st.optstr htok]
  rw [if_neg h3]

theorem calibBody_statement (F : Bool) {cmdstr tok : List Char} (st : State)
    (h1 : firstByte cmdstr ≠ '#') (h2 : firstByte cmdstr ≠ '\n')
    (htok : firstToken cmdstr = some tok) (h3 : firstByte tok ≠ '#') :
    calibBody F cmdstr st = calibKeyword F cmdstr { st with optstr := tok } := by
  have h0 := firstByte_ne_nul_of_token htok
  unfold calibBody
  rw [if_pos (by simp [h0, h1, h2])]
  simp only [sscanf_s_of_token st.optstr htok]
  rw [if_neg h3]

theorem paraBody_outcome (cmdstr : List Char) (st : State) :
    (∃ st', paraBody cmdstr st = .ok st') ∨
      ∃ t, paraBody cmdstr st = .exit 1 (.unrecognized t) := by
  unfold paraBody
  by_cases hc : (firstByte cmdstr != '#' && firstByte cmdstr != '\n' &&
      firstByte cmdstr != Char.ofNat 0) = true
  · rw [if_pos hc]
    dsimp only
    by_cases h3 : firstByte (sscanf_s cmdstr st.optstr) = '#'
    · rw [if_pos h3]
      exact Or.inl ⟨_, rfl⟩
    · rw [if_neg h3]
      rcases paraKeyword_spec cmdstr _ _ rfl with ⟨-, st', h⟩ | ⟨-, h⟩
      · exact Or.inl ⟨st', h⟩
      · exact Or.inr ⟨_, h⟩
  · rw [if_neg hc]
    exact Or.inl ⟨_, rfl⟩

theorem calibBody_outcome (F : Bool) {cmdstr : List Char} (hp : calibPlain cmdstr = true)
    (st : State) :
    (∃ st', calibBody F cmdstr st = .ok st') ∨
      ∃ t, calibBody F cmdstr st = .exit 1 (.unrecognized t) := by
  by_cases hskip : firstByte cmdstr = '#' ∨ firstByte cmdstr = '\n' ∨
      firstByte cmdstr = Char.ofNat 0
  · left
    unfold calibBody
    rw [if_neg]
    · exact ⟨_, rfl⟩
    · rcases hskip with h | h | h <;> simp [h]
  · simp only [not_or] at hskip
    obtain ⟨h1, h2, h0⟩ := hskip
    unfold calibPlain at hp
    cases ht : firstToken cmdstr with
    | none => simp [ht, h1, h2, h0] at hp
    | some tok =>
      have h3 : firstByte tok ≠ '#' := by simpa [ht, h1, h2, h0] using hp
      rw [calibBody_statement F st h1 h2 ht h3]
      rcases calibKeyword_spec F cmdstr _ _ rfl with ⟨-, st', h⟩ | ⟨-, h⟩
      · exact Or.inl ⟨st', h⟩
      · exact Or.inr ⟨_, h⟩

theorem paraLoop_bad (pre post : List (List Char)) (cmdstr : List Char)
    (hbad : ∀ st, ∃ t, paraBody cmdstr st = .exit 1 (.unrecognized t)) :
    ∀ st, ∃ t, paraLoop (pre ++ cmdstr :: post) st = .exit 1 (.unrecognized t) := by
  induction pre with
  | nil =>
    intro st
    obtain ⟨t, ht⟩ := hbad st
    exact ⟨t, by rw [List.nil_append, paraLoop, ht]; rfl⟩
  | cons l rest ih =>
    intro st
    rw [List.cons_append, paraLoop]
    rcases paraBody_outcome l st with ⟨st', h⟩ | ⟨t, h⟩
    · rw [h]
      exact ih st'
    · exact ⟨t, by rw [h]; rfl⟩

theorem calibLoop_bad (F : Bool) (pre post : List (List Char)) (cmdstr : List Char)
    (hpre : ∀ l ∈ pre, calibPlain l = true)
    (hbad : ∀ st, ∃ t, calibBody F cmdstr st = .exit 1 (.unrecognized t)) :
    ∀ st, ∃ t, calibLoop F (pre ++ cmdstr :: post) st = .exit 1 (.unrecognized t) := by
  induction pre with
  | nil =>
    intro st
    obtain ⟨t, ht⟩ := hbad st
    exact ⟨t, by rw [List.nil_append, calibLoop, ht]; rfl⟩
  | cons l rest ih =>
    intro st
    rw [List.cons_append, calibLoop]
    rcases calibBody_outcome F (hpre l (List.mem_cons_self _ _)) st with ⟨st', h⟩ | ⟨t, h⟩
    · rw [h]
      exact ih (fun l' hl' => hpre l' (List.mem_cons_of_mem _ hl')) st'
    · exact ⟨t, by rw [h]; rfl⟩

theorem firstByte_line {line : List Char} (h : firstByte line ≠ '#') :
    firstByte (line ++ ['\n']) ≠ '#' := by
  cases line with
  | nil => decide
  | cons c cs => simpa [firstByte] using h

theorem strcasecmp_of_lower {key : String} {tok : List Char}
    (h : tok.map Char.toLower = key.toList.map Char.toLower) : strcasecmp key tok = true := by
  unfold strcasecmp
  rw [h]
  simp

theorem calibKeyword_head (F : Bool) :
    ∀ key ∈ calibKeywords F, (key.toList.map Char.toLower).head? ≠ some '#' := by
  cases F <;> decide

theorem firstByte_of_lower {key : String} {tok : List Char}
    (h : tok.map Char.toLower = key.toList.map Char.toLower)
    (hk : (key.toList.map Char.toLower).head? ≠ some '#') : firstByte tok ≠ '#' := by
  intro h0
  cases tok with
  | nil => revert h0; decide
  | cons c cs =>
    simp only [firstByte, List.headD_cons] at h0
    subst h0
    rw [← h] at hk
    exact hk rfl

theorem ExitsOne.bind {α β : Type} {x : Outcome α} {f : α → Outcome β} (hx : ExitsOne x)
    (hf : ∀ v, ExitsOne (f v)) : ExitsOne (x.bind f) := by
  intro c m h
  rcases Outcome.bind_eq_exit.1 h with h1 | ⟨v, -, h2⟩
  · exact hx c m h1
  · exact hf v c m h2

theorem ExitsOne.ok {α : Type} (v : α) : ExitsOne (Outcome.ok v) := by
  intro c m h
  cases h

theorem ExitsOne.undefined {α : Type} : ExitsOne (Outcome.undefined : Outcome α) := by
  intro c m h
  cases h

theorem ExitsOne.exit_one {α : Type} (m : Fatal) : ExitsOne (Outcome.exit 1 m : Outcome α) := by
  intro c m' h
  injection h with h1 h2
  exact h1.symm

theorem ExitsOne.ofOption {α : Type} (o : Option α) : ExitsOne (Outcome.ofOption o) := by
  cases o
  · exact ExitsOne.undefined
  · exact ExitsOne.ok _

theorem openInput_exitsOne (fopen : List Char → Option (List Char)) (path : List Char)
    (ext : String) : ExitsOne (openInput fopen path ext) := by
  unfold openInput
  cases fopen path
  · exact ExitsOne.exit_one _
  · exact ExitsOne.ok _

theorem paraLoop_exitsOne (lines : List (List Char)) : ∀ st, ExitsOne (paraLoop lines st) := by
  induction lines with
  | nil => exact fun st => ExitsOne.ok _
  | cons l rest ih =>
    intro st
    rw [paraLoop]
    refine ExitsOne.bind ?_ ih
    rcases paraBody_outcome l st with ⟨st', h⟩ | ⟨t, h⟩
    · rw [h]; exact ExitsOne.ok _
    · rw [h]; exact ExitsOne.exit_one _

theorem schedule_exitsOne (cs : Control_Data) : ExitsOne (schedule cs) := by
  intro c m h
  unfold schedule at h
  split at h
  · cases h
  · dsimp only at h
    split_ifs at h

theorem paraChecks_exitsOne (cs : Control_Data) : ExitsOne (paraChecks cs) := by
  intro c m h
  unfold paraChecks at h
  split_ifs at h <;> (injection h with h1 h2; exact h1.symm)

theorem readPara_exitsOne (content : List Char) (st : State) :
    ExitsOne (readPara content st) := by
  unfold readPara
  refine ExitsOne.bind (paraLoop_exitsOne _ _) fun st1 => ?_
  refine ExitsOne.bind (schedule_exitsOne _) fun cs1 => ?_
  exact ExitsOne.bind (paraChecks_exitsOne _) fun cs2 => ExitsOne.ok _

theorem calibBody_exitsOne (F : Bool) (cmdstr : List Char) (st : State) :
    ExitsOne (calibBody F cmdstr st) := by
  unfold calibBody
  by_cases hc : (firstByte cmdstr != '#' && firstByte cmdstr != '\n' &&
      firstByte cmdstr != Char.ofNat 0) = true
  · rw [if_pos hc]
    dsimp only
    by_cases h3 : firstByte (sscanf_s cmdstr st.optstr) = '#'
    · rw [if_pos h3]
      exact ExitsOne.undefined
    · rw [if_neg h3]
      rcases calibKeyword_spec F cmdstr _ _ rfl with ⟨-, st', h⟩ | ⟨-, h⟩
      · rw [h]; exact ExitsOne.ok _
      · rw [h]; exact ExitsOne.exit_one _
  · rw [if_neg hc]
    exact ExitsOne.ok _

theorem readCalib_exitsOne (F : Bool) (content : List Char) (st : State) :
    ExitsOne (readCalib F content st) := by
  unfold readCalib
  generalize calibDefaults F st = s
  induction fgetsLines content generalizing s with
  | nil => exact ExitsOne.ok _
  | cons l rest ih =>
    rw [calibLoop]
    exact ExitsOne.bind (calibBody_exitsOne F l s) ih

theorem tsPass1Body_exitsOne (key : String) (mk : Nat → CountPtr) (n : Int)
    (cmdstr : List Char) (st : State) : ExitsOne (tsPass1Body key mk n cmdstr st) := by
  intro c m h
  unfold tsPass1Body at h
  dsimp only at h
  split_ifs at h
  all_goals
    first
    | cases h
    | (split at h <;> first
        | cases h
        | (split_ifs at h)
        | (split at h <;> cases h))

theorem tsPass1_exitsOne (key : String) (mk : Nat → CountPtr) (n : Int)
    (lines : List (List Char)) : ∀ st, ExitsOne (tsPass1 key mk n lines st) := by
  induction lines with
  | nil => exact fun st => ExitsOne.ok _
  | cons l rest ih =>
    intro st
    rw [tsPass1]
    exact ExitsOne.bind (tsPass1Body_exitsOne key mk n l st) ih

theorem checkCount_exitsOne (n : Int) (st : State) : ExitsOne (checkCount n st) := by
  unfold checkCount
  cases st.ind with
  | none => exact ExitsOne.undefined
  | some i =>
    dsimp only
    split_ifs
    · exact ExitsOne.exit_one _
    · exact ExitsOne.ok _

theorem readForc_exitsOne (L : Loaders) (content : List Char) (st : State) :
    ExitsOne (readForc L content st) := by
  unfold readForc
  cases fscanf_d content (some st.DS.NumTS) with
  | none => exact ExitsOne.undefined
  | some n =>
    dsimp only
    refine ExitsOne.bind (tsPass1_exitsOne _ _ _ _ _) fun s1 => ?_
    exact ExitsOne.bind (checkCount_exitsOne _ _) fun s2 => ExitsOne.ofOption _

theorem readLai_exitsOne (L : Loaders) (content : List Char) (st : State) :
    ExitsOne (readLai L content st) := by
  unfold readLai
  cases fscanf_d content none with
  | none => exact ExitsOne.undefined
  | some n =>
    dsimp only
    refine ExitsOne.bind (tsPass1_exitsOne _ _ _ _ _) fun s1 => ?_
    exact ExitsOne.bind (checkCount_exitsOne _ _) fun s2 => ExitsOne.ofOption _

theorem read_alloc_exitsOne (F : Bool) (L : Loaders) (fopen : List Char → Option (List Char))
    (filename : List Char) (st : State) : ExitsOne (read_alloc F L fopen filename st) := by
  unfold read_alloc
  cases projectName filename with
  | none => exact ExitsOne.undefined
  | some p =>
    obtain ⟨projectname, e⟩ := p
    dsimp only
    refine ExitsOne.bind (openInput_exitsOne _ _ _) fun _ => ?_
    refine ExitsOne.bind (ExitsOne.ofOption _) fun _ => ?_
    refine ExitsOne.bind (openInput_exitsOne _ _ _) fun _ => ?_
    refine ExitsOne.bind (ExitsOne.ofOption _) fun _ => ?_
    refine ExitsOne.bind (openInput_exitsOne _ _ _) fun _ => ?_
    refine ExitsOne.bind (ExitsOne.ofOption _) fun _ => ?_
    refine ExitsOne.bind (openInput_exitsOne _ _ _) fun _ => ?_
    refine ExitsOne.bind (ExitsOne.ofOption _) fun _ => ?_
    refine ExitsOne.bind (openInput_exitsOne _ _ _) fun _ => ?_
    refine ExitsOne.bind (ExitsOne.ofOption _) fun _ => ?_
    refine ExitsOne.bind (openInput_exitsOne _ _ _) fun _ => ?_
    refine ExitsOne.bind (ExitsOne.ofOption _) fun _ => ?_
    refine ExitsOne.bind (openInput_exitsOne _ _ _) fun _ => ?_
    refine ExitsOne.bind (readForc_exitsOne _ _ _) fun s => ?_
    refine ExitsOne.bind ?_ fun _ => ?_
    · split_ifs
      · exact ExitsOne.bind (openInput_exitsOne _ _ _) fun _ => readLai_exitsOne _ _ _
      · exact ExitsOne.ok _
    refine ExitsOne.bind (openInput_exitsOne _ _ _) fun _ => ?_
    refine ExitsOne.bind (ExitsOne.ofOption _) fun _ => ?_
    refine ExitsOne.bind (openInput_exitsOne _ _ _) fun _ => ?_
    refine ExitsOne.bind (readPara_exitsOne _ _) fun _ => ?_
    refine ExitsOne.bind (openInput_exitsOne _ _ _) fun _ => ?_
    exact readCalib_exitsOne _ _ _

theorem Outcome.of_map_eq_exit {α β : Type} {f : α → β} {x : Outcome α} {c : Int} {m : Fatal}
    (h : Outcome.map f x = .exit c m) : x = .exit c m := by
  cases x with
  | ok r => simp [Outcome.map] at h
  | exit c' m' => simpa [Outcome.map] using h
  | undefined => simp [Outcome.map] at h

theorem ToutAt_eq_unclampedSum (a b S : ℚ) (n : Nat) : ToutAt a b S n = unclampedSum a b S n := by
  induction n with
  | zero => simp [ToutAt, unclampedSum]
  | succ k ih =>
    rw [ToutAt, ih, unclampedSum, unclampedSum, List.range_succ, List.map_append, List.sum_append]
    simp
    ring

theorem ToutAt_closed (a b S : ℚ) (ha : a ≠ 1) (n : Nat) :
    ToutAt a b S n = S + a * b * (1 - a ^ n) / (1 - a) := by
  have h1 : (1 - a) ≠ 0 := sub_ne_zero.2 (Ne.symm ha)
  induction n with
  | zero => simp [ToutAt]
  | succ k ih =>
    rw [ToutAt, ih]
    field_simp
    ring

theorem ToutAt_lt_succ {a b : ℚ} (S : ℚ) (ha : 0 < a) (hb : 0 < b) (i : Nat) :
    ToutAt a b S i < ToutAt a b S (i + 1) := by
  rw [ToutAt]
  have : 0 < a ^ (i + 1) * b := mul_pos (pow_pos ha _) hb
  linarith

theorem digitChar_spec (d : Nat) (h : d < 10) :
    isdigit (digitChar d) = true ∧ (digitChar d).toNat - '0'.toNat = d ∧
      isspace (digitChar d) = false ∧ digitChar d ≠ '-' ∧ digitChar d ≠ '+' := by
  interval_cases d <;> decide

theorem digitsVal_foldl (cs : List Char) (a : Nat) :
    cs.foldl (fun acc c => 10 * acc + (c.toNat - '0'.toNat)) a =
      a * 10 ^ cs.length + digitsVal cs := by
  induction cs generalizing a with
  | nil => simp [digitsVal]
  | cons c cs ih =>
    have e : digitsVal (c :: cs) = (c.toNat - '0'.toNat) * 10 ^ cs.length + digitsVal cs := by
      unfold digitsVal
      rw [List.foldl_cons, ih]
      simp [digitsVal]
    rw [List.foldl_cons, ih, e]
    simp only [List.length_cons, pow_succ]
    ring

theorem digitsVal_cons (c : Char) (cs : List Char) :
    digitsVal (c :: cs) = (c.toNat - '0'.toNat) * 10 ^ cs.length + digitsVal cs := by
  rw [digitsVal, List.foldl_cons, digitsVal_foldl]
  simp

theorem showNatAux_spec : ∀ (fuel n : Nat) (acc : List Char), n < fuel →
    (∀ c ∈ acc, isdigit c = true) →
    digitsVal (showNatAux fuel n acc) = n * 10 ^ acc.length + digitsVal acc ∧
      (∀ c ∈ showNatAux fuel n acc, isdigit c = true) ∧
      ∃ d r, showNatAux fuel n acc = digitChar d :: r ∧ d < 10 := by
  intro fuel
  induction fuel with
  | zero => intro n acc h; omega
  | succ k ih =>
    intro n acc hn hacc
    unfold showNatAux
    split_ifs with h10
    · obtain ⟨h1, h2, -⟩ := digitChar_spec n h10
      refine ⟨?_, ?_, n, acc, rfl, h10⟩
      · rw [digitsVal_cons, h2]
      · intro c hc
        rcases List.mem_cons.1 hc with rfl | hc
        · exact h1
        · exact hacc c hc
    · have hmod : n % 10 < 10 := Nat.mod_lt _ (by norm_num)
      obtain ⟨h1, h2, -⟩ := digitChar_spec (n % 10) hmod
      have hacc' : ∀ c ∈ digitChar (n % 10) :: acc, isdigit c = true := by
        intro c hc
        rcases List.mem_cons.1 hc with rfl | hc
        · exact h1
        · exact hacc c hc
      obtain ⟨e1, e2, e3⟩ := ih (n / 10) (digitChar (n % 10) :: acc) (by omega) hacc'
      refine ⟨?_, e2, e3⟩
      rw [e1, digitsVal_cons, h2, List.length_cons, pow_succ]
      have hdm := Nat.div_add_mod n 10
      generalize n / 10 = q at hdm ⊢
      generalize n % 10 = m at hdm ⊢
      rw [← hdm]
      ring

theorem showNat_spec (n : Nat) :
    digitsVal (showNat n) = n ∧ (∀ c ∈ showNat n, isdigit c = true) ∧
      ∃ d r, showNat n = digitChar d :: r ∧ d < 10 := by
  have := showNatAux_spec (n + 1) n [] (by omega) (by simp)
  simpa [showNat, digitsVal] using this

theorem isdigit_not_isspace {c : Char} (h : isspace c = true) : isdigit c = false := by
  simp only [isspace, Bool.or_eq_true, decide_eq_true_eq] at h
  rcases h with ((((h | h) | h) | h) | h) | h <;> subst h <;> decide

theorem takeWhile_append_stop {p : Char → Bool} (l r : List Char) (hl : ∀ c ∈ l, p c = true)
    (hr : r = [] ∨ ∃ c t, r = c :: t ∧ p c = false) :
    (l ++ r).takeWhile p = l ∧ (l ++ r).dropWhile p = r := by
  induction l with
  | nil =>
    rcases hr with rfl | ⟨c, t, rfl, hc⟩
    · simp
    · simp [List.takeWhile_cons, List.dropWhile_cons, hc]
  | cons a l ih =>
    have ha := hl a (List.mem_cons_self _ _)
    obtain ⟨i1, i2⟩ := ih (fun c hc => hl c (List.mem_cons_of_mem _ hc))
    simp [List.takeWhile_cons, List.dropWhile_cons, ha, i1, i2]

theorem skipSpace_append (pre x : List Char) (hpre : ∀ c ∈ pre, isspace c = true)
    (hx : x = [] ∨ ∃ c t, x = c :: t ∧ isspace c = false) : skipSpace (pre ++ x) = x :=
  (takeWhile_append_stop pre x hpre hx).2

theorem scanSign_plain (c : Char) (t : List Char) (h1 : c ≠ '-') (h2 : c ≠ '+') :
    scanSign (c :: t) = (false, c :: t) := by
  unfold scanSign
  split
  · rename_i heq; cases heq; exact absurd rfl h1
  · rename_i heq; cases heq; exact absurd rfl h2
  · rfl

theorem atGap_stop_digit {s : List Char} (h : atGap s) :
    s = [] ∨ ∃ c t, s = c :: t ∧ isdigit c = false := by
  rcases h with rfl | ⟨c, r, rfl, hc⟩
  · exact Or.inl rfl
  · exact Or.inr ⟨c, r, rfl, isdigit_not_isspace hc⟩

theorem scanInt_showNat (n : Nat) (rest : List Char) (hrest : atGap rest) :
    (showNat n ++ rest).takeWhile isdigit = showNat n ∧
      (showNat n ++ rest).dropWhile isdigit = rest ∧ (showNat n).isEmpty = false := by
  obtain ⟨-, h2, d, r, h3, -⟩ := showNat_spec n
  obtain ⟨e1, e2⟩ := takeWhile_append_stop (showNat n) rest h2 (atGap_stop_digit hrest)
  exact ⟨e1, e2, by rw [h3]; rfl⟩

/-- Conversion `%d` reads back a decimal numeral that is followed by white space
or by the end of the input. -/
theorem scanInt_showInt (z : Int) (pre rest : List Char) (hpre : ∀ c ∈ pre, isspace c = true)
    (hrest : atGap rest) : scanInt (pre ++ (showInt z ++ rest)) = some (z, rest) := by
  cases z with
  | ofNat n =>
    obtain ⟨v, -, d, r, h3, hd⟩ := showNat_spec n
    obtain ⟨-, -, hsp, hm, hp⟩ := digitChar_spec d hd
    obtain ⟨e1, e2, e3⟩ := scanInt_showNat n rest hrest
    have hskip : skipSpace (pre ++ (showNat n ++ rest)) = showNat n ++ rest :=
      skipSpace_append pre _ hpre (Or.inr ⟨digitChar d, r ++ rest, by rw [h3]; rfl, hsp⟩)
    have hsign : scanSign (showNat n ++ rest) = (false, showNat n ++ rest) := by
      rw [h3]; exact scanSign_plain _ _ hm hp
    simp only [scanInt, showInt, hskip, hsign, e1, e2, e3, v]
    rfl
  | negSucc n =>
    obtain ⟨v, -, d, r, h3, hd⟩ := showNat_spec (n + 1)
    obtain ⟨e1, e2, e3⟩ := scanInt_showNat (n + 1) rest hrest
    have hskip : skipSpace (pre ++ ('-' :: showNat (n + 1) ++ rest)) =
        '-' :: showNat (n + 1) ++ rest :=
      skipSpace_append pre _ hpre (Or.inr ⟨'-', showNat (n + 1) ++ rest, rfl, by decide⟩)
    have hsign : scanSign ('-' :: showNat (n + 1) ++ rest) = (true, showNat (n + 1) ++ rest) := rfl
    simp only [scanInt, showInt, hskip, hsign, e1, e2, e3, v]
    simp [Int.negSucc_eq]

theorem atGap_cons_space (t : List Char) : atGap (' ' :: t) := Or.inr ⟨' ', t, rfl, by decide⟩

theorem atGap_cons_newline (t : List Char) : atGap ('\n' :: t) :=
  Or.inr ⟨'\n', t, rfl, by decide⟩

theorem atGap_intsText (zs : List Int) {rest : List Char} (h : atGap rest) :
    atGap (intsText zs ++ rest) := by
  cases zs with
  | nil => exact h
  | cons z zs => exact atGap_cons_space _

theorem atGap_rowsText (rs : List MeshRow) {rest : List Char} (h : atGap rest) :
    atGap (rowsText rs ++ rest) := by
  cases rs with
  | nil => exact h
  | cons r rs => exact atGap_cons_newline _

theorem atGap_titlesText (ws : List (List Char)) {rest : List Char} (h : atGap rest) :
    atGap (titlesText ws ++ rest) := by
  cases ws with
  | nil => exact h
  | cons w ws => exact atGap_cons_space _

theorem fscanf_ints_intsText : ∀ (zs olds : List Int) (rest : List Char),
    olds.length = zs.length → atGap rest → fscanf_ints olds (intsText zs ++ rest) = (zs, rest) := by
  intro zs
  induction zs with
  | nil =>
    intro olds rest hlen _
    cases olds with
    | nil => rfl
    | cons o os => simp at hlen
  | cons z zs ih =>
    intro olds rest hlen hrest
    cases olds with
    | nil => simp at hlen
    | cons o os =>
      have hs : scanInt (intsText (z :: zs) ++ rest) = some (z, intsText zs ++ rest) := by
        have := scanInt_showInt z [' '] (intsText zs ++ rest) (by decide)
          (atGap_intsText zs hrest)
        simpa [intsText] using this
      rw [fscanf_ints, hs]
      simp only [ih os rest (by simpa using hlen) hrest]

theorem readEleRow_rowText (e : element) (r : MeshRow) (rest : List Char) (hrest : atGap rest) :
    readEleRow e (rowText r ++ rest) = (rowElement e r, rest) := by
  have h1 : fscanf_ints [e.index] (rowText r ++ rest) =
      ([r.index], intsText [r.node.1, r.node.2.1, r.node.2.2] ++
        (intsText [r.nabr.1, r.nabr.2.1, r.nabr.2.2] ++ rest)) := by
    have := scanInt_showInt r.index ['\n']
      (intsText [r.node.1, r.node.2.1, r.node.2.2] ++
        (intsText [r.nabr.1, r.nabr.2.1, r.nabr.2.2] ++ rest)) (by decide)
      (atGap_intsText _ (atGap_intsText _ hrest))
    have hs : scanInt (rowText r ++ rest) = some (r.index,
        intsText [r.node.1, r.node.2.1, r.node.2.2] ++
          (intsText [r.nabr.1, r.nabr.2.1, r.nabr.2.2] ++ rest)) := by
      simpa [rowText, intsText] using this
    simp only [fscanf_ints, hs]
  have h2 := fscanf_ints_intsText [r.node.1, r.node.2.1, r.node.2.2]
    [e.node.getD 0 0, e.node.getD 1 0, e.node.getD 2 0]
    (intsText [r.nabr.1, r.nabr.2.1, r.nabr.2.2] ++ rest) rfl (atGap_intsText _ hrest)
  have h3 := fscanf_ints_intsText [r.nabr.1, r.nabr.2.1, r.nabr.2.2]
    [e.nabr.getD 0 0, e.nabr.getD 1 0, e.nabr.getD 2 0] rest rfl hrest
  simp only [readEleRow, h1, h2, h3]
  rfl

theorem readRows_rowsText (junk : element) (tail : List element) :
    ∀ (rows : List MeshRow) (rest : List Char), atGap rest →
      readRows readEleRow rows.length (List.replicate rows.length junk ++ tail)
        (rowsText rows ++ rest) = some (rows.map (rowElement junk) ++ tail, rest) := by
  intro rows
  induction rows with
  | nil => intro rest _; rfl
  | cons r rs ih =>
    intro rest hrest
    have hrow : readEleRow junk (rowsText (r :: rs) ++ rest) =
        (rowElement junk r, rowsText rs ++ rest) := by
      have := readEleRow_rowText junk r (rowsText rs ++ rest) (atGap_rowsText rs hrest)
      simpa [rowsText] using this
    have ih' := ih rest hrest
    simp only [List.length_cons, List.replicate_succ, List.cons_append, readRows, hrow,
      List.map_cons]
    rw [show (List.replicate rs.length junk).append tail = List.replicate rs.length junk ++ tail
      from rfl, ih']

theorem fscanf_skip_title (w x : List Char) (hw : isTitle w = true) (hx : atGap x) :
    fscanf_skip (' ' :: (w ++ x)) = x := by
  simp only [isTitle, Bool.and_eq_true, Bool.not_eq_true', List.all_eq_true] at hw
  obtain ⟨hne, hall⟩ := hw
  obtain ⟨c, t, rfl⟩ : ∃ c t, w = c :: t := by
    cases w with
    | nil => simp at hne
    | cons c t => exact ⟨c, t, rfl⟩
  have hc : isspace c = false := by simpa using hall c (List.mem_cons_self _ _)
  have hskip : skipSpace (' ' :: (c :: t ++ x)) = c :: t ++ x :=
    skipSpace_append [' '] _ (by decide) (Or.inr ⟨c, t ++ x, rfl, hc⟩)
  have hx' : x = [] ∨ ∃ d u, x = d :: u ∧ (fun c => !isspace c) d = false := by
    rcases hx with rfl | ⟨d, u, rfl, hd⟩
    · exact Or.inl rfl
    · exact Or.inr ⟨d, u, rfl, by simp [hd]⟩
  obtain ⟨e1, e2⟩ := takeWhile_append_stop (c :: t) x
    (fun d hd => by simp [hall d hd]) hx'
  simp only [fscanf_skip, scanToken, hskip, e1, e2]
  rfl

theorem fscanf_skip_titles : ∀ (ws : List (List Char)) (x : List Char),
    ws.all isTitle = true → atGap x → fscanf_skip^[ws.length] (titlesText ws ++ x) = x := by
  intro ws
  induction ws with
  | nil => intro x _ _; rfl
  | cons w ws ih =>
    intro x hws hx
    simp only [List.all_cons, Bool.and_eq_true] at hws
    have h1 : fscanf_skip (titlesText (w :: ws) ++ x) = titlesText ws ++ x := by
      have := fscanf_skip_title w (titlesText ws ++ x) hws.1 (atGap_titlesText ws hx)
      simpa [titlesText] using this
    rw [List.length_cons, Function.iterate_succ_apply, h1]
    exact ih x hws.2 hx

/-- The element table of a .mesh file is stored as it is written. -/
theorem readMesh_meshText (junk : element) (NumRiv : Int) (titles : List (List Char))
    (rows : List MeshRow) (rest : List Char) (ds : Model_Data) (hlen : titles.length = 6)
    (htitles : titles.all isTitle = true) (hriv : 0 ≤ NumRiv) (hrest : atGap rest) :
    readMesh junk NumRiv (meshText titles rows ++ rest) ds =
      some ({ ds with NumEle := rows.length,
                      Ele := rows.map (rowElement junk) ++ List.replicate NumRiv.toNat junk },
            rest) := by
  have hcount : fscanf_count 6 ds.NumEle (meshText titles rows ++ rest) =
      ((rows.length : Int), rowsText rows ++ rest) := by
    have hs := scanInt_showInt (rows.length : Int) [] (titlesText titles ++ (rowsText rows ++ rest))
      (by simp) (atGap_titlesText titles (atGap_rowsText rows hrest))
    have hs' : scanInt (meshText titles rows ++ rest) =
        some ((rows.length : Int), titlesText titles ++ (rowsText rows ++ rest)) := by
      simpa [meshText] using hs
    have hk := fscanf_skip_titles titles (rowsText rows ++ rest) htitles (atGap_rowsText rows hrest)
    rw [hlen] at hk
    simp only [fscanf_count, hs', hk]
  have hblock : List.replicate ((rows.length : Int) + NumRiv).toNat junk =
      List.replicate rows.length junk ++ List.replicate NumRiv.toNat junk := by
    have : ((rows.length : Int) + NumRiv).toNat = rows.length + NumRiv.toNat := by omega
    rw [this, List.replicate_add]
  simp only [readMesh, hcount, hblock, Int.toNat_ofNat,
    readRows_rowsText junk (List.replicate NumRiv.toNat junk) rows rest hrest]

theorem scanBody_length {j : Nat} {st st' : SeriesState} (h : scanBody j st = some st') :
    st'.TS.length = st.TS.length := by
  unfold scanBody at h
  split at h
  · cases h
  · simp only [Option.some.injEq] at h
    subst h
    simp

theorem seriesLoop_scanBody_length : ∀ (n j : Nat) (st st' : SeriesState),
    seriesLoop scanBody n j st = some st' → st'.TS.length = st.TS.length := by
  intro n
  induction n with
  | zero =>
    intro j st st' h
    simp only [seriesLoop, Option.some.injEq] at h
    subst h
    rfl
  | succ n ih =>
    intro j st st' h
    unfold seriesLoop at h
    split at h
    · cases h
    · rename_i st1 h1
      rw [ih (j + 1) st1 st' h, scanBody_length h1]

theorem storeCell_outside (TS : List (List (Option ℚ))) (j k : Nat) (v : ℚ)
    (h : TS.length ≤ j) : storeCell TS j k v = none := by
  unfold storeCell
  rw [List.getElem?_eq_none h]

/-- The store of line 156 is outside of the rows of the series, whatever the
file holds. -/
theorem rivSeries_none (s : List Char) (t : Tm) : rivSeries s t = none := by
  unfold rivSeries
  split
  · rfl
  · rename_i name index length s0 _
    split
    · rfl
    · rename_i st hst
      have hlen := seriesLoop_scanBody_length _ _ _ _ hst
      have hout : storeCell st.TS length.toNat 0 (stampTime st.timeinfo).1 = none :=
        storeCell_outside _ _ _ _ (by simp [hlen, allocRows])
      rw [hout]

theorem sum_update_not_mem {F : Type} [DecidableEq F] (w s : F → ℚ) (a : F) (v : ℚ) :
    ∀ L : List F, a ∉ L →
      (L.map fun f => w f * Function.update s a v f).sum = (L.map fun f => w f * s f).sum := by
  intro L
  induction L with
  | nil => intro _; rfl
  | cons b L ih =>
    intro h
    have hb : b ≠ a := fun e => h (e ▸ List.mem_cons_self _ _)
    have hL : a ∉ L := fun e => h (List.mem_cons_of_mem _ e)
    simp only [List.map_cons, List.sum_cons, ih hL, Function.update_noteq hb]

theorem sum_update_mem {F : Type} [DecidableEq F] (w s : F → ℚ) (a : F) (v : ℚ) :
    ∀ L : List F, L.Nodup → a ∈ L →
      (L.map fun f => w f * Function.update s a v f).sum =
        (L.map fun f => w f * s f).sum + w a * (v - s a) := by
  intro L
  induction L with
  | nil => intro _ h; cases h
  | cons b L ih =>
    intro hnd h
    rw [List.nodup_cons] at hnd
    by_cases hb : b = a
    · subst hb
      simp only [List.map_cons, List.sum_cons, Function.update_same,
        sum_update_not_mem w s b v L hnd.1]
      ring
    · have hL : a ∈ L := by
        rcases List.mem_cons.1 h with e | e
        · exact absurd e.symm hb
        · exact e
      simp only [List.map_cons, List.sum_cons, ih hnd.2 hL, Function.update_noteq hb]
      ring

theorem balance_update {F : Type} [DecidableEq F] (fields : List F) (kind : F → FieldKind)
    (hnd : fields.Nodup) (s : F → ℚ) (a : F) (v : ℚ) (ha : a ∈ fields) :
    balance fields kind (Function.update s a v) =
      balance fields kind s + (kind a).sign * (v - s a) :=
  sum_update_mem (fun f => (kind f).sign) s a v fields hnd ha

theorem balance_applyFlux {F : Type} [DecidableEq F] (fields : List F) (kind : F → FieldKind)
    (hnd : fields.Nodup) (hall : ∀ f, f ∈ fields) (s : F → ℚ) (x : Flux F)
    (hx : x.wellFormed kind = true) :
    balance fields kind (applyFlux kind s x) = balance fields kind s := by
  simp only [Flux.wellFormed, Bool.and_eq_true, decide_eq_true_eq] at hx
  obtain ⟨⟨h1, h2⟩, h3⟩ := hx
  unfold applyFlux
  simp only
  rw [balance_update fields kind hnd _ _ _ (hall _), balance_update fields kind hnd _ _ _ (hall _),
    Function.update_noteq (Ne.symm h3)]
  have hd : (kind x.dst).sign = 1 := by
    cases hk : kind x.dst
    · rfl
    · exact absurd hk h2
    · rfl
  rw [hd]
  cases hk : kind x.src
  · simp [FieldKind.sign]
  · simp [FieldKind.sign]
  · exact absurd hk h1

theorem balance_dailyUpdate {F : Type} [DecidableEq F] (fields : List F) (kind : F → FieldKind)
    (hnd : fields.Nodup) (hall : ∀ f, f ∈ fields) :
    ∀ (fluxes : List (Flux F)) (s : F → ℚ), fluxes.all (Flux.wellFormed kind) = true →
      balance fields kind (dailyUpdate kind fluxes s) = balance fields kind s := by
  intro fluxes
  induction fluxes with
  | nil => intro s _; rfl
  | cons x xs ih =>
    intro s h
    simp only [List.all_cons, Bool.and_eq_true] at h
    have := ih (applyFlux kind s x) h.2
    simp only [dailyUpdate, List.foldl_cons] at this ⊢
    rw [this, balance_applyFlux fields kind hnd hall s x h.1]

theorem cFields_nodup : cFields.Nodup := by decide

theorem nFields_nodup : nFields.Nodup := by decide

theorem mem_cFields (f : CField) : f ∈ cFields := by cases f <;> decide

theorem mem_nFields (f : NField) : f ∈ nFields := by cases f <;> decide

theorem reconcile_scarce (priority : Priority) (sminn plant_ndemand potential_immob : ℚ)
    (hs : 0 ≤ sminn) (hp : 0 ≤ plant_ndemand) (hi : 0 ≤ potential_immob)
    (hscarce : sminn < plant_ndemand + potential_immob) :
    ∃ immob uptake : ℚ, immob + uptake = sminn ∧ 0 ≤ immob ∧ immob ≤ potential_immob ∧
      0 ≤ uptake ∧ uptake ≤ plant_ndemand ∧
      (reconcile priority sminn plant_ndemand potential_immob).fpi =
        (if potential_immob = 0 then 1 else immob / potential_immob) ∧
      (reconcile priority sminn plant_ndemand potential_immob).downreg =
        (if plant_ndemand = 0 then 0 else 1 - uptake / plant_ndemand) := by
  have hpos : 0 < plant_ndemand + potential_immob := lt_of_le_of_lt hs hscarce
  have hne : plant_ndemand + potential_immob ≠ 0 := ne_of_gt hpos
  have hnot : ¬ plant_ndemand + potential_immob ≤ sminn := not_le.2 hscarce
  cases priority with
  | proportional =>
    refine ⟨sminn / (plant_ndemand + potential_immob) * potential_immob,
      sminn / (plant_ndemand + potential_immob) * plant_ndemand, ?_, ?_, ?_, ?_, ?_, ?_, ?_⟩
    · field_simp
      ring
    · positivity
    · have : sminn / (plant_ndemand + potential_immob) ≤ 1 :=
        (div_le_one hpos).2 (le_of_lt hscarce)
      exact mul_le_of_le_one_left hi this
    · positivity
    · have : sminn / (plant_ndemand + potential_immob) ≤ 1 :=
        (div_le_one hpos).2 (le_of_lt hscarce)
      exact mul_le_of_le_one_left hp this
    · simp only [reconcile, if_neg hnot]
    · simp only [reconcile, if_neg hnot]
  | immobilizationFirst =>
    refine ⟨min potential_immob sminn, sminn - min potential_immob sminn, by ring, le_min hi hs,
      min_le_left _ _, sub_nonneg.2 (min_le_right _ _), ?_, ?_, ?_⟩
    · rcases le_total potential_immob sminn with h | h
      · rw [min_eq_left h]; linarith
      · rw [min_eq_right h]; linarith
    · simp only [reconcile, if_neg hnot]
    · simp only [reconcile, if_neg hnot]
  | plantFirst =>
    refine ⟨sminn - min plant_ndemand sminn, min plant_ndemand sminn, by ring,
      sub_nonneg.2 (min_le_right _ _), ?_, le_min hp hs, min_le_left _ _, ?_, ?_⟩
    · rcases le_total plant_ndemand sminn with h | h
      · rw [min_eq_left h]; linarith
      · rw [min_eq_right h]; linarith
    · simp only [reconcile, if_neg hnot]
    · simp only [reconcile, if_neg hnot]

theorem dropWhile_head_stop {p : Char → Bool} (l : List Char) :
    l.dropWhile p = [] ∨ ∃ c r, l.dropWhile p = c :: r ∧ p c = false := by
  induction l with
  | nil => exact Or.inl rfl
  | cons a l ih =>
    by_cases ha : p a = true
    · rw [List.dropWhile_cons_of_pos ha]
      exact ih
    · rw [List.dropWhile_cons_of_neg ha]
      exact Or.inr ⟨a, l, rfl, by simpa using ha⟩

theorem strtokDot_spec (filename : List Char) (h : ∃ c ∈ filename, c ≠ '.') :
    ∃ name, strtokDot filename = some name ∧ IsFirstRun name filename := by
  have hsplit : filename =
      filename.takeWhile (fun c => c == '.') ++ filename.dropWhile (fun c => c == '.') :=
    (List.takeWhile_append_dropWhile _ _).symm
  have hdots : ∀ c ∈ filename.takeWhile (fun c => c == '.'), c = '.' := by
    intro c hc
    simpa using List.mem_takeWhile_imp hc
  rcases dropWhile_head_stop (p := fun c => c == '.') filename with ht | ⟨a, r, ht, ha⟩
  · exfalso
    obtain ⟨c, hc, hne⟩ := h
    rw [hsplit, ht, List.append_nil] at hc
    exact hne (hdots c hc)
  · have ha' : a ≠ '.' := by simpa using ha
    have hname : (a :: r).takeWhile (fun c => c != '.') =
        a :: r.takeWhile (fun c => c != '.') := by
      rw [List.takeWhile_cons_of_pos (by simpa using ha')]
    refine ⟨(a :: r).takeWhile (fun c => c != '.'), ?_, filename.takeWhile (fun c => c == '.'),
      (a :: r).dropWhile (fun c => c != '.'), ?_, hdots, ?_, ?_, ?_⟩
    · simp only [strtokDot, ht, List.isEmpty_cons, Bool.false_eq_true, if_false]
    · rw [List.append_assoc, List.takeWhile_append_dropWhile, ← ht]
      exact hsplit
    · rw [hname]
      exact List.cons_ne_nil _ _
    · intro hmem
      have := List.mem_takeWhile_imp hmem
      simp at this
    · rcases dropWhile_head_stop (p := fun c => c != '.') (a :: r) with h0 | ⟨c, r', h0, hc⟩
      · exact Or.inl h0
      · right
        have hc' : c = '.' := by simpa using hc
        exact ⟨r', by rw [h0, hc']⟩

theorem projectName_plain (name : List Char) (h : '.' ∉ name) :
    projectName name = some (name, false) := by
  unfold projectName
  rw [if_neg (by simpa using h)]

theorem read_alloc_projectName (F : Bool) (L : Loaders) (fopen : List Char → Option (List Char))
    (filename name : List Char) (mode : Bool) (st : State)
    (h : projectName filename = some (name, mode)) (hn : '.' ∉ name) :
    read_alloc F L fopen filename st = read_alloc F L fopen name st := by
  unfold read_alloc
  rw [h, projectName_plain name hn]

theorem fgetsAux_unterminated : ∀ (tail : List Char) (room : Nat) (acc : List Char),
    '\n' ∉ tail → tail.length < room → fgetsAux room acc tail = [] := by
  intro tail
  induction tail with
  | nil => intro room acc _ _; rfl
  | cons c cs ih =>
    intro room acc hnl hlen
    have hc : c ≠ '\n' := fun e => hnl (e ▸ List.mem_cons_self _ _)
    have hcs : '\n' ∉ cs := fun e => hnl (List.mem_cons_of_mem _ e)
    simp only [List.length_cons] at hlen
    rw [fgetsAux_cons, if_neg (by simp [hc]; omega)]
    exact ih (room - 1) (acc ++ [c]) hcs (by omega)

theorem fgetsLines_unterminated (pre tail : List Char)
    (hpre : pre = [] ∨ pre.getLast? = some '\n') (hnl : '\n' ∉ tail)
    (hlen : tail.length < MAXSTRING - 1) : fgetsLines (pre ++ tail) = fgetsLines pre := by
  have htail : fgetsLines tail = [] := fgetsAux_unterminated tail _ [] hnl hlen
  rcases hpre with rfl | hlast
  · rw [List.nil_append, htail]
    rfl
  · unfold fgetsLines
    rw [fgetsAux_append pre tail hlast, ← fgetsLines, htail, List.append_nil]

set_option maxHeartbeats 4000000 in
theorem calibKeyword_frame (F : Bool) {cmdstr o : List Char} {st st' : State} (f : CalField)
    (h : calibKeyword F cmdstr { st with optstr := sscanf_s cmdstr o } = .ok st')
    (habs : ∀ tok, firstToken cmdstr = some tok → strcasecmp f.keyword tok = false) :
    f.get st' = f.get st := by
  unfold calibKeyword at h
  iterate 30
    have h2 := ite_eq_cases h
    clear h
    rcases h2 with ⟨hk, h⟩ | ⟨-, h⟩
    · injection h with h
      subst h
      cases f <;> dsimp only [CalField.get]
      exact sscanf_lf_noToken _ (noToken_of_stale habs hk)
  iterate 7
    have h2 := ite_eq_cases h
    clear h
    rcases h2 with ⟨hk, h⟩ | ⟨-, h⟩
    · injection h with h
      subst h
      rw [Bool.and_eq_true] at hk
      cases f <;> dsimp only [CalField.get]
      exact sscanf_lf_noToken _ (noToken_of_stale habs hk.2)
  cases h

theorem calibBody_frame (F : Bool) {cmdstr : List Char} {st st' : State} (f : CalField)
    (h : calibBody F cmdstr st = .ok st')
    (habs : ∀ tok, firstToken cmdstr = some tok → strcasecmp f.keyword tok = false) :
    f.get st' = f.get st := by
  unfold calibBody at h
  rcases ite_eq_cases h with ⟨-, h1⟩ | ⟨-, h1⟩
  · rcases ite_eq_cases h1 with ⟨-, h2⟩ | ⟨-, h2⟩
    · cases h2
    · exact calibKeyword_frame F f h2 habs
  · injection h1 with h1
    subst h1
    rfl

theorem calibLoop_frame (F : Bool) (f : CalField) (lines : List (List Char)) :
    ∀ (st st' : State), calibLoop F lines st = .ok st' →
      (lines.all fun cmdstr =>
        match firstToken cmdstr with
        | some tok => !strcasecmp f.keyword tok
        | none => true) = true → f.get st' = f.get st := by
  induction lines with
  | nil =>
    intro st st' h _
    simp only [calibLoop, Outcome.ok.injEq] at h
    subst h
    rfl
  | cons l rest ih =>
    intro st st' h hall
    rw [calibLoop] at h
    obtain ⟨st1, h1, h2⟩ := Outcome.bind_eq_ok.1 h
    rw [List.all_cons, Bool.and_eq_true] at hall
    rw [ih st1 st' h2 hall.2, calibBody_frame F f h1 (absent_line hall.1)]

theorem calibDefaults_get (F : Bool) (st : State) (f : CalField) (hf : f.inBuild F = true) :
    f.get (calibDefaults F st) = 1 := by
  cases F <;> cases f <;> first | rfl | cases hf

theorem seriesBlock_length (series : List Char → Tm → Option (TSD × Tm × List Char)) :
    ∀ (n : Nat) (s : List Char) (t : Tm) (ds : List TSD) (t' : Tm) (s' : List Char),
      seriesBlock series n s t = some (ds, t', s') → ds.length = n := by
  intro n
  induction n with
  | zero =>
    intro s t ds t' s' h
    simp only [seriesBlock, Option.some.injEq, Prod.mk.injEq] at h
    rw [← h.1]
    rfl
  | succ n ih =>
    intro s t ds t' s' h
    unfold seriesBlock at h
    split at h
    · cases h
    · rename_i d t1 s1 _
      split at h
      · cases h
      · rename_i ds1 t2 s2 h2
        simp only [Option.some.injEq, Prod.mk.injEq] at h
        rw [← h.1, List.length_cons, ih s1 t1 ds1 t2 s2 h2]

theorem take_succ_set {α : Type} (x : α) :
    ∀ (l : List α) (k : Nat), k < l.length → (l.set k x).take (k + 1) = l.take k ++ [x] := by
  intro l
  induction l with
  | nil => intro k h; simp at h
  | cons a l ih =>
    intro k h
    cases k with
    | zero => simp
    | succ k =>
      simp only [List.length_cons, Nat.succ_lt_succ_iff] at h
      simp [List.set_cons_succ, List.take_succ_cons, ih k h]

theorem drop_set_of_lt {α : Type} (x : α) :
    ∀ (l : List α) (k m : Nat), k < m → (l.set k x).drop m = l.drop m := by
  intro l
  induction l with
  | nil => intro k m _; simp
  | cons a l ih =>
    intro k m h
    cases m with
    | zero => omega
    | succ m =>
      cases k with
      | zero => simp
      | succ k => simp [List.set_cons_succ, ih k m (by omega)]

theorem eleBCLoop_of_seriesBlock :
    ∀ (n k : Nat) (blk : List (Option TSD)) (s : List Char) (t : Tm) (ds : List TSD) (t' : Tm)
      (s' : List Char), seriesBlock eleBCSeries n s t = some (ds, t', s') →
      k + n ≤ blk.length →
      eleBCLoop n (k : Int) blk s t =
        some (blk.take k ++ ds.map some ++ blk.drop (k + n), t', s') := by
  intro n
  induction n with
  | zero =>
    intro k blk s t ds t' s' h _
    simp only [seriesBlock, Option.some.injEq, Prod.mk.injEq] at h
    obtain ⟨rfl, rfl, rfl⟩ := h
    simp [eleBCLoop]
  | succ n ih =>
    intro k blk s t ds t' s' h hk
    unfold seriesBlock at h
    split at h
    · cases h
    · rename_i d t1 s1 hd
      split at h
      · cases h
      · rename_i ds1 t2 s2 h2
        simp only [Option.some.injEq, Prod.mk.injEq] at h
        obtain ⟨rfl, rfl, rfl⟩ := h
        have hin : (0 : Int) ≤ (k : Int) ∧ (k : Int) < (blk.length : Int) := by
          constructor <;> omega
        unfold eleBCLoop
        rw [if_pos hin, hd]
        simp only [Int.toNat_ofNat]
        have hrec := ih (k + 1) (blk.set k (some d)) s1 t1 ds1 t2 s2 h2
          (by rw [List.length_set]; omega)
        rw [show ((k : Int) + 1) = ((k + 1 : Nat) : Int) by push_cast; rfl, hrec]
        have hk' : k < blk.length := by omega
        rw [take_succ_set (some d) blk k hk', drop_set_of_lt (some d) blk k (k + 1 + n) (by omega),
          show k + 1 + n = k + (n + 1) by omega]
        simp

theorem getLength_setLength_same (i : Nat) (v : Int) (ds : Model_Data)
    (h : i < ds.TSD_meteo_length.length) :
    getLength (.meteo i) (setLength (.meteo i) v ds) = some v := by
  simp [getLength, setLength, List.getElem?_set_self h]

theorem getLength_setLength_ne (i k : Nat) (v : Int) (ds : Model_Data) (h : i ≠ k) :
    getLength (.meteo k) (setLength (.meteo i) v ds) = getLength (.meteo k) ds := by
  simp [getLength, setLength, List.getElem?_set_ne h]

theorem length_setLength (p : CountPtr) (v : Int) (ds : Model_Data) :
    (setLength p v ds).TSD_meteo_length.length = ds.TSD_meteo_length.length := by
  cases p <;> simp [setLength]

theorem getLength_lai_frame (j k : Nat) (v : Int) (ds : Model_Data) :
    getLength (.meteo k) (setLength (.lai j) v ds) = getLength (.meteo k) ds := by
  simp [getLength, setLength]

theorem fscanf_d_some {c : List Char} {i : Int} (old : Option Int)
    (h : fscanf_d c none = some i) : fscanf_d c old = some i := by
  unfold fscanf_d at h ⊢
  split at h
  · split at h
    · rename_i h1 _ _ _ h2
      simpa using h
    · cases h
  · cases h

theorem tsPass1Body_skip (key : String) (mk : Nat → CountPtr) (n : Int) (l : List Char)
    (st : State) (h : passLine l = false) : tsPass1Body key mk n l st = .ok st := by
  unfold tsPass1Body
  unfold passLine at h
  rw [if_neg (by simp [h])]

theorem tsPass1Body_header (key : String) (mk : Nat → CountPtr) (n : Int) (l tok : List Char)
    (st : State) (i : Int) (hp : passLine l = true) (htok : firstToken l = some tok)
    (hkey : strcasecmp key tok = true) (hi : headerIndex l = some i) (h1 : 1 ≤ i) (hn : i ≤ n) :
    tsPass1Body key mk n l st =
      .ok { st with optstr := tok, ind := some i,
                    DS := setLength (mk (i - 1).toNat) 0 st.DS,
                    count := some (mk (i - 1).toNat) } := by
  unfold tsPass1Body
  unfold passLine at hp
  rw [if_pos hp]
  simp only [sscanf_s_of_token st.optstr htok, hkey, if_true]
  have : sscanf_ind l st.ind = some i := fscanf_d_some st.ind hi
  simp only [this]
  rw [if_pos ⟨h1, hn⟩]

theorem tsPass1Body_title (key : String) (mk : Nat → CountPtr) (n : Int) (l tok : List Char)
    (st : State) (hp : passLine l = true) (htok : firstToken l = some tok)
    (hkey : strcasecmp key tok = false)
    (ht : strcasecmp "TIME" tok = true ∨ strcasecmp "TS" tok = true) :
    tsPass1Body key mk n l st = .ok { st with optstr := tok } := by
  unfold tsPass1Body
  unfold passLine at hp
  rw [if_pos hp]
  simp only [sscanf_s_of_token st.optstr htok, hkey, Bool.false_eq_true, if_false]
  rcases ht with ht | ht
  · rw [if_pos ht]
  · by_cases h2 : strcasecmp "TIME" tok = true
    · rw [if_pos h2]
    · rw [if_neg h2, if_pos ht]

theorem tsPass1Body_row (key : String) (mk : Nat → CountPtr) (n : Int) (l tok : List Char)
    (st : State) (p : CountPtr) (len : Int) (hp : passLine l = true)
    (htok : firstToken l = some tok) (hkey : strcasecmp key tok = false)
    (h1 : strcasecmp "TIME" tok = false) (h2 : strcasecmp "TS" tok = false)
    (hc : st.count = some p) (hl : getLength p st.DS = some len) :
    tsPass1Body key mk n l st =
      .ok { st with optstr := tok, DS := setLength p (len + 1) st.DS } := by
  unfold tsPass1Body
  unfold passLine at hp
  rw [if_pos hp]
  simp only [sscanf_s_of_token st.optstr htok, hkey, h1, h2, Bool.false_eq_true, if_false, hc, hl]

theorem lastHeaderIndex_cons_plain (key : String) (l : List Char) (rest : List (List Char))
    (h : isHeader key l = false) :
    lastHeaderIndex key (l :: rest) = lastHeaderIndex key rest := by
  rw [lastHeaderIndex]
  cases lastHeaderIndex key rest <;> simp [h]

theorem seriesRows_cons_plain (key : String) (k : Int) (l : List Char)
    (rest : List (List Char)) (h : isHeader key l = false) :
    seriesRows key k (l :: rest) = seriesRows key k rest := by
  rw [seriesRows]
  cases seriesRows key k rest <;> simp [h]

theorem rowsUntilHeader_cons_plain (key : String) (l : List Char) (rest : List (List Char))
    (h : isHeader key l = false) :
    rowsUntilHeader key (l :: rest) = (if isRow key l then 1 else 0) + rowsUntilHeader key rest := by
  rw [rowsUntilHeader, if_neg (by simp [h])]

theorem option_map_add_zero (x : Option Int) : (x.map fun v => v + ((0 : Nat) : Int)) = x := by
  cases x <;> simp

/-- The first pass over well-formed lines: it completes, `ind` is the index on
the last header line, and the lengths are the counts of the lines. -/
theorem tsPass1_meteo_spec (key : String) (n : Int) :
    ∀ (lines : List (List Char)) (st : State), wellFormedPass key n lines = true →
      st.DS.TSD_meteo_length.length = n.toNat →
      ((∃ i v, st.count = some (.meteo i) ∧ i < n.toNat ∧
          getLength (.meteo i) st.DS = some v) ∨ rowsUntilHeader key lines = 0) →
      ∃ st', tsPass1 key CountPtr.meteo n lines st = .ok st' ∧
        st'.ind = (match lastHeaderIndex key lines with
          | some i => some i
          | none => st.ind) ∧
        ∀ k, k < n.toNat → getLength (.meteo k) st'.DS =
          match seriesRows key ((k : Int) + 1) lines with
          | some c => some (c : Int)
          | none =>
            if st.count = some (.meteo k) then
              (getLength (.meteo k) st.DS).map fun v => v + ((rowsUntilHeader key lines : Nat) : Int)
            else getLength (.meteo k) st.DS := by
  intro lines
  induction lines with
  | nil =>
    intro st _ _ _
    refine ⟨st, rfl, rfl, fun k _ => ?_⟩
    simp only [seriesRows, rowsUntilHeader, option_map_add_zero, ite_self]
  | cons l rest ih =>
    intro st hwf hblock hcount
    rw [wellFormedPass, List.all_cons, Bool.and_eq_true] at hwf
    obtain ⟨hl, hrest⟩ := hwf
    have hrest' : wellFormedPass key n rest = true := hrest
    by_cases hp : passLine l = true
    · -- the line passes the test of line 401
      rw [hp] at hl
      cases htok : firstToken l with
      | none => rw [htok] at hl; simp at hl
      | some tok =>
        rw [htok] at hl
        by_cases hkey : strcasecmp key tok = true
        · -- a header line
          have hhead : isHeader key l = true := by simp [isHeader, hp, htok, hkey]
          rw [hhead] at hl
          cases hi : headerIndex l with
          | none => rw [hi] at hl; simp at hl
          | some i =>
            rw [hi] at hl
            simp only [Bool.not_true, Bool.false_or, Bool.and_eq_true, decide_eq_true_eq] at hl
            obtain ⟨h1, hn⟩ := hl
            have hbody := tsPass1Body_header key CountPtr.meteo n l tok st i hp htok hkey hi h1 hn
            have hlt : (i - 1).toNat < n.toNat := by
              clear hcount ih
              omega
            have hin : (i - 1).toNat < st.DS.TSD_meteo_length.length := by
              rw [hblock]
              exact hlt
            obtain ⟨st', hrun, hind, hlen⟩ := ih
              { st with optstr := tok, ind := some i,
                        DS := setLength (.meteo (i - 1).toNat) 0 st.DS,
                        count := some (.meteo (i - 1).toNat) } hrest'
              (by rw [length_setLength]; exact hblock)
              (Or.inl ⟨(i - 1).toNat, 0, rfl, hlt, getLength_setLength_same _ _ _ hin⟩)
            refine ⟨st', ?_, ?_, ?_⟩
            · rw [tsPass1, hbody]
              exact hrun
            · rw [hind, lastHeaderIndex]
              cases lastHeaderIndex key rest <;> simp [hhead, hi]
            · intro k hk
              rw [hlen k hk, seriesRows]
              cases seriesRows key ((k : Int) + 1) rest with
              | some c => rfl
              | none =>
                have hrows : rowsUntilHeader key (l :: rest) = 0 := by
                  rw [rowsUntilHeader, if_pos hhead]
                by_cases hik : (i - 1).toNat = k
                · have hidx : i = (k : Int) + 1 := by
                    clear hcount ih hlen
                    omega
                  have hcond : (isHeader key l && headerIndex l == some ((k : Int) + 1)) = true := by
                    rw [hhead, hi, hidx]
                    simp
                  rw [hik] at hin
                  simp [hik, hcond, getLength_setLength_same _ _ _ hin]
                · have hidx : ¬ i = (k : Int) + 1 := by
                    clear hcount ih hlen
                    omega
                  simp only [hhead, hi, hrows, option_map_add_zero, ite_self, Bool.true_and,
                    beq_iff_eq, Option.some.injEq, hidx, if_false,
                    getLength_setLength_ne _ _ _ _ hik]
                  rw [if_neg (by simpa using hik)]
        · -- no header line
          have hkey' : strcasecmp key tok = false := by simpa using hkey
          have hhead : isHeader key l = false := by simp [isHeader, hp, htok, hkey']
          by_cases ht : strcasecmp "TIME" tok = true ∨ strcasecmp "TS" tok = true
          · -- a line of titles or units
            have hrow : isRow key l = false := by
              rcases ht with ht | ht <;> simp [isRow, hp, htok, hkey', ht]
            have hbody := tsPass1Body_title key CountPtr.meteo n l tok st hp htok hkey' ht
            have hrows : rowsUntilHeader key (l :: rest) = rowsUntilHeader key rest := by
              rw [rowsUntilHeader_cons_plain key l rest hhead, hrow]
              simp
            obtain ⟨st', hrun, hind, hlen⟩ := ih { st with optstr := tok } hrest' hblock
              (by rw [hrows] at hcount; exact hcount)
            refine ⟨st', ?_, ?_, ?_⟩
            · rw [tsPass1, hbody]
              exact hrun
            · rw [hind, lastHeaderIndex_cons_plain key l rest hhead]
            · intro k hk
              rw [hlen k hk, seriesRows_cons_plain key _ l rest hhead, hrows]
          · -- a counted line
            rw [not_or] at ht
            have h1 : strcasecmp "TIME" tok = false := by simpa using ht.1
            have h2 : strcasecmp "TS" tok = false := by simpa using ht.2
            have hrow : isRow key l = true := by simp [isRow, hp, htok, hkey', h1, h2]
            have hrows : rowsUntilHeader key (l :: rest) = 1 + rowsUntilHeader key rest := by
              rw [rowsUntilHeader_cons_plain key l rest hhead, hrow]
              simp
            rcases hcount with ⟨i0, v, hc, hi0, hv⟩ | h0
            · have hbody := tsPass1Body_row key CountPtr.meteo n l tok st (.meteo i0) v hp htok
                hkey' h1 h2 hc hv
              have hin : i0 < st.DS.TSD_meteo_length.length := by
                rw [hblock]
                exact hi0
              obtain ⟨st', hrun, hind, hlen⟩ := ih
                { st with optstr := tok, DS := setLength (.meteo i0) (v + 1) st.DS } hrest'
                (by rw [length_setLength]; exact hblock)
                (Or.inl ⟨i0, v + 1, hc, hi0, getLength_setLength_same _ _ _ hin⟩)
              refine ⟨st', ?_, ?_, ?_⟩
              · rw [tsPass1, hbody]
                exact hrun
              · rw [hind, lastHeaderIndex_cons_plain key l rest hhead]
              · intro k hk
                rw [hlen k hk, seriesRows_cons_plain key _ l rest hhead, hrows]
                cases seriesRows key ((k : Int) + 1) rest with
                | some c => rfl
                | none =>
                  by_cases hik : i0 = k
                  · subst hik
                    simp only [hc, if_true, getLength_setLength_same _ _ _ hin, hv, Option.map_some']
                    congr 1
                    push_cast
                    ring
                  · have hne : ¬ (some (CountPtr.meteo i0) = some (CountPtr.meteo k)) := by
                      simpa using hik
                    simp only [hc, if_neg hne, getLength_setLength_ne _ _ _ _ hik]
            · rw [hrows] at h0
              omega
    · -- the line is skipped
      have hp' : passLine l = false := by simpa using hp
      have hhead : isHeader key l = false := by simp [isHeader, hp']
      have hrow : isRow key l = false := by simp [isRow, hp']
      have hrows : rowsUntilHeader key (l :: rest) = rowsUntilHeader key rest := by
        rw [rowsUntilHeader_cons_plain key l rest hhead, hrow]
        simp
      obtain ⟨st', hrun, hind, hlen⟩ := ih st hrest' hblock (by rw [hrows] at hcount; exact hcount)
      refine ⟨st', ?_, ?_, ?_⟩
      · rw [tsPass1, tsPass1Body_skip key CountPtr.meteo n l st hp']
        exact hrun
      · rw [hind, lastHeaderIndex_cons_plain key l rest hhead]
      · intro k hk
        rw [hlen k hk, seriesRows_cons_plain key _ l rest hhead, hrows]

theorem readForc_of_pass1 (L : Loaders) (content : List Char) (st st' : State) (n : Int)
    (hn : fscanf_d content (some st.DS.NumTS) = some n)
    (hrun : tsPass1 "METEO_TS" CountPtr.meteo n (fgetsLines content).tail (forcAlloc n st) =
      .ok st') :
    readForc L content st =
      (checkCount n st').bind fun st => Outcome.ofOption (L.forcData content st) := by
  unfold readForc
  rw [hn]
  change ((tsPass1 "METEO_TS" CountPtr.meteo n (fgetsLines content).tail (forcAlloc n st)).bind
    _) = _
  rw [hrun]
  rfl

theorem readForc_exit_iff (L : Loaders) (content : List Char) (st : State) (n i : Int)
    (hn : fscanf_d content (some st.DS.NumTS) = some n)
    (hwf : wellFormedPass "METEO_TS" n (fgetsLines content).tail = true)
    (hfirst : rowsUntilHeader "METEO_TS" (fgetsLines content).tail = 0)
    (hlast : lastHeaderIndex "METEO_TS" (fgetsLines content).tail = some i) :
    readForc L content st = .exit 1 .countMismatch ↔ i ≠ n := by
  obtain ⟨st', hrun, hind, -⟩ := tsPass1_meteo_spec "METEO_TS" n (fgetsLines content).tail
    (forcAlloc n st) hwf (by simp [forcAlloc]) (Or.inr hfirst)
  rw [hlast] at hind
  rw [readForc_of_pass1 L content st st' n hn hrun]
  unfold checkCount
  simp only [hind]
  by_cases hne : i ≠ n
  · rw [if_pos hne]
    simp [Outcome.bind, hne]
  · rw [if_neg hne]
    simp only [Outcome.bind, hne, iff_false]
    cases L.forcData content st' <;> simp [Outcome.ofOption]

theorem paraKeywords_lower_nodup :
    (paraKeywords.map fun k => k.toList.map Char.toLower).Nodup := by decide!

theorem keyword_unique {k1 k2 : String} {o : List Char} (h1 : strcasecmp k1 o = true)
    (h2 : strcasecmp k2 o = true) (m1 : k1 ∈ paraKeywords) (m2 : k2 ∈ paraKeywords) :
    k1 = k2 := by
  have e1 : k1.toList.map Char.toLower = o.map Char.toLower := by
    simpa [strcasecmp] using h1
  have e2 : k2.toList.map Char.toLower = o.map Char.toLower := by
    simpa [strcasecmp] using h2
  exact List.inj_on_of_nodup_map paraKeywords_lower_nodup m1 m2 (e1.trans e2.symm)

theorem keyword_mem (f : ParaField) : f.keyword ∈ paraKeywords := by
  cases f <;> decide

theorem fieldOfKeyword_keyword (f : ParaField) : fieldOfKeyword f.keyword = some f := by
  cases f <;> decide

theorem field_unique {f g : ParaField} {o : List Char} (hf : strcasecmp f.keyword o = true)
    (hg : strcasecmp g.keyword o = true) : g = f := by
  have e := keyword_unique hg hf (keyword_mem g) (keyword_mem f)
  have e2 := congrArg fieldOfKeyword e
  rw [fieldOfKeyword_keyword, fieldOfKeyword_keyword] at e2
  exact Option.some.inj e2

theorem keyword_head (f : ParaField) :
    (f.keyword.toList.map Char.toLower).head? ≠ some '#' := by
  cases f <;> decide

set_option maxHeartbeats 4000000 in
theorem paraKeyword_frame {cmdstr : List Char} {st st' : State} (g : ParaField)
    (h : paraKeyword cmdstr st = .ok st') (hg : strcasecmp g.keyword st.optstr = false) :
    g.get st' = g.get st := by
  unfold paraKeyword at h
  iterate 42
    have h2 := ite_eq_cases h
    clear h
    rcases h2 with ⟨hk, h⟩ | ⟨-, h⟩
    · injection h with h
      subst h
      cases g <;> dsimp only [ParaField.get] <;>
        first
        | exact absurd (hk.symm.trans hg) (by decide)
        | simp
  cases h

set_option maxHeartbeats 4000000 in
theorem paraKeyword_sameRest {cmdstr : List Char} {st st' : State}
    (h : paraKeyword cmdstr st = .ok st') : SameRest st' st := by
  unfold paraKeyword at h
  iterate 42
    have h2 := ite_eq_cases h
    clear h
    rcases h2 with ⟨-, h⟩ | ⟨-, h⟩
    · injection h with h
      subst h
      simp [SameRest]
  cases h

theorem getD_set_self_cast (l : List Int) (i : Nat) (v : Int) (h : i < l.length) :
    (((l.set i v).getD i 0 : Int) : ℚ) = (v : ℚ) := by
  simp [List.getElem?_set_self h]

set_option maxHeartbeats 4000000 in
theorem paraKeyword_value {cmdstr : List Char} {st st' : State} (f : ParaField)
    (h : paraKeyword cmdstr st = .ok st') (hf : strcasecmp f.keyword st.optstr = true)
    (harr : f.inArray st = true) : f.get st' = f.scan cmdstr st := by
  unfold paraKeyword at h
  iterate 42
    have h2 := ite_eq_cases h
    clear h
    rcases h2 with ⟨hk, h⟩ | ⟨-, h⟩
    · injection h with h
      subst h
      have e := keyword_unique hf hk (keyword_mem f) (by simp [paraKeywords])
      have e2 := (fieldOfKeyword_keyword f).symm.trans (congrArg fieldOfKeyword e)
      have e3 := Option.some.inj e2
      subst e3
      first
        | rfl
        | exact getD_set_self_cast _ _ _ (by simpa [ParaField.inArray] using harr)
  cases h

/-- A line with a keyword as its first token assigns the field of the keyword and
no other. -/
theorem paraBody_assign (cmdstr tok : List Char) (st : State) (f : ParaField)
    (h1 : firstByte cmdstr ≠ '#') (h2 : firstByte cmdstr ≠ '\n')
    (htok : firstToken cmdstr = some tok) (hf : strcasecmp f.keyword tok = true)
    (harr : f.inArray st = true) :
    ∃ st', paraBody cmdstr st = .ok st' ∧ f.get st' = f.scan cmdstr st ∧
      (∀ g, g ≠ f → g.get st' = g.get st) ∧ SameRest st' st := by
  have hlow : tok.map Char.toLower = f.keyword.toList.map Char.toLower := by
    have := hf
    simp only [strcasecmp, beq_iff_eq] at this
    exact this.symm
  have h3 : firstByte tok ≠ '#' := firstByte_of_lower hlow (keyword_head f)
  have hbody := paraBody_statement st h1 h2 htok h3
  have hrec : isParaKeyword tok = true :=
    List.any_eq_true.2 ⟨f.keyword, keyword_mem f, hf⟩
  rcases paraKeyword_spec cmdstr { st with optstr := tok } _ rfl with ⟨-, st', h⟩ | ⟨hk, -⟩
  · refine ⟨st', hbody.trans h, ?_, ?_, ?_⟩
    · exact @paraKeyword_value cmdstr { st with optstr := tok } st' f h hf harr
    · intro g hg
      have hgk : strcasecmp g.keyword tok = false := by
        cases hb : strcasecmp g.keyword tok with
        | false => rfl
        | true => exact absurd (field_unique hf hb) hg
      exact @paraKeyword_frame cmdstr { st with optstr := tok } st' g h hgk
    · exact @paraKeyword_sameRest cmdstr { st with optstr := tok } st' h
  · rw [hrec] at hk
    cases hk

theorem isLeapYear_iff (y : Int) :
    isLeapYear y = true ↔ y % 4 = 0 ∧ (y % 100 ≠ 0 ∨ y % 400 = 0) := by
  simp [isLeapYear]

theorem daysBeforeYear_succ (y : Int) :
    daysBeforeYear (y + 1) = daysBeforeYear y + daysInYear y := by
  unfold daysInYear
  by_cases h : isLeapYear y = true
  · rw [if_pos h]
    rw [isLeapYear_iff] at h
    unfold daysBeforeYear
    omega
  · rw [if_neg h]
    rw [isLeapYear_iff] at h
    unfold daysBeforeYear
    omega

theorem daysBeforeYear_mono {a b : Int} (h : a ≤ b) : daysBeforeYear a ≤ daysBeforeYear b := by
  unfold daysBeforeYear
  omega

theorem daysFrom1970_eq (n : Nat) : daysFrom1970 n = daysBeforeYear (1970 + n) := by
  induction n with
  | zero => decide
  | succ n ih =>
    rw [daysFrom1970, ih, ← daysBeforeYear_succ,
      show (1970 : Int) + ((n + 1 : Nat) : Int) = 1970 + (n : Int) + 1 by push_cast; ring]

theorem daysTo1970_eq (n : Nat) : daysTo1970 n = -daysBeforeYear (1970 - n) := by
  induction n with
  | zero => decide
  | succ n ih =>
    rw [daysTo1970, ih]
    have := daysBeforeYear_succ (1970 - ((n : Int) + 1))
    rw [show (1970 : Int) - ((n : Int) + 1) + 1 = 1970 - n by ring] at this
    rw [this]
    push_cast
    ring

theorem daysBeforeMonth_eq (leap : Bool) (M : Int) (h1 : 1 ≤ M) (h12 : M ≤ 12) :
    daysBeforeMonth leap (M - 1) =
      ((List.range (M - 1).toNat).map (daysInMonth leap)).sum := by
  interval_cases M <;> cases leap <;> decide

theorem month_step (leap : Bool) (M N : Int) (h1 : 1 ≤ M) (h2 : M < N) (h3 : N ≤ 12) :
    daysBeforeMonth leap (M - 1) + daysInMonth leap (M - 1).toNat ≤
      daysBeforeMonth leap (N - 1) := by
  have h11 : M ≤ 11 := by omega
  interval_cases M <;> interval_cases N <;> cases leap <;> first | omega | decide

theorem month_end (leap : Bool) (M : Int) (h1 : 1 ≤ M) (h12 : M ≤ 12) :
    0 ≤ daysBeforeMonth leap (M - 1) ∧
      daysBeforeMonth leap (M - 1) + daysInMonth leap (M - 1).toNat ≤
        (if leap then 366 else 365) := by
  interval_cases M <;> cases leap <;> decide

theorem Civil.valid_iff (c : Civil) :
    c.valid = true ↔ (1 ≤ c.month ∧ c.month ≤ 12) ∧ (1 ≤ c.day ∧
      c.day ≤ daysInMonth (isLeapYear c.year) (c.month - 1).toNat) ∧
      (0 ≤ c.hour ∧ c.hour < 24) ∧ (0 ≤ c.minute ∧ c.minute < 60) := by
  simp only [Civil.valid, Bool.and_eq_true, decide_eq_true_eq]
  tauto

/-- The days of a valid civil date, counted year by year and month by month, are
the days that `timegm` counts in closed form. -/
theorem Civil.days_eq (c : Civil) (h1 : 1 ≤ c.month) (h12 : c.month ≤ 12) :
    c.days = daysBeforeYear c.year + daysBeforeMonth (isLeapYear c.year) (c.month - 1) +
      (c.day - 1) := by
  unfold Civil.days
  rw [← daysBeforeMonth_eq _ _ h1 h12]
  congr 2
  by_cases hy : 1970 ≤ c.year
  · rw [if_pos hy, daysFrom1970_eq, Int.toNat_of_nonneg (by omega)]
    congr 1
    ring
  · rw [if_neg hy, daysTo1970_eq, Int.toNat_of_nonneg (by omega), neg_neg]
    congr 1
    ring

/-- The function `timegm` on the broken-down form of a valid civil date-time. -/
theorem tmSeconds_civil (c : Civil) (hv : c.valid = true) (t : Tm)
    (hy : t.tm_year = c.year - 1900) (hm : t.tm_mon = c.month - 1) (hd : t.tm_mday = c.day)
    (hh : t.tm_hour = c.hour) (hmin : t.tm_min = c.minute) (hs : t.tm_sec = 0) :
    tmSeconds t = c.seconds := by
  obtain ⟨⟨h1, h12⟩, -⟩ := (Civil.valid_iff c).1 hv
  have hq : (c.month - 1) / 12 = 0 := by omega
  have hr : (c.month - 1) % 12 = c.month - 1 := by omega
  unfold tmSeconds Civil.seconds
  rw [Civil.days_eq c h1 h12]
  simp only [hy, hm, hd, hh, hmin, hs, hq, hr]
  rw [show c.year - 1900 + 1900 + 0 = c.year by ring]
  ring

theorem Civil.seconds_multiple (c : Civil) : ∃ k : Int, c.seconds = 60 * k :=
  ⟨(c.days * 24 + c.hour) * 60 + c.minute, by unfold Civil.seconds; ring⟩

theorem Civil.days_lt (c d : Civil) (hc : c.valid = true) (hd : d.valid = true)
    (h : c.year < d.year ∨ (c.year = d.year ∧ (c.month < d.month ∨
      (c.month = d.month ∧ c.day < d.day)))) : c.days < d.days := by
  obtain ⟨⟨c1, c12⟩, ⟨cd1, cd2⟩, -⟩ := (Civil.valid_iff c).1 hc
  obtain ⟨⟨d1, d12⟩, ⟨dd1, dd2⟩, -⟩ := (Civil.valid_iff d).1 hd
  rw [Civil.days_eq c c1 c12, Civil.days_eq d d1 d12]
  rcases h with hy | ⟨hy, hm | ⟨hm, hday⟩⟩
  · have e1 := month_end (isLeapYear c.year) c.month c1 c12
    have e2 := month_end (isLeapYear d.year) d.month d1 d12
    have e3 : daysBeforeYear (c.year + 1) ≤ daysBeforeYear d.year :=
      daysBeforeYear_mono (by omega)
    rw [daysBeforeYear_succ] at e3
    unfold daysInYear at e3
    generalize daysBeforeYear c.year = a at *
    generalize daysBeforeYear d.year = b at *
    generalize daysBeforeMonth (isLeapYear c.year) (c.month - 1) = p at *
    generalize daysBeforeMonth (isLeapYear d.year) (d.month - 1) = q at *
    generalize daysInMonth (isLeapYear c.year) (c.month - 1).toNat = u at *
    clear hc hd dd2
    generalize isLeapYear c.year = leap at e1 e3
    cases leap <;> simp at e1 e3 <;> omega
  · rw [← hy] at dd2 ⊢
    have e1 := month_step (isLeapYear c.year) c.month d.month c1 hm d12
    generalize daysBeforeYear c.year = a at *
    generalize daysBeforeMonth (isLeapYear c.year) (c.month - 1) = p at *
    generalize daysBeforeMonth (isLeapYear c.year) (d.month - 1) = q at *
    generalize daysInMonth (isLeapYear c.year) (c.month - 1).toNat = u at *
    omega
  · rw [← hy, ← hm]
    omega

/-- A later valid civil date-time is a strictly larger number of seconds. -/
theorem Civil.seconds_lt (c d : Civil) (hc : c.valid = true) (hd : d.valid = true)
    (h : c.before d) : c.seconds < d.seconds := by
  obtain ⟨-, -, ⟨ch0, ch1⟩, ⟨cm0, cm1⟩⟩ := (Civil.valid_iff c).1 hc
  obtain ⟨-, -, ⟨dh0, dh1⟩, ⟨dm0, dm1⟩⟩ := (Civil.valid_iff d).1 hd
  have key : c.days < d.days ∨ (c.days = d.days ∧ (c.hour < d.hour ∨
      (c.hour = d.hour ∧ c.minute < d.minute))) := by
    rcases h with hy | ⟨hy, hm | ⟨hm, hday | ⟨hday, ht⟩⟩⟩
    · exact Or.inl (Civil.days_lt c d hc hd (Or.inl hy))
    · exact Or.inl (Civil.days_lt c d hc hd (Or.inr ⟨hy, Or.inl hm⟩))
    · exact Or.inl (Civil.days_lt c d hc hd (Or.inr ⟨hy, Or.inr ⟨hm, hday⟩⟩))
    · refine Or.inr ⟨?_, ht⟩
      unfold Civil.days
      rw [hy, hm, hday]
  unfold Civil.seconds
  generalize c.days = a at *
  generalize d.days = b at *
  clear hc hd h
  omega

theorem isdigit_plain {c : Char} (h : isdigit c = true) :
    isspace c = false ∧ c ≠ '-' ∧ c ≠ '+' ∧ c ≠ Char.ofNat 0 := by
  refine ⟨?_, ?_, ?_, ?_⟩
  · cases hs : isspace c with
    | false => rfl
    | true => rw [isdigit_not_isspace hs] at h; cases h
  · rintro rfl; revert h; decide
  · rintro rfl; revert h; decide
  · rintro rfl; revert h; decide

theorem isNumeral_iff (ds : List Char) :
    isNumeral ds = true ↔ ds ≠ [] ∧ ∀ c ∈ ds, isdigit c = true := by
  cases ds <;> simp [isNumeral]

/-- Conversion `%d` on an unsigned numeral that a byte other than a digit follows. -/
theorem scanInt_numeral (pre ds rest : List Char) (hpre : ∀ c ∈ pre, isspace c = true)
    (hds : isNumeral ds = true)
    (hrest : rest = [] ∨ ∃ c t, rest = c :: t ∧ isdigit c = false) :
    scanInt (pre ++ (ds ++ rest)) = some ((digitsVal ds : Int), rest) := by
  obtain ⟨hne, hall⟩ := (isNumeral_iff ds).1 hds
  obtain ⟨e1, e2⟩ := takeWhile_append_stop ds rest hall hrest
  cases ds with
  | nil => exact absurd rfl hne
  | cons d r =>
    obtain ⟨hsp, hm, hp, -⟩ := isdigit_plain (hall d (List.mem_cons_self _ _))
    have hskip : skipSpace (pre ++ (d :: r ++ rest)) = d :: r ++ rest :=
      skipSpace_append pre _ hpre (Or.inr ⟨d, r ++ rest, rfl, hsp⟩)
    have hsign : scanSign (d :: r ++ rest) = (false, d :: r ++ rest) :=
      scanSign_plain _ _ hm hp
    simp only [scanInt, hskip, hsign, e1, e2]
    rfl

theorem toLower_of_isspace {c : Char} (h : isspace c = true ∨ c = Char.ofNat 0) :
    c.toLower = c := by
  rcases h with h | h
  · simp only [isspace, Bool.or_eq_true, decide_eq_true_eq] at h
    rcases h with ((((h | h) | h) | h) | h) | h <;> subst h <;> decide
  · subst h; decide

/-- A token that equals a keyword up to the case of letters holds no white space
and no NUL, and is not empty. -/
theorem token_plain_of_lower {key : String} {tok : List Char}
    (hf : strcasecmp key tok = true)
    (hkey : ∀ c ∈ key.toList.map Char.toLower, isspace c = false ∧ c ≠ Char.ofNat 0)
    (hne : key.toList ≠ []) :
    tok ≠ [] ∧ ∀ c ∈ tok, isspace c = false ∧ c ≠ Char.ofNat 0 := by
  have hlow : key.toList.map Char.toLower = tok.map Char.toLower := by
    simpa only [strcasecmp, beq_iff_eq] using hf
  constructor
  · rintro rfl
    rw [List.map_nil, List.map_eq_nil_iff] at hlow
    exact hne hlow
  · intro c hc
    have hmem : c.toLower ∈ key.toList.map Char.toLower := by
      rw [hlow]; exact List.mem_map_of_mem _ hc
    by_cases hbad : isspace c = true ∨ c = Char.ofNat 0
    · rw [toLower_of_isspace hbad] at hmem
      have := hkey c hmem
      rcases hbad with hb | hb
      · rw [this.1] at hb; cases hb
      · exact absurd hb this.2
    · push_neg at hbad
      exact ⟨by simpa using hbad.1, hbad.2⟩

theorem cstr_of_plain (l : List Char) (h : ∀ c ∈ l, c ≠ Char.ofNat 0) : cstr l = l := by
  unfold cstr
  rw [List.takeWhile_eq_self_iff]
  intro c hc
  simpa using h c hc

/-- The first token of a line that starts with a plain token and a space. -/
theorem scanToken_plain (tok rest : List Char) (hne : tok ≠ [])
    (hall : ∀ c ∈ tok, isspace c = false) :
    scanToken (tok ++ ' ' :: rest) = some (tok, ' ' :: rest) := by
  have hstop : (' ' :: rest) = [] ∨ ∃ c t, (' ' :: rest) = c :: t ∧ (!isspace c) = false :=
    Or.inr ⟨' ', rest, rfl, by decide⟩
  obtain ⟨e1, e2⟩ := takeWhile_append_stop (p := fun c => !isspace c) tok (' ' :: rest)
    (fun c hc => by simp [hall c hc]) hstop
  have hskip : skipSpace (tok ++ ' ' :: rest) = tok ++ ' ' :: rest := by
    cases tok with
    | nil => exact absurd rfl hne
    | cons a t =>
      exact skipSpace_append [] _ (by simp) (Or.inr ⟨a, t ++ ' ' :: rest, rfl,
        hall a (List.mem_cons_self _ _)⟩)
  unfold scanToken
  simp only [hskip, e1, e2]
  cases tok with
  | nil => exact absurd rfl hne
  | cons a t => rfl

theorem dateLine_plain (tok Y M D h m : List Char)
    (htok : ∀ c ∈ tok, c ≠ Char.ofNat 0)
    (hY : isNumeral Y = true) (hM : isNumeral M = true) (hD : isNumeral D = true)
    (hh : isNumeral h = true) (hm : isNumeral m = true) :
    cstr (dateLine tok Y M D h m) = dateLine tok Y M D h m := by
  apply cstr_of_plain
  have dig : ∀ ds, isNumeral ds = true → ∀ c ∈ ds, c ≠ Char.ofNat 0 :=
    fun ds hds c hc => (isdigit_plain (((isNumeral_iff ds).1 hds).2 c hc)).2.2.2
  intro c hc
  simp only [dateLine, List.mem_append, List.mem_cons, List.mem_singleton,
    List.not_mem_nil, or_false] at hc
  rcases hc with hc | hc | hc | hc | hc | hc | hc | hc | hc | hc | hc | hc
  · exact htok c hc
  · subst hc; decide
  · exact dig Y hY c hc
  · subst hc; decide
  · exact dig M hM c hc
  · subst hc; decide
  · exact dig D hD c hc
  · subst hc; decide
  · exact dig h hh c hc
  · subst hc; decide
  · exact dig m hm c hc
  · subst hc; decide

/-- What `sscanf` with the format `"%*s %d-%d-%d %d:%d"` stores on a date line. -/
theorem sscanf_date_dateLine (tok Y M D h m : List Char) (t : Tm)
    (hne : tok ≠ []) (htok : ∀ c ∈ tok, isspace c = false ∧ c ≠ Char.ofNat 0)
    (hY : isNumeral Y = true) (hM : isNumeral M = true) (hD : isNumeral D = true)
    (hh : isNumeral h = true) (hm : isNumeral m = true) :
    firstToken (dateLine tok Y M D h m) = some tok ∧
    sscanf_date (dateLine tok Y M D h m) t =
      { t with tm_year := digitsVal Y, tm_mon := digitsVal M, tm_mday := digitsVal D,
               tm_hour := digitsVal h, tm_min := digitsVal m } := by
  have hc := dateLine_plain tok Y M D h m (fun c hc => (htok c hc).2) hY hM hD hh hm
  have hs : scanToken (dateLine tok Y M D h m) = some (tok,
      ' ' :: (Y ++ '-' :: (M ++ '-' :: (D ++ ' ' :: (h ++ ':' :: (m ++ ['\n'])))))) :=
    scanToken_plain tok _ hne (fun c hc => (htok c hc).1)
  have stop : ∀ (x : Char) (r : List Char), isdigit x = false →
      (x :: r = [] ∨ ∃ c t, x :: r = c :: t ∧ isdigit c = false) :=
    fun x r hx => Or.inr ⟨x, r, rfl, hx⟩
  have i1 := scanInt_numeral [' '] Y ('-' :: (M ++ '-' :: (D ++ ' ' :: (h ++ ':' :: (m ++ ['\n'])))))
    (by decide) hY (stop _ _ (by decide))
  have i2 := scanInt_numeral [] M ('-' :: (D ++ ' ' :: (h ++ ':' :: (m ++ ['\n']))))
    (by simp) hM (stop _ _ (by decide))
  have i3 := scanInt_numeral [] D (' ' :: (h ++ ':' :: (m ++ ['\n'])))
    (by simp) hD (stop _ _ (by decide))
  have i4 := scanInt_numeral [' '] h (':' :: (m ++ ['\n']))
    (by decide) hh (stop _ _ (by decide))
  have i5 := scanInt_numeral [] m ['\n'] (by simp) hm (stop _ _ (by decide))
  simp only [List.singleton_append, List.nil_append] at i1 i2 i3 i4 i5
  constructor
  · unfold firstToken
    rw [hc, hs]
    rfl
  · unfold sscanf_date
    rw [hc, hs]
    simp only [i1, scanLit, if_true, Option.bind_some, Option.some_bind, i2, i3, i4, i5]

/-- The value that the branch of `START` or `END` stores for a line with a valid
civil date-time. -/
theorem stampedDate_seconds (tok Y M D h m : List Char) (t : Tm)
    (hne : tok ≠ []) (htok : ∀ c ∈ tok, isspace c = false ∧ c ≠ Char.ofNat 0)
    (hY : isNumeral Y = true) (hM : isNumeral M = true) (hD : isNumeral D = true)
    (hh : isNumeral h = true) (hm : isNumeral m = true)
    (hvalid : (civilOf Y M D h m).valid = true) :
    (timegm (stampedDate (dateLine tok Y M D h m) t)).1 = (civilOf Y M D h m).seconds := by
  unfold timegm stampedDate
  rw [(sscanf_date_dateLine tok Y M D h m t hne htok hY hM hD hh hm).2]
  exact tmSeconds_civil _ hvalid _ rfl rfl rfl rfl rfl rfl

theorem dateKeyword_plain :
    (∀ c ∈ "START".toList.map Char.toLower, isspace c = false ∧ c ≠ Char.ofNat 0) ∧
      (∀ c ∈ "END".toList.map Char.toLower, isspace c = false ∧ c ≠ Char.ofNat 0) := by
  decide

/-! ## The claims -/

/-- C1 (failing input): the .para file without an END line.  After the loop `EndTime` still is
`BADVAL`, lines 845-851 give `NumTout = -262969`, hence a negative `NumSteps`, and the access
`Tout[NumSteps]` of line 863 is undefined: the run does not reach the `exit` of line 893. -/
theorem C1_missing_END_is_undefined :
    keywordAbsent "END" paraNoEnd.toList = true ∧
      numTout 1 3600 946684800 (BADVAL : Int) = some (-262969) ∧
      Outcome.map (fun _ => ()) (readPara paraNoEnd.toList mem7) = .undefined := by
  refine ⟨by decide!, by decide!, by decide!⟩

/-- C2 (amended): the only value of ABSTOL, RELTOL, INIT_SOLVER_STEP and MAX_SOLVER_STEP that
`read_alloc` rejects is `BADVAL`: a run that returns has none of the four equal to `BADVAL`, and
the checks of lines 865-909 let every other value pass, zero and negative numbers included. -/
theorem C2_only_BADVAL_rejected :
    (∀ (content : List Char) (st r : State), readPara content st = .ok r →
      r.CS.abstol ≠ BADVAL ∧ r.CS.reltol ≠ BADVAL ∧ r.CS.InitStep ≠ BADVAL ∧
        r.CS.MaxStep ≠ BADVAL) ∧
    (∀ cs : Control_Data, cs.abstol ≠ BADVAL → cs.reltol ≠ BADVAL → cs.InitStep ≠ BADVAL →
      cs.MaxStep ≠ BADVAL → cs.StartTime ≠ BADVAL → cs.EndTime ≠ BADVAL → cs.ETStep ≠ BADVAL →
      cs.outtype ≠ BADVAL → ¬ (cs.outtype = 0 ∧ (cs.a = BADVAL ∨ cs.b = BADVAL)) →
      paraChecks cs = .ok cs) := by
  constructor
  · intro content st r h
    obtain ⟨st1, -, -, h3, -⟩ := readPara_ok h
    unfold paraChecks at h3
    split_ifs at h3
    exact ⟨by assumption, by assumption, by assumption, by assumption⟩
  · intro cs h1 h2 h3 h4 h5 h6 h7 h8 h9
    unfold paraChecks
    rw [if_neg h1, if_neg h2, if_neg h3, if_neg h4, if_neg h5, if_neg h6, if_neg h7, if_neg h8,
      if_neg h9]

/-- C2 witness: the one-day file returns, with tolerances and steps other than `BADVAL`. -/
theorem C2_only_BADVAL_rejected_witness :
    ∃ r, readPara paraDay.toList mem7 = .ok r ∧
      (r.CS.abstol ≠ BADVAL ∧ r.CS.reltol ≠ BADVAL ∧ r.CS.InitStep ≠ BADVAL ∧
        r.CS.MaxStep ≠ BADVAL) := by
  have hm : Outcome.map (fun _ => ()) (readPara paraDay.toList mem7) = .ok () := by decide!
  obtain ⟨r, hr, -⟩ := Outcome.of_map_eq_ok hm
  exact ⟨r, hr, C2_only_BADVAL_rejected.1 _ _ _ hr⟩

/-- C2 counterexample: with `ABSTOL 0`, `RELTOL -1`, `INIT_SOLVER_STEP -5E-5` and
`MAX_SOLVER_STEP 0` the function returns a configuration that holds these values. -/
theorem C2_counterexample :
    ∃ r, readPara paraBadTol.toList mem7 = .ok r ∧ r.CS.abstol = 0 ∧ r.CS.reltol = -1 ∧
      r.CS.InitStep = -(1 / 20000) ∧ r.CS.MaxStep = 0 := by
  have hm : Outcome.map (fun s => (s.CS.abstol, s.CS.reltol, s.CS.InitStep, s.CS.MaxStep))
      (readPara paraBadTol.toList mem7) = .ok (0, -1, -(1 / 20000), 0) := by decide!
  obtain ⟨r, hr, hv⟩ := Outcome.of_map_eq_ok hm
  simp only [Prod.mk.injEq] at hv
  exact ⟨r, hr, hv⟩

/-- C3 (amended): when STEPSIZE_FACTOR or MODEL_STEPSIZE is absent from the .para file, `a` or `b`
keeps the value `BADVAL`, and `read_alloc` does not return when OUTPUT_TYPE is 0: a run that
returns has an `outtype` other than 0. -/
theorem C3_AB_required_for_outtype_zero (content : List Char) (st r : State)
    (habs : keywordAbsent "STEPSIZE_FACTOR" content = true ∨
      keywordAbsent "MODEL_STEPSIZE" content = true)
    (h : readPara content st = .ok r) :
    (r.CS.a = BADVAL ∨ r.CS.b = BADVAL) ∧ r.CS.outtype ≠ 0 := by
  obtain ⟨st1, h1, h2, h3, -⟩ := readPara_ok h
  obtain ⟨-, ha, hb, -, -, -, -⟩ := schedule_ok h2
  have hf := paraLoop_frame_ab _ _ _ h1
  have hbad : r.CS.a = BADVAL ∨ r.CS.b = BADVAL := by
    rcases habs with habs | habs
    · left
      rw [ha, hf.1 habs]
      rfl
    · right
      rw [hb, hf.2 habs]
      rfl
  refine ⟨hbad, fun h0 => ?_⟩
  unfold paraChecks at h3
  split_ifs at h3 with c1 c2 c3 c4 c5 c6 c7 c8 c9
  exact c9 ⟨h0, hbad⟩

/-- C3 witness: the file without MODEL_STEPSIZE and with OUTPUT_TYPE 1 returns, with `b` still
`BADVAL` and `outtype = 1`. -/
theorem C3_AB_required_for_outtype_zero_witness :
    ∃ r, (keywordAbsent "STEPSIZE_FACTOR" paraNoB.toList = true ∨
        keywordAbsent "MODEL_STEPSIZE" paraNoB.toList = true) ∧
      readPara paraNoB.toList mem7 = .ok r ∧
      ((r.CS.a = BADVAL ∨ r.CS.b = BADVAL) ∧ r.CS.outtype ≠ 0) := by
  have hm : Outcome.map (fun _ => ()) (readPara paraNoB.toList mem7) = .ok () := by decide!
  obtain ⟨r, hr, -⟩ := Outcome.of_map_eq_ok hm
  have habs : keywordAbsent "STEPSIZE_FACTOR" paraNoB.toList = true ∨
      keywordAbsent "MODEL_STEPSIZE" paraNoB.toList = true := Or.inr (by decide!)
  exact ⟨r, habs, hr, C3_AB_required_for_outtype_zero _ _ _ habs hr⟩

/-- C3 counterexample: MODEL_STEPSIZE is absent and OUTPUT_TYPE is 1; `read_alloc` returns, and
the schedule it returns has been built with `b = BADVAL`. -/
theorem C3_counterexample :
    ∃ r, keywordAbsent "MODEL_STEPSIZE" paraNoB.toList = true ∧
      readPara paraNoB.toList mem7 = .ok r ∧ r.CS.outtype = 1 ∧ r.CS.b = BADVAL ∧
      r.CS.NumSteps = 0 ∧ r.CS.Tout = [r.CS.EndTime] := by
  have hm : Outcome.map (fun s => (s.CS.outtype, s.CS.b, s.CS.NumSteps, s.CS.EndTime, s.CS.Tout))
      (readPara paraNoB.toList mem7) = .ok (1, -999, 0, 946685400, [946685400]) := by decide!
  obtain ⟨r, hr, hv⟩ := Outcome.of_map_eq_ok hm
  simp only [Prod.mk.injEq] at hv
  obtain ⟨h1, h2, h3, h4, h5⟩ := hv
  refine ⟨r, by decide!, hr, h1, ?_, h3, ?_⟩
  · rw [h2]; norm_num [BADVAL]
  · rw [h5, h4]

/-- C4: every fatal-error path of `read_alloc` (a file that cannot be opened, the count check
after the first pass over a time-series file, an unrecognised keyword of .para or .calib, a
required parameter that is not defined) ends the program by `exit` with the status 1, which is
not 0, and the run then is not a normal return. -/
theorem C4_fatal_exit_status_one (FLUX_PIHM : Bool) (L : Loaders)
    (fopen : List Char → Option (List Char)) (filename : List Char) (st : State)
    (c : Int) (m : Fatal) (h : read_alloc FLUX_PIHM L fopen filename st = .exit c m) :
    c = 1 ∧ c ≠ 0 ∧ ∀ r, read_alloc FLUX_PIHM L fopen filename st ≠ .ok r := by
  have h1 : c = 1 := read_alloc_exitsOne FLUX_PIHM L fopen filename st c m h
  refine ⟨h1, by omega, fun r hr => ?_⟩
  rw [h] at hr
  cases hr

/-- C4 witness: four runs that end in a fatal error: no file can be opened; the .forc file
declares two series and holds one; the .para file has no ABSTOL line; the .calib file has a line
`foo 1`. -/
theorem C4_fatal_exit_status_one_witness :
    (read_alloc false loadNothing noFiles "proj".toList mem7 = .exit 1 (.cannotOpen "riv") ∧
      ((1 : Int) = 1 ∧ (1 : Int) ≠ 0 ∧
        ∀ r, read_alloc false loadNothing noFiles "proj".toList mem7 ≠ .ok r)) ∧
    (read_alloc false loadNothing (projFiles forcTwoDeclared paraDay "KSATH 2\n")
        "proj".toList mem7 = .exit 1 .countMismatch ∧
      ((1 : Int) = 1 ∧ (1 : Int) ≠ 0 ∧
        ∀ r, read_alloc false loadNothing (projFiles forcTwoDeclared paraDay "KSATH 2\n")
          "proj".toList mem7 ≠ .ok r)) ∧
    (read_alloc false loadNothing (projFiles forcOne paraNoAbstol "KSATH 2\n")
        "proj".toList mem7 = .exit 1 (.mustBeDefined "ABSTOL") ∧
      ((1 : Int) = 1 ∧ (1 : Int) ≠ 0 ∧
        ∀ r, read_alloc false loadNothing (projFiles forcOne paraNoAbstol "KSATH 2\n")
          "proj".toList mem7 ≠ .ok r)) ∧
    (read_alloc false loadNothing (projFiles forcOne paraDay "KSATH 2\nfoo 1\n")
        "proj".toList mem7 = .exit 1 (.unrecognized "foo".toList) ∧
      ((1 : Int) = 1 ∧ (1 : Int) ≠ 0 ∧
        ∀ r, read_alloc false loadNothing (projFiles forcOne paraDay "KSATH 2\nfoo 1\n")
          "proj".toList mem7 ≠ .ok r)) := by
  have h1 : read_alloc false loadNothing noFiles "proj".toList mem7 =
      .exit 1 (.cannotOpen "riv") :=
    Outcome.of_map_eq_exit (f := fun _ => ()) (by decide!)
  have h2 : read_alloc false loadNothing (projFiles forcTwoDeclared paraDay "KSATH 2\n")
      "proj".toList mem7 = .exit 1 .countMismatch :=
    Outcome.of_map_eq_exit (f := fun _ => ()) (by decide!)
  have h3 : read_alloc false loadNothing (projFiles forcOne paraNoAbstol "KSATH 2\n")
      "proj".toList mem7 = .exit 1 (.mustBeDefined "ABSTOL") :=
    Outcome.of_map_eq_exit (f := fun _ => ()) (by decide!)
  have h4 : read_alloc false loadNothing (projFiles forcOne paraDay "KSATH 2\nfoo 1\n")
      "proj".toList mem7 = .exit 1 (.unrecognized "foo".toList) :=
    Outcome.of_map_eq_exit (f := fun _ => ()) (by decide!)
  exact ⟨⟨h1, C4_fatal_exit_status_one _ _ _ _ _ _ _ h1⟩,
    ⟨h2, C4_fatal_exit_status_one _ _ _ _ _ _ _ h2⟩,
    ⟨h3, C4_fatal_exit_status_one _ _ _ _ _ _ _ h3⟩,
    ⟨h4, C4_fatal_exit_status_one _ _ _ _ _ _ _ h4⟩⟩

/-- C5: on normal return with `StartTime ≤ EndTime` and `b > 0`, `NumSteps` is not negative, `Tout`
has exactly `NumSteps + 1` entries and `Tout[0]` is `StartTime`. -/
theorem C5_schedule_shape (content : List Char) (st r : State)
    (h : readPara content st = .ok r) (hSE : r.CS.StartTime ≤ r.CS.EndTime) (hb : 0 < r.CS.b) :
    0 ≤ r.CS.NumSteps ∧ (r.CS.Tout.length : Int) = r.CS.NumSteps + 1 ∧
      r.CS.Tout[0]? = some r.CS.StartTime := by
  have hs := readPara_isSchedule h
  obtain ⟨n, hn, hN, h0, -⟩ := id hs
  refine ⟨h0, ?_, ?_⟩
  · rw [hs.length]
    push_cast
    rw [Int.toNat_of_nonneg h0]
  · obtain ⟨hn1, hn2⟩ := numTout_bounds hb hSE hn
    by_cases hpos : 0 < r.CS.NumSteps
    · have := hs.interior 0 (by simpa using hpos)
      simpa [ToutAt] using this
    · have hz : r.CS.NumSteps = 0 := by omega
      have hnot : ¬ r.CS.StartTime < r.CS.EndTime := fun hlt => by
        have := hn2 hlt
        omega
      have hl := hs.last
      rw [hz] at hl
      simp only [Int.toNat_zero, ToutAt] at hl
      rw [hl, max_eq_left (not_lt.1 hnot)]

/-- C5 witness: the hourly one-day file returns with 24 steps, 25 output times, the first one the
start time. -/
theorem C5_schedule_shape_witness :
    ∃ r, readPara paraDay.toList mem7 = .ok r ∧ r.CS.StartTime ≤ r.CS.EndTime ∧ 0 < r.CS.b ∧
      (0 ≤ r.CS.NumSteps ∧ (r.CS.Tout.length : Int) = r.CS.NumSteps + 1 ∧
        r.CS.Tout[0]? = some r.CS.StartTime) := by
  have hm : Outcome.map (fun s => (s.CS.StartTime, s.CS.EndTime, s.CS.b))
      (readPara paraDay.toList mem7) = .ok (946684800, 946771200, 3600) := by decide!
  obtain ⟨r, hr, hv⟩ := Outcome.of_map_eq_ok hm
  simp only [Prod.mk.injEq] at hv
  obtain ⟨h1, h2, h3⟩ := hv
  have hSE : r.CS.StartTime ≤ r.CS.EndTime := by rw [h1, h2]; norm_num
  have hb : 0 < r.CS.b := by rw [h3]; norm_num
  exact ⟨r, hr, hSE, hb, C5_schedule_shape _ _ _ hr hSE hb⟩

/-- C6: constant step: when `a = 1`, every output time before the last one is
`Tout[i] = StartTime + i * b`. -/
theorem C6_constant_step (content : List Char) (st r : State)
    (h : readPara content st = .ok r) (ha : r.CS.a = 1) (i : Nat) (hi : (i : Int) < r.CS.NumSteps) :
    r.CS.Tout[i]? = some (r.CS.StartTime + i * r.CS.b) := by
  rw [(readPara_isSchedule h).interior i hi, ha, ToutAt_one]

/-- C6 witness: entry 5 of the hourly one-day schedule. -/
theorem C6_constant_step_witness :
    ∃ r, readPara paraDay.toList mem7 = .ok r ∧ r.CS.a = 1 ∧ ((5 : Nat) : Int) < r.CS.NumSteps ∧
      r.CS.Tout[5]? = some (r.CS.StartTime + (5 : Nat) * r.CS.b) := by
  have hm : Outcome.map (fun s => (s.CS.a, s.CS.NumSteps))
      (readPara paraDay.toList mem7) = .ok (1, 24) := by decide!
  obtain ⟨r, hr, hv⟩ := Outcome.of_map_eq_ok hm
  simp only [Prod.mk.injEq] at hv
  obtain ⟨h1, h2⟩ := hv
  have hi : ((5 : Nat) : Int) < r.CS.NumSteps := by rw [h2]; norm_num
  exact ⟨r, hr, h1, hi, C6_constant_step _ _ _ hr h1 5 hi⟩

/-- C7: growing step: for `2 ≤ i < NumSteps` the interval `Tout[i] - Tout[i-1]` is `a` times the
interval `Tout[i-1] - Tout[i-2]`. -/
theorem C7_geometric_step (content : List Char) (st r : State)
    (h : readPara content st = .ok r) (i : Nat) (h2 : 2 ≤ i) (hi : (i : Int) < r.CS.NumSteps) :
    ∃ t0 t1 t2, r.CS.Tout[i - 2]? = some t0 ∧ r.CS.Tout[i - 1]? = some t1 ∧
      r.CS.Tout[i]? = some t2 ∧ t2 - t1 = r.CS.a * (t1 - t0) := by
  have hs := readPara_isSchedule h
  obtain ⟨k, rfl⟩ : ∃ k, i = k + 2 := ⟨i - 2, by omega⟩
  refine ⟨_, _, _, hs.interior k (by omega), hs.interior (k + 2 - 1) (by omega),
    hs.interior (k + 2) hi, ?_⟩
  exact ToutAt_step _ _ _ k

/-- C7 witness: entries 1, 2, 3 of the schedule with factor 2. -/
theorem C7_geometric_step_witness :
    ∃ r, readPara paraGrow.toList mem7 = .ok r ∧ (2 : Nat) ≤ 3 ∧ ((3 : Nat) : Int) < r.CS.NumSteps ∧
      ∃ t0 t1 t2, r.CS.Tout[3 - 2]? = some t0 ∧ r.CS.Tout[3 - 1]? = some t1 ∧
        r.CS.Tout[3]? = some t2 ∧ t2 - t1 = r.CS.a * (t1 - t0) := by
  have hm : Outcome.map (fun s => s.CS.NumSteps) (readPara paraGrow.toList mem7) = .ok 5 := by
    decide!
  obtain ⟨r, hr, hv⟩ := Outcome.of_map_eq_ok hm
  have hi : ((3 : Nat) : Int) < r.CS.NumSteps := by rw [hv]; norm_num
  exact ⟨r, hr, by norm_num, hi, C7_geometric_step _ _ _ hr 3 (by norm_num) hi⟩

/-- C8 (amended): for `a = 1`, integral `StartTime < EndTime`, a base step `b` that is a whole
number with `0 < b ≤ EndTime - StartTime`, and a period `EndTime - StartTime` below `INT_MAX`
(so that the conversion `(int) (EndTime - StartTime)` of line 845 is defined): lines 841-864
return, `NumSteps` is the integer quotient of the period by `b`, the last output time
`Tout[NumSteps]` is `EndTime` and no output time exceeds `EndTime`; the same holds for the
schedule of every normal return of the .para stage with these four parameters. -/
theorem C8_ends_at_EndTime (cs : Control_Data) (ha : cs.a = 1) (zb zS zE : Int)
    (hbz : cs.b = zb) (hS : cs.StartTime = zS) (hE : cs.EndTime = zE)
    (hpos : 0 < zb) (hstep : zb ≤ zE - zS) (hrange : zE - zS < INT_MAX) :
    (∃ cs', schedule cs = .ok cs' ∧ cs'.NumSteps = (zE - zS) / zb ∧
        cs'.Tout[cs'.NumSteps.toNat]? = some cs.EndTime ∧ ∀ t ∈ cs'.Tout, t ≤ cs.EndTime) ∧
      ∀ (content : List Char) (st r : State), readPara content st = .ok r →
        r.CS.a = 1 → r.CS.b = cs.b → r.CS.StartTime = cs.StartTime →
        r.CS.EndTime = cs.EndTime →
        r.CS.NumSteps = (zE - zS) / zb ∧ r.CS.Tout[r.CS.NumSteps.toNat]? = some r.CS.EndTime ∧
          ∀ t ∈ r.CS.Tout, t ≤ r.CS.EndTime := by
  constructor
  · have hnum := numTout_const_some zb zS zE hpos hstep hrange
    have hq1 : 1 ≤ (zE - zS) / zb := (Int.le_ediv_iff_mul_le hpos).2 (by omega)
    have hq2 : (zE - zS) / zb ≤ zE - zS := Int.ediv_le_self _ (by omega)
    have hdef : ¬ ((zE - zS) / zb - 1 + 1 < 0 ∨ INT_MAX < (zE - zS) / zb - 1 + 1 + 1) := by
      omega
    have hok : ∃ cs', schedule cs = .ok cs' := by
      unfold schedule
      rw [ha, hbz, hS, hE, hnum]
      dsimp only
      rw [if_neg hdef]
      exact ⟨_, rfl⟩
    obtain ⟨cs', hcs⟩ := hok
    obtain ⟨hs, ha', hb', hS', hE', -⟩ := schedule_ok hcs
    obtain ⟨c1, c2, c3⟩ := IsSchedule.const_end hs (ha'.trans ha) zb zS zE (hb'.trans hbz)
      (hS'.trans hS) (hE'.trans hE) hpos hstep
    rw [hE'] at c1 c2
    exact ⟨cs', hcs, c3, c1, c2⟩
  · intro content st r h ha' hb' hS' hE'
    obtain ⟨c1, c2, c3⟩ := IsSchedule.const_end (readPara_isSchedule h) ha' zb zS zE
      (hb'.trans hbz) (hS'.trans hS) (hE'.trans hE) hpos hstep
    exact ⟨c3, c1, c2⟩

/-- C8 witness: hourly output over one day, `csDay`: the schedule has 24 steps and ends at the
end time, and so does the schedule that the .para stage returns for the file `paraDay`. -/
theorem C8_ends_at_EndTime_witness :
    csDay.a = 1 ∧ csDay.b = ((3600 : Int) : ℚ) ∧ csDay.StartTime = ((946684800 : Int) : ℚ) ∧
      csDay.EndTime = ((946771200 : Int) : ℚ) ∧ (0 : Int) < 3600 ∧
      (3600 : Int) ≤ 946771200 - 946684800 ∧ (946771200 : Int) - 946684800 < INT_MAX ∧
      Outcome.map (fun s => (s.CS.a, s.CS.b, s.CS.StartTime, s.CS.EndTime, s.CS.NumSteps))
        (readPara paraDay.toList mem7) = .ok (1, 3600, 946684800, 946771200, 24) ∧
      ((∃ cs', schedule csDay = .ok cs' ∧
          cs'.NumSteps = ((946771200 : Int) - 946684800) / 3600 ∧
          cs'.Tout[cs'.NumSteps.toNat]? = some csDay.EndTime ∧
          ∀ t ∈ cs'.Tout, t ≤ csDay.EndTime) ∧
        ∀ (content : List Char) (st r : State), readPara content st = .ok r →
          r.CS.a = 1 → r.CS.b = csDay.b → r.CS.StartTime = csDay.StartTime →
          r.CS.EndTime = csDay.EndTime →
          r.CS.NumSteps = ((946771200 : Int) - 946684800) / 3600 ∧
            r.CS.Tout[r.CS.NumSteps.toNat]? = some r.CS.EndTime ∧
            ∀ t ∈ r.CS.Tout, t ≤ r.CS.EndTime) :=
  ⟨rfl, by decide!, by decide!, by decide!, by decide, by decide, by decide, by decide!,
    C8_ends_at_EndTime csDay rfl 3600 946684800 946771200 (by decide!) (by decide!)
      (by decide!) (by decide) (by decide) (by decide)⟩

/-- C8 counterexample: with `a = 1`, `b = 3600` and the integral times 2000-01-01 00:00 and 00:01
the schedule has `NumSteps = 1` and `Tout[1] = StartTime + 3600`, which is not `EndTime` and
exceeds it. -/
theorem C8_counterexample :
    ∃ r, readPara paraLongStep.toList mem7 = .ok r ∧ r.CS.a = 1 ∧ 0 < r.CS.b ∧
      r.CS.StartTime = (946684800 : Int) ∧ r.CS.EndTime = (946684860 : Int) ∧
      r.CS.StartTime < r.CS.EndTime ∧ r.CS.NumSteps = 1 ∧
      r.CS.Tout[r.CS.NumSteps.toNat]? = some (946688400 : ℚ) ∧
      r.CS.Tout[r.CS.NumSteps.toNat]? ≠ some r.CS.EndTime ∧
      ∃ t ∈ r.CS.Tout, r.CS.EndTime < t := by
  have hm : Outcome.map (fun s => (s.CS.a, s.CS.b, s.CS.StartTime, s.CS.EndTime))
      (readPara paraLongStep.toList mem7) = .ok (1, 3600, 946684800, 946684860) := by decide!
  have hm2 : Outcome.map (fun s => (s.CS.NumSteps, s.CS.Tout))
      (readPara paraLongStep.toList mem7) = .ok (1, [946684800, 946688400]) := by decide!
  obtain ⟨r, hr, hv⟩ := Outcome.of_map_eq_ok hm
  rw [hr] at hm2
  simp only [Outcome.map, Outcome.ok.injEq, Prod.mk.injEq] at hv hm2
  obtain ⟨h1, h2, h3, h4⟩ := hv
  obtain ⟨h5, h6⟩ := hm2
  refine ⟨r, hr, h1, by rw [h2]; norm_num, by rw [h3]; norm_num, by rw [h4]; norm_num,
    by rw [h3, h4]; norm_num, h5, ?_, ?_, ?_⟩
  · rw [h5, h6]; rfl
  · rw [h5, h6, h4]; simp
  · exact ⟨946688400, by rw [h6]; simp, by rw [h4]; norm_num⟩

/-- C9 (amended): in the .para file, every line that ends with a newline, fits the line buffer,
does not start with `#`, and has a first token that does not start with `#` and is not one of the
keywords (letter case ignored) makes `read_alloc` end with the "cannot be recognized" exit.  The
same holds in the .calib file when the lines before it are comments that start with `#`, empty
lines, or lines with a first token that does not start with `#`.  A line whose first token is a
keyword in any letter case is accepted. -/
theorem C9_unrecognized_line_is_fatal :
    (∀ (pre line post tok : List Char) (st : State),
      (pre = [] ∨ pre.getLast? = some '\n') → '\n' ∉ line → line.length + 1 < MAXSTRING →
      firstByte line ≠ '#' → firstToken (line ++ ['\n']) = some tok → firstByte tok ≠ '#' →
      isParaKeyword tok = false →
      ∃ t, readPara (pre ++ line ++ '\n' :: post) st = .exit 1 (.unrecognized t)) ∧
    (∀ (F : Bool) (pre line post tok : List Char) (st : State),
      (pre = [] ∨ pre.getLast? = some '\n') → '\n' ∉ line → line.length + 1 < MAXSTRING →
      (∀ l ∈ fgetsLines pre, calibPlain l = true) →
      firstByte line ≠ '#' → firstToken (line ++ ['\n']) = some tok → firstByte tok ≠ '#' →
      isCalibKeyword F tok = false →
      ∃ t, readCalib F (pre ++ line ++ '\n' :: post) st = .exit 1 (.unrecognized t)) ∧
    (∀ key ∈ paraKeywords, ∀ (cmdstr tok : List Char) (st : State),
      firstToken cmdstr = some tok → tok.map Char.toLower = key.toList.map Char.toLower →
      ∃ st', paraBody cmdstr st = .ok st') ∧
    (∀ (F : Bool), ∀ key ∈ calibKeywords F, ∀ (cmdstr tok : List Char) (st : State),
      firstToken cmdstr = some tok → tok.map Char.toLower = key.toList.map Char.toLower →
      ∃ st', calibBody F cmdstr st = .ok st') := by
  refine ⟨?_, ?_, ?_, ?_⟩
  · intro pre line post tok st hpre hnl hlen h1 htok h3 hkey
    have hbad : ∀ s, ∃ t, paraBody (line ++ ['\n']) s = .exit 1 (.unrecognized t) := by
      intro s
      rw [paraBody_statement s (firstByte_line h1) (firstByte_line_ne_newline hnl htok) htok h3]
      rcases paraKeyword_spec (line ++ ['\n']) { s with optstr := tok } _ rfl with
        ⟨hk, -⟩ | ⟨-, h⟩
      · rw [hkey] at hk
        cases hk
      · exact ⟨_, h⟩
    obtain ⟨t, ht⟩ := paraLoop_bad (fgetsLines pre) (fgetsLines post) _ hbad (paraDefaults st)
    refine ⟨t, ?_⟩
    unfold readPara
    rw [fgetsLines_split pre line post hpre hnl hlen, ht]
    rfl
  · intro F pre line post tok st hpre hnl hlen hplain h1 htok h3 hkey
    have hbad : ∀ s, ∃ t, calibBody F (line ++ ['\n']) s = .exit 1 (.unrecognized t) := by
      intro s
      rw [calibBody_statement F s (firstByte_line h1) (firstByte_line_ne_newline hnl htok)
        htok h3]
      rcases calibKeyword_spec F (line ++ ['\n']) { s with optstr := tok } _ rfl with
        ⟨hk, -⟩ | ⟨-, h⟩
      · rw [hkey] at hk
        cases hk
      · exact ⟨_, h⟩
    obtain ⟨t, ht⟩ :=
      calibLoop_bad F (fgetsLines pre) (fgetsLines post) _ hplain hbad (calibDefaults F st)
    refine ⟨t, ?_⟩
    unfold readCalib
    rw [fgetsLines_split pre line post hpre hnl hlen, ht]
  · intro key hkey cmdstr tok st htok hlow
    have hrec : isParaKeyword tok = true :=
      List.any_eq_true.2 ⟨key, hkey, strcasecmp_of_lower hlow⟩
    unfold paraBody
    by_cases hc : (firstByte cmdstr != '#' && firstByte cmdstr != '\n' &&
        firstByte cmdstr != Char.ofNat 0) = true
    · rw [if_pos hc]
      dsimp only
      rw [sscanf_s_of_token st.optstr htok]
      by_cases h3 : firstByte tok = '#'
      · rw [if_pos h3]
        exact ⟨_, rfl⟩
      · rw [if_neg h3]
        rcases paraKeyword_spec cmdstr { st with optstr := tok } _ rfl with ⟨-, st', h⟩ | ⟨hk, -⟩
        · exact ⟨st', h⟩
        · rw [hrec] at hk
          cases hk
    · rw [if_neg hc]
      exact ⟨_, rfl⟩
  · intro F key hkey cmdstr tok st htok hlow
    have hrec : isCalibKeyword F tok = true :=
      List.any_eq_true.2 ⟨key, hkey, strcasecmp_of_lower hlow⟩
    have h3 : firstByte tok ≠ '#' := firstByte_of_lower hlow (calibKeyword_head F key hkey)
    unfold calibBody
    by_cases hc : (firstByte cmdstr != '#' && firstByte cmdstr != '\n' &&
        firstByte cmdstr != Char.ofNat 0) = true
    · rw [if_pos hc]
      dsimp only
      rw [sscanf_s_of_token st.optstr htok, if_neg h3]
      rcases calibKeyword_spec F cmdstr { st with optstr := tok } _ rfl with ⟨-, st', h⟩ | ⟨hk, -⟩
      · exact ⟨st', h⟩
      · rw [hrec] at hk
        cases hk
    · rw [if_neg hc]
      exact ⟨_, rfl⟩

/-- C9 witness: the one-day file followed by the line `FOO 1` with its newline ends with the
"cannot be recognized" exit, and a line `verbose 1` is accepted. -/
theorem C9_unrecognized_line_is_fatal_witness :
    (∃ t, readPara (paraDay.toList ++ "FOO 1".toList ++ '\n' :: []) mem7 =
      .exit 1 (.unrecognized t)) ∧
    (∃ st', paraBody "verbose 1\n".toList mem7 = .ok st') :=
  ⟨C9_unrecognized_line_is_fatal.1 paraDay.toList "FOO 1".toList [] "FOO".toList mem7
      (Or.inr (by decide)) (by decide) (by decide) (by decide) (by decide) (by decide)
      (by decide),
    C9_unrecognized_line_is_fatal.2.2.1 "VERBOSE" (by decide) "verbose 1\n".toList
      "verbose".toList mem7 (by decide) (by decide)⟩

/-- C9 counterexample: the last line `FOO 1` of the file is not blank, is not a comment and its
first token is no keyword, but it has no newline: `read_alloc` returns normally, the line is
passed over in silence. -/
theorem C9_counterexample :
    firstToken "FOO 1".toList = some "FOO".toList ∧ isParaKeyword "FOO".toList = false ∧
      paraTail.toList = paraDay.toList ++ "FOO 1".toList ∧
      Outcome.map (fun _ => ()) (readPara paraTail.toList mem7) = .ok () := by
  refine ⟨by decide, by decide, by decide!, by decide!⟩

/-- C10 (failing input): the .para file with the required keywords only, read into a control
structure whose fields all hold 7 on entry (`PrintRivFlx` has its 11 entries).  On return the
defaults of lines 660-691 are in place, and lines 692-693 have cleared the entries 0 to 9 of
`PrintRivFlx`; `PrintRivFlx[10]` still is 7. -/
theorem C10_PrintRivFlx_10_not_cleared :
    mem7.CS.PrintRivFlx.length = 11 ∧
      Outcome.map (fun s => (s.CS.Verbose, s.CS.Debug, s.CS.Ascii, s.CS.Spinup, s.CS.init_type))
        (readPara paraDay.toList mem7) = .ok (0, 0, 0, 0, 0) ∧
      Outcome.map (fun s => (s.DS.UnsatMode, s.DS.SurfMode, s.DS.RivMode, s.CS.Solver,
        s.CS.GSType)) (readPara paraDay.toList mem7) = .ok (2, 2, 2, 2, 1) ∧
      Outcome.map (fun s => (s.CS.MaxK, s.CS.delt, s.CS.PrintGW, s.CS.PrintSurf, s.CS.PrintSnow))
        (readPara paraDay.toList mem7) = .ok (0, 0, 0, 0, 0) ∧
      Outcome.map (fun s => (s.CS.PrintRivStg, s.CS.PrintRech, s.CS.PrintIS, s.CS.PrintUnsat,
        s.CS.PrintET)) (readPara paraDay.toList mem7) = .ok (0, 0, 0, 0, [0, 0, 0]) ∧
      Outcome.map (fun s => s.CS.PrintRivFlx) (readPara paraDay.toList mem7) =
        .ok [0, 0, 0, 0, 0, 0, 0, 0, 0, 0, 7] := by
  refine ⟨by decide, by decide!, by decide!, by decide!, by decide!, by decide!⟩

/-- C11 (failing input): a project with two elements whose .att file gives the LAI forcing
types 0 and -1 and which has no .lai file.  `read_alloc` returns normally with the types 0
and -1 stored: the .lai file is not opened, although an element has a type other than 0
(`pihm.h`: "0: use climatological values; else: use user provided time series").  With the
types 0 and 1 the same project stops with the fatal error of the .lai file, with 0 and 0 it
is read.  The test of line 470 is `LAI > 0`: the flag `read_lai` is set exactly when a
loaded element has a positive type. -/
theorem C11_negative_LAI_type_not_read :
    Outcome.map (fun s => (s.DS.NumEle, s.DS.Ele.map fun e => e.LAI))
        (read_alloc false (loadMeshAtt junk9 0)
          (projFilesLai meshOneWay (attTwo "0" "-1") forcOne paraDay "KSATH 2\n" none)
          "proj".toList mem7) = .ok (2, [0, -1]) ∧
      Outcome.map (fun _ => ())
        (read_alloc false (loadMeshAtt junk9 0)
          (projFilesLai meshOneWay (attTwo "0" "1") forcOne paraDay "KSATH 2\n" none)
          "proj".toList mem7) = .exit 1 (.cannotOpen "lai") ∧
      Outcome.map (fun _ => ())
        (read_alloc false (loadMeshAtt junk9 0)
          (projFilesLai meshOneWay (attTwo "0" "0") forcOne paraDay "KSATH 2\n" none)
          "proj".toList mem7) = .ok () ∧
      ∀ ds : Model_Data,
        read_lai ds = true ↔ ∃ e ∈ ds.Ele.take ds.NumEle.toNat, 0 < e.LAI := by
  refine ⟨by decide!, by decide!, by decide!, ?_⟩
  intro ds
  simp [read_lai]

/-- C12 (amended): `read_alloc` copies the neighbour references from the .mesh file and
checks neither their range nor their symmetry.  For a .mesh file that starts with the number
of rows, six column titles and the rows of the element table (numbers in decimal, one row on
a line), lines 187-196 return with `NumEle` the number of rows and with the neighbour list of
each loaded element equal to the three neighbour numbers of its row, whatever these numbers
are; the input left over is what follows the table. -/
theorem C12_neighbours_stored_as_written (junk : element) (NumRiv : Int)
    (titles : List (List Char)) (rows : List MeshRow) (rest : List Char) (ds : Model_Data)
    (hlen : titles.length = 6) (htitles : titles.all isTitle = true) (hriv : 0 ≤ NumRiv)
    (hrest : atGap rest) :
    ∃ ds', readMesh junk NumRiv (meshText titles rows ++ rest) ds = some (ds', rest) ∧
      ds'.NumEle = rows.length ∧
      (ds'.Ele.take ds'.NumEle.toNat).map (fun e => e.nabr) =
        rows.map fun r => [r.nabr.1, r.nabr.2.1, r.nabr.2.2] := by
  refine ⟨_, readMesh_meshText junk NumRiv titles rows rest ds hlen htitles hriv hrest, rfl, ?_⟩
  simp only [Int.toNat_ofNat]
  rw [List.take_left' (by simp), List.map_map]
  rfl

/-- C12 (witness): the file `meshOneWay` is of this form, and its two rows are stored with
the neighbour lists 2, 0, 0 and 0, 0, 0. -/
theorem C12_neighbours_stored_as_written_witness :
    meshOneWay.toList = meshText oneWayTitles oneWayRows ++ oneWayNodes.toList ∧
      oneWayTitles.length = 6 ∧ oneWayTitles.all isTitle = true ∧ atGap oneWayNodes.toList ∧
      ∃ ds', readMesh junk9 0 (meshText oneWayTitles oneWayRows ++ oneWayNodes.toList) mem7.DS =
          some (ds', oneWayNodes.toList) ∧
        ds'.NumEle = oneWayRows.length ∧
        (ds'.Ele.take ds'.NumEle.toNat).map (fun e => e.nabr) =
          oneWayRows.map fun r => [r.nabr.1, r.nabr.2.1, r.nabr.2.2] :=
  ⟨by decide!, by decide, by decide, Or.inr ⟨'\n', _, rfl, by decide⟩,
    C12_neighbours_stored_as_written junk9 0 oneWayTitles oneWayRows oneWayNodes.toList mem7.DS
      (by decide) (by decide) (by decide) (Or.inr ⟨'\n', _, rfl, by decide⟩)⟩

/-- C12 (counterexample): the project whose .mesh file is `meshOneWay`.  `read_alloc` returns
normally with two elements; element 1 has element 2 as its neighbour, element 2 has no
neighbour, so the neighbour invariant does not hold on return. -/
theorem C12_counterexample :
    ∃ r, read_alloc false (loadMeshAtt junk9 0)
          (projFilesLai meshOneWay (attTwo "0" "0") forcOne paraDay "KSATH 2\n" none)
          "proj".toList mem7 = .ok r ∧
      r.DS.NumEle = 2 ∧ r.DS.Ele.map (fun e => e.nabr) = [[2, 0, 0], [0, 0, 0]] ∧
      neighboursConsistent r.DS = false := by
  have h : Outcome.map (fun s => (s.DS.NumEle, s.DS.Ele.map (fun e => e.nabr),
      neighboursConsistent s.DS))
      (read_alloc false (loadMeshAtt junk9 0)
        (projFilesLai meshOneWay (attTwo "0" "0") forcOne paraDay "KSATH 2\n" none)
        "proj".toList mem7) = .ok (2, [[2, 0, 0], [0, 0, 0]], false) := by decide!
  obtain ⟨r, hr, hv⟩ := Outcome.of_map_eq_ok h
  simp only [Prod.mk.injEq] at hv
  exact ⟨r, hr, hv.1, hv.2.1, hv.2.2⟩

/-- C13: the daily update leaves the mass balance of an element as it is.  Whatever the
fluxes of the day are (each one leaving a pool or a source and entering another pool or a
sink), the sum of the carbon pools of `cstate_struct` plus its sink sums minus its source sums
is the same after the update as before, and so is the sum over `nstate_struct`. -/
theorem C13_daily_update_conserves_mass (cs : CField → ℚ) (ns : NField → ℚ)
    (cf : List (Flux CField)) (nf : List (Flux NField))
    (hc : cf.all (Flux.wellFormed CField.kind) = true)
    (hn : nf.all (Flux.wellFormed NField.kind) = true) :
    balance cFields CField.kind (dailyUpdate CField.kind cf cs) =
        balance cFields CField.kind cs ∧
      balance nFields NField.kind (dailyUpdate NField.kind nf ns) =
        balance nFields NField.kind ns :=
  ⟨balance_dailyUpdate cFields CField.kind cFields_nodup mem_cFields cf cs hc,
    balance_dailyUpdate nFields NField.kind nFields_nodup mem_nFields nf ns hn⟩

/-- C13 (witness): a day with photosynthesis, respiration, allocation, litterfall,
decomposition and fire, and with deposition, fixation, uptake, immobilisation, mineralisation
and leaching, on a state whose fields all hold 1: the photosynthate pool changes from 1 to
7/2 and the balances stay the same. -/
theorem C13_daily_update_conserves_mass_witness :
    dayCarbon.all (Flux.wellFormed CField.kind) = true ∧
      dayNitrogen.all (Flux.wellFormed NField.kind) = true ∧
      dailyUpdate CField.kind dayCarbon (fun _ => 1) CField.cpool = 7 / 2 ∧
      balance cFields CField.kind (dailyUpdate CField.kind dayCarbon fun _ => 1) =
        balance cFields CField.kind (fun _ => 1) ∧
      balance nFields NField.kind (dailyUpdate NField.kind dayNitrogen fun _ => 1) =
        balance nFields NField.kind (fun _ => 1) :=
  ⟨by decide, by decide, by decide!,
    C13_daily_update_conserves_mass (fun _ => 1) (fun _ => 1) dayCarbon dayNitrogen
      (by decide) (by decide)⟩

/-- C14: on a day on which the plant demand and the potential immobilization together exceed
the mineral nitrogen available, the immobilization and the plant uptake that are carried out
add up to the mineral nitrogen available exactly, whichever way the shortage is shared.  The
immobilization is the potential one scaled by `fpi`, the uptake is the demand scaled by
`1 - downreg`, with the scalars that the reconciliation returns, and both scalars lie
between 0 and 1. -/
theorem C14_nitrogen_draw_equals_available (priority : Priority)
    (sminn plant_ndemand potential_immob : ℚ) (hs : 0 ≤ sminn) (hp : 0 ≤ plant_ndemand)
    (hi : 0 ≤ potential_immob) (hscarce : sminn < plant_ndemand + potential_immob) :
    (reconcile priority sminn plant_ndemand potential_immob).actual_immob +
        (reconcile priority sminn plant_ndemand potential_immob).sminn_to_npool = sminn ∧
      (reconcile priority sminn plant_ndemand potential_immob).actual_immob =
        (reconcile priority sminn plant_ndemand potential_immob).fpi * potential_immob ∧
      (reconcile priority sminn plant_ndemand potential_immob).sminn_to_npool =
        (1 - (reconcile priority sminn plant_ndemand potential_immob).downreg) * plant_ndemand ∧
      0 ≤ (reconcile priority sminn plant_ndemand potential_immob).fpi ∧
      (reconcile priority sminn plant_ndemand potential_immob).fpi ≤ 1 ∧
      0 ≤ (reconcile priority sminn plant_ndemand potential_immob).downreg ∧
      (reconcile priority sminn plant_ndemand potential_immob).downreg ≤ 1 := by
  obtain ⟨immob, uptake, hsum, hi0, hi1, hu0, hu1, hfpi, hdown⟩ :=
    reconcile_scarce priority sminn plant_ndemand potential_immob hs hp hi hscarce
  have ha : (reconcile priority sminn plant_ndemand potential_immob).actual_immob =
      (reconcile priority sminn plant_ndemand potential_immob).fpi * potential_immob := rfl
  have hb : (reconcile priority sminn plant_ndemand potential_immob).sminn_to_npool =
      (1 - (reconcile priority sminn plant_ndemand potential_immob).downreg) * plant_ndemand :=
    rfl
  have hA : (reconcile priority sminn plant_ndemand potential_immob).fpi * potential_immob =
      immob := by
    rw [hfpi]
    by_cases h0 : potential_immob = 0
    · rw [if_pos h0, h0]
      rw [h0] at hi1
      linarith
    · rw [if_neg h0]
      field_simp
  have hB : (1 - (reconcile priority sminn plant_ndemand potential_immob).downreg) *
      plant_ndemand = uptake := by
    rw [hdown]
    by_cases h0 : plant_ndemand = 0
    · rw [if_pos h0, h0]
      rw [h0] at hu1
      linarith
    · rw [if_neg h0]
      field_simp
  refine ⟨by rw [ha, hb, hA, hB, hsum], ha, hb, ?_, ?_, ?_, ?_⟩
  · rw [hfpi]
    split_ifs with h0
    · norm_num
    · exact div_nonneg hi0 hi
  · rw [hfpi]
    split_ifs with h0
    · exact le_refl _
    · exact (div_le_one (lt_of_le_of_ne hi (Ne.symm h0))).2 hi1
  · rw [hdown]
    split_ifs with h0
    · exact le_refl _
    · have := (div_le_one (lt_of_le_of_ne hp (Ne.symm h0))).2 hu1
      linarith
  · rw [hdown]
    split_ifs with h0
    · norm_num
    · have := div_nonneg hu0 hp
      linarith

/-- C14 (witness): 3 units of mineral nitrogen for a plant demand of 4 and a potential
immobilization of 2, shared in proportion: `fpi` and `downreg` are 1/2, one unit is
immobilized and two are taken up. -/
theorem C14_nitrogen_draw_equals_available_witness :
    (0 : ℚ) ≤ 3 ∧ (0 : ℚ) ≤ 4 ∧ (0 : ℚ) ≤ 2 ∧ (3 : ℚ) < 4 + 2 ∧
      reconcile .proportional 3 4 2 =
        { fpi := 1 / 2, downreg := 1 / 2, actual_immob := 1, sminn_to_npool := 2 } ∧
      (reconcile .proportional 3 4 2).actual_immob +
        (reconcile .proportional 3 4 2).sminn_to_npool = 3 :=
  ⟨by norm_num, by norm_num, by norm_num, by norm_num, by decide!,
    (C14_nitrogen_draw_equals_available .proportional 3 4 2 (by norm_num) (by norm_num)
      (by norm_num) (by norm_num)).1⟩

/-- C15: on normal return the last output time `Tout[NumSteps]` is not before `EndTime`, and it is
`EndTime` whenever the unclamped value `StartTime + sum_{k=1..NumSteps} a^k * b` of the recurrence
is below `EndTime`. -/
theorem C15_last_output_not_before_end (content : List Char) (st r : State)
    (h : readPara content st = .ok r) :
    ∃ t, r.CS.Tout[r.CS.NumSteps.toNat]? = some t ∧ r.CS.EndTime ≤ t ∧
      (unclampedSum r.CS.a r.CS.b r.CS.StartTime r.CS.NumSteps.toNat < r.CS.EndTime →
        t = r.CS.EndTime) := by
  have hs := readPara_isSchedule h
  refine ⟨_, hs.last, le_max_right _ _, fun hlt => ?_⟩
  rw [← ToutAt_eq_unclampedSum] at hlt
  exact max_eq_right hlt.le

/-- C15 witness: the hourly one-day schedule, whose last entry is the end time. -/
theorem C15_last_output_not_before_end_witness :
    ∃ r, readPara paraDay.toList mem7 = .ok r ∧
      ∃ t, r.CS.Tout[r.CS.NumSteps.toNat]? = some t ∧ r.CS.EndTime ≤ t ∧
        (unclampedSum r.CS.a r.CS.b r.CS.StartTime r.CS.NumSteps.toNat < r.CS.EndTime →
          t = r.CS.EndTime) := by
  have hm : Outcome.map (fun _ => ()) (readPara paraDay.toList mem7) = .ok () := by decide!
  obtain ⟨r, hr, -⟩ := Outcome.of_map_eq_ok hm
  exact ⟨r, hr, C15_last_output_not_before_end _ _ _ hr⟩

/-- C16: for `a > 0` and `b > 0` the schedule returned is strictly increasing: `Tout[i] < Tout[i+1]`
for every `0 ≤ i < NumSteps`, the last entry included after it has been raised to `EndTime`. -/
theorem C16_schedule_strictly_increasing (content : List Char) (st r : State)
    (h : readPara content st = .ok r) (ha : 0 < r.CS.a) (hb : 0 < r.CS.b) (i : Nat)
    (hi : (i : Int) < r.CS.NumSteps) :
    ∃ t u, r.CS.Tout[i]? = some t ∧ r.CS.Tout[i + 1]? = some u ∧ t < u := by
  have hs := readPara_isSchedule h
  have hstep := ToutAt_lt_succ r.CS.StartTime ha hb i
  by_cases hlast : ((i + 1 : Nat) : Int) < r.CS.NumSteps
  · exact ⟨_, _, hs.interior i hi, hs.interior (i + 1) hlast, hstep⟩
  · have hN : r.CS.NumSteps.toNat = i + 1 := by
      push_cast at hlast
      omega
    have hl := hs.last
    rw [hN] at hl
    exact ⟨_, _, hs.interior i hi, hl, lt_of_lt_of_le hstep (le_max_left _ _)⟩

/-- C16 witness: entries 23 and 24 (the last one) of the hourly one-day schedule. -/
theorem C16_schedule_strictly_increasing_witness :
    ∃ r, readPara paraDay.toList mem7 = .ok r ∧ 0 < r.CS.a ∧ 0 < r.CS.b ∧
      ((23 : Nat) : Int) < r.CS.NumSteps ∧
      ∃ t u, r.CS.Tout[23]? = some t ∧ r.CS.Tout[23 + 1]? = some u ∧ t < u := by
  have hm : Outcome.map (fun s => (s.CS.a, s.CS.b, s.CS.NumSteps))
      (readPara paraDay.toList mem7) = .ok (1, 3600, 24) := by decide!
  obtain ⟨r, hr, hv⟩ := Outcome.of_map_eq_ok hm
  simp only [Prod.mk.injEq] at hv
  obtain ⟨h1, h2, h3⟩ := hv
  have ha : 0 < r.CS.a := by rw [h1]; norm_num
  have hb : 0 < r.CS.b := by rw [h2]; norm_num
  have hi : ((23 : Nat) : Int) < r.CS.NumSteps := by rw [h3]; norm_num
  exact ⟨r, hr, ha, hb, hi, C16_schedule_strictly_increasing _ _ _ hr ha hb 23 hi⟩

/-- C17 (failing input): the .para file with factor `a = 2` and base step `b = 3600` over one day.
The recurrence of line 860 starts with the step `pow (a, 1) * b = a * b`: `Tout[1]` is
`StartTime + 7200`, and in general `Tout[i] = StartTime + a * b * (1 - a^i) / (1 - a)`.  The series
with first step `b`, for which line 842 counts `NumTout = 4` steps before `EndTime`, gives
`StartTime + 3600` for one step and `StartTime + 54000` for four; the schedule stored has
`Tout[4] = StartTime + 108000`, which is past `EndTime = StartTime + 86400`. -/
theorem C17_recurrence_starts_at_a_times_b :
    (∀ (a b S : ℚ), a ≠ 1 → ∀ i : Nat, ToutAt a b S i = S + a * b * (1 - a ^ i) / (1 - a)) ∧
    Outcome.map (fun s => (s.CS.a, s.CS.b, s.CS.StartTime, s.CS.EndTime, s.CS.NumSteps))
      (readPara paraGrow.toList mem7) = .ok (2, 3600, 946684800, 946771200, 5) ∧
    Outcome.map (fun s => s.CS.Tout) (readPara paraGrow.toList mem7) =
      .ok [946684800, 946684800 + 7200, 946684800 + 21600, 946684800 + 50400,
        946684800 + 108000, 946684800 + 223200] ∧
    numTout 2 3600 946684800 946771200 = some 4 ∧
    seriesFromB 2 3600 946684800 1 = 946684800 + 3600 ∧
    seriesFromB 2 3600 946684800 4 = 946684800 + 54000 := by
  refine ⟨fun a b S ha i => ToutAt_closed a b S ha i, by decide!, by decide!, by decide!,
    by decide!, by decide!⟩

/-- C18 (failing input): a boundary-condition section of a .riv file with one series of two
rows, `2000-01-01 00:00:00 1.5` and `2000-01-02 00:00:00 2.5`.  The loop of lines 151-152 has
no braces: it stores the values 1.5 and 2.5 in `TS[0][1]` and `TS[1][1]` and leaves `TS[0][0]`
and `TS[1][0]` as `malloc` returned them; lines 153-156 then run once with `j = 2` and store
a time in `TS[2][0]`, outside of the two rows of the series, so the section is not read
(`none`), as is every series of river boundary conditions.  After the loop `timeinfo` holds
the raw fields of the last row (year 2000, month 1).  The reader of the element boundary
conditions (lines 597-610), whose loop has braces, reads the same series with the times
946684800 and 946771200 in `TS[0][0]` and `TS[1][0]`.  A section without series is read. -/
theorem C18_river_series_times_not_stored :
    (seriesLoop scanBody 2 0
        { TS := allocRows 2, timeinfo := tmY2K,
          stream := "\n2000-01-01 00:00:00 1.5\n2000-01-02 00:00:00 2.5\nRES 0\n".toList }).map
        (fun st => (st.TS, st.timeinfo.tm_year, st.timeinfo.tm_mon, st.stream)) =
      some ([[none, some (3 / 2)], [none, some (5 / 2)]], 2000, 1, "\nRES 0\n".toList) ∧
      rivSeries "Q 1 2\n2000-01-01 00:00:00 1.5\n2000-01-02 00:00:00 2.5\nRES 0\n".toList tmY2K =
        none ∧
      readRivBC 7 rivBCTwoRows.toList tmY2K = none ∧
      (∀ (s : List Char) (t : Tm), rivSeries s t = none) ∧
      (eleBCSeries "Q 1 2\n2000-01-01 00:00:00 1.5\n2000-01-02 00:00:00 2.5\nRES 0\n".toList
          tmY2K).map (fun p => (p.1.length, p.1.TS, p.2.2)) =
        some (2, [[some 946684800, some (3 / 2)], [some 946771200, some (5 / 2)]],
          "\nRES 0\n".toList) ∧
      (readRivBC 7 rivBCNone.toList tmY2K).map (fun p => (p.1, p.2.1)) = some (0, []) := by
  refine ⟨by decide!, by decide!, by decide!, rivSeries_none, by decide!, by decide!⟩

/-- C19 (failing input): a .calib file with a comment line whose `#` is indented.  On such a line
the loop body calls `fgets (cmdstr, MAXSTRING, para_file)` (line 983) on the stream closed at
line 839, where the loop of the .para file (line 720) reads from its own file: the behaviour is
undefined, the loop does not go on to the next line of the .calib file. -/
theorem C19_calib_indented_comment_undefined :
    (∀ (F : Bool) (cmdstr tok : List Char) (st : State),
      firstByte cmdstr ≠ '#' → firstByte cmdstr ≠ '\n' → firstToken cmdstr = some tok →
      firstByte tok = '#' → calibBody F cmdstr st = .undefined) ∧
    Outcome.map (fun _ => ()) (readCalib false calibIndented.toList mem7) = .undefined ∧
    Outcome.map (fun s => s.CS.Cal.KsatV)
      (readCalib false "KSATH 2\nKSATV 3\n".toList mem7) = .ok 3 := by
  refine ⟨?_, by decide!, by decide!⟩
  intro F cmdstr tok st h1 h2 htok h3
  have h0 := firstByte_ne_nul_of_token htok
  unfold calibBody
  rw [if_pos (by simp [h0, h1, h2])]
  simp only [sscanf_s_of_token st.optstr htok]
  rw [if_pos h3]

/-- C20: in the .para file a line that is empty, that starts with `#`, or whose first token starts
with `#` leaves the control data, the model data and `timeinfo` unchanged, and the loop goes on
with the next line. -/
theorem C20_para_comment_lines_skipped (cmdstr : List Char) (rest : List (List Char)) (st : State)
    (hc : firstByte cmdstr = '\n' ∨ firstByte cmdstr = '#' ∨
      ∃ tok, firstToken cmdstr = some tok ∧ firstByte tok = '#') :
    ∃ st', paraBody cmdstr st = .ok st' ∧ st'.CS = st.CS ∧ st'.DS = st.DS ∧
      st'.timeinfo = st.timeinfo ∧ paraLoop (cmdstr :: rest) st = paraLoop rest st' := by
  have key : ∃ st', paraBody cmdstr st = .ok st' ∧ st'.CS = st.CS ∧ st'.DS = st.DS ∧
      st'.timeinfo = st.timeinfo := by
    unfold paraBody
    by_cases hcond : (firstByte cmdstr != '#' && firstByte cmdstr != '\n' &&
        firstByte cmdstr != Char.ofNat 0) = true
    · rw [if_pos hcond]
      simp only [Bool.and_eq_true, bne_iff_ne, ne_eq] at hcond
      rcases hc with h | h | ⟨tok, htok, h3⟩
      · exact absurd h hcond.1.2
      · exact absurd h hcond.1.1
      · dsimp only
        rw [sscanf_s_of_token st.optstr htok, if_pos h3]
        exact ⟨_, rfl, rfl, rfl, rfl⟩
    · rw [if_neg hcond]
      exact ⟨st, rfl, rfl, rfl, rfl⟩
  obtain ⟨st', h1, h2, h3, h4⟩ := key
  refine ⟨st', h1, h2, h3, h4, ?_⟩
  rw [paraLoop, h1]
  rfl

/-- C20 witness: the indented comment line `  # note` before the lines of a .para file. -/
theorem C20_para_comment_lines_skipped_witness :
    (firstByte "  # note\n".toList = '\n' ∨ firstByte "  # note\n".toList = '#' ∨
      ∃ tok, firstToken "  # note\n".toList = some tok ∧ firstByte tok = '#') ∧
    ∃ st', paraBody "  # note\n".toList mem7 = .ok st' ∧ st'.CS = mem7.CS ∧ st'.DS = mem7.DS ∧
      st'.timeinfo = mem7.timeinfo ∧
      paraLoop ("  # note\n".toList :: fgetsLines paraDay.toList) mem7 =
        paraLoop (fgetsLines paraDay.toList) st' :=
  ⟨Or.inr (Or.inr ⟨"#".toList, by decide, by decide⟩),
    C20_para_comment_lines_skipped _ _ _ (Or.inr (Or.inr ⟨"#".toList, by decide, by decide⟩))⟩

/-- C21: for counts `Num1BC ≥ 0` and `Num2BC ≥ 0` read from the first line of the .ibc file, with
`dir` the `Num1BC` series that follow the counts in the file and `neu` the `Num2BC` series after
them, lines 585-636 return with the block `TSD_EleBC` holding exactly these `Num1BC + Num2BC`
series: entry `i < Num1BC` is the Dirichlet series `dir[i]`, entry `Num1BC + j` is the Neumann
series `neu[j]`.  A block is allocated only when `Num1BC + Num2BC > 0`; when the sum is 0 there
is no series and nothing after the counts is read. -/
theorem C21_eleBC_dirichlet_then_neumann (old1 old2 n1 n2 : Int) (s s0 s1 s2 : List Char)
    (t t1 t2 : Tm) (dir neu : List TSD)
    (hcount : fscanf_ints [old1, old2] s = ([n1, n2], s0)) (hn1 : 0 ≤ n1) (hn2 : 0 ≤ n2)
    (hdir : seriesBlock eleBCSeries n1.toNat s0 t = some (dir, t1, s1))
    (hneu : seriesBlock eleBCSeries n2.toNat s1 t1 = some (neu, t2, s2)) :
    readIbc old1 old2 s t =
        some ({ Num1BC := n1, Num2BC := n2, allocated := decide (n1 + n2 > 0),
                TSD_EleBC := (dir ++ neu).map some }, t2, s2) ∧
      ((dir ++ neu).map some).length = (n1 + n2).toNat ∧
      (∀ i, i < n1.toNat → ((dir ++ neu).map some)[i]? = dir[i]?.map some) ∧
      (∀ j, j < n2.toNat → ((dir ++ neu).map some)[n1.toNat + j]? = neu[j]?.map some) ∧
      (n1 + n2 = 0 → dir ++ neu = [] ∧ s2 = s0) := by
  have hld := seriesBlock_length _ _ _ _ _ _ _ hdir
  have hln := seriesBlock_length _ _ _ _ _ _ _ hneu
  have hsum : (n1 + n2).toNat = n1.toNat + n2.toNat := by omega
  refine ⟨?_, ?_, ?_, ?_, ?_⟩
  · have hblk : (if n1 + n2 > 0 then List.replicate (n1 + n2).toNat (none : Option TSD) else []) =
        List.replicate (n1.toNat + n2.toNat) none := by
      by_cases hpos : n1 + n2 > 0
      · rw [if_pos hpos, hsum]
      · rw [if_neg hpos]
        have : n1.toNat + n2.toNat = 0 := by omega
        rw [this]
        rfl
    have hfirst : (if n1 > 0 then eleBCLoop n1.toNat 0
          (List.replicate (n1.toNat + n2.toNat) none) s0 t
        else some (List.replicate (n1.toNat + n2.toNat) none, t, s0)) =
        some (dir.map some ++ List.replicate n2.toNat none, t1, s1) := by
      by_cases hpos : n1 > 0
      · rw [if_pos hpos]
        have := eleBCLoop_of_seriesBlock n1.toNat 0 (List.replicate (n1.toNat + n2.toNat) none)
          s0 t dir t1 s1 hdir (by simp)
        rw [Nat.cast_zero] at this
        rw [this]
        simp [List.drop_replicate]
      · rw [if_neg hpos]
        have h0 : n1.toNat = 0 := by omega
        rw [h0] at hdir hld
        simp only [seriesBlock, Option.some.injEq, Prod.mk.injEq] at hdir
        obtain ⟨rfl, rfl, rfl⟩ := hdir
        simp [h0]
    have hsecond : (if n2 > 0 then eleBCLoop n2.toNat n1
          (dir.map some ++ List.replicate n2.toNat none) s1 t1
        else some (dir.map some ++ List.replicate n2.toNat none, t1, s1)) =
        some ((dir ++ neu).map some, t2, s2) := by
      by_cases hpos : n2 > 0
      · rw [if_pos hpos]
        have := eleBCLoop_of_seriesBlock n2.toNat n1.toNat
          (dir.map some ++ List.replicate n2.toNat none) s1 t1 neu t2 s2 hneu
          (by simp [hld])
        rw [Int.toNat_of_nonneg hn1] at this
        rw [this]
        have hlen : (dir.map some).length = n1.toNat := by simp [hld]
        rw [List.take_left' hlen, List.drop_append_eq_append_drop, hlen]
        simp [List.drop_replicate, List.drop_eq_nil_of_le, hld]
      · rw [if_neg hpos]
        have h0 : n2.toNat = 0 := by omega
        rw [h0] at hneu hln
        simp only [seriesBlock, Option.some.injEq, Prod.mk.injEq] at hneu
        obtain ⟨rfl, rfl, rfl⟩ := hneu
        simp [h0]
    unfold readIbc
    simp only [hcount, List.getD_cons_zero, List.getD_cons_succ, hblk, hfirst, hsecond]
  · simp [hld, hln, hsum]
  · intro i hi
    rw [List.map_append, List.getElem?_append_left (by simp [hld, hi]), List.getElem?_map]
  · intro j hj
    rw [List.map_append, List.getElem?_append_right (by simp [hld]), List.getElem?_map]
    simp [hld]
  · intro h0
    have hz1 : n1.toNat = 0 := by omega
    have hz2 : n2.toNat = 0 := by omega
    rw [hz1] at hdir
    rw [hz2] at hneu
    simp only [seriesBlock, Option.some.injEq, Prod.mk.injEq] at hdir hneu
    obtain ⟨rfl, rfl, rfl⟩ := hdir
    obtain ⟨rfl, rfl, rfl⟩ := hneu
    exact ⟨rfl, rfl⟩

/-- C21 (witness): the file `ibcThree`, with one Dirichlet series and two Neumann series: the
block holds the series `HEAD`, `FLUXA`, `FLUXB` in this order. -/
theorem C21_eleBC_dirichlet_then_neumann_witness :
    fscanf_ints [7, 7] ibcThree.toList = ([1, 2], ibcThreeSeries.toList) ∧
      (0 : Int) ≤ 1 ∧ (0 : Int) ≤ 2 ∧
      seriesBlock eleBCSeries (1 : Int).toNat ibcThreeSeries.toList tmY2K =
        some (ibcThreeDir, tmJan2, ibcThreeNeumann.toList) ∧
      seriesBlock eleBCSeries (2 : Int).toNat ibcThreeNeumann.toList tmJan2 =
        some (ibcThreeNeu, tmY2K, "\n".toList) ∧
      readIbc 7 7 ibcThree.toList tmY2K =
        some ({ Num1BC := 1, Num2BC := 2, allocated := decide ((1 : Int) + 2 > 0),
                TSD_EleBC := (ibcThreeDir ++ ibcThreeNeu).map some }, tmY2K, "\n".toList) ∧
      (readIbc 7 7 ibcNone.toList tmY2K).map (fun p => (p.1, p.2.2)) =
        some ({ Num1BC := 0, Num2BC := 0, allocated := false, TSD_EleBC := [] }, "\n".toList) :=
  ⟨by decide!, by decide, by decide, by decide!, by decide!,
    (C21_eleBC_dirichlet_then_neumann 7 7 1 2 ibcThree.toList ibcThreeSeries.toList
      ibcThreeNeumann.toList "\n".toList tmY2K tmJan2 tmY2K ibcThreeDir ibcThreeNeu
      (by decide!) (by decide) (by decide) (by decide!) (by decide!)).1,
    by decide!⟩

/-- C22: a line `START Y-M-D h:m` (or `END ...`, the keyword in any case of letters)
whose numerals name a valid civil date-time is processed normally and sets `StartTime`
(`EndTime`) to the number of seconds from 1970-01-01 00:00:00 UTC to that date-time,
seconds 0; the number is a multiple of 60, so it is not `BADVAL`, and a later valid civil
date-time has a strictly larger number. -/
theorem C22_start_end_epoch_seconds (tok Y M D h m : List Char) (st : State)
    (hkey : strcasecmp "START" tok = true ∨ strcasecmp "END" tok = true)
    (hY : isNumeral Y = true) (hM : isNumeral M = true) (hD : isNumeral D = true)
    (hh : isNumeral h = true) (hm : isNumeral m = true)
    (hvalid : (civilOf Y M D h m).valid = true) :
    ∃ st', paraBody (dateLine tok Y M D h m) st = .ok st' ∧
      (strcasecmp "START" tok = true →
        st'.CS.StartTime = ((civilOf Y M D h m).seconds : ℚ)) ∧
      (strcasecmp "END" tok = true →
        st'.CS.EndTime = ((civilOf Y M D h m).seconds : ℚ)) ∧
      (∃ k : Int, (civilOf Y M D h m).seconds = 60 * k) ∧
      (civilOf Y M D h m).seconds ≠ BADVAL ∧
      ∀ d : Civil, d.valid = true → (civilOf Y M D h m).before d →
        (civilOf Y M D h m).seconds < d.seconds := by
  have hplain : tok ≠ [] ∧ ∀ c ∈ tok, isspace c = false ∧ c ≠ Char.ofNat 0 := by
    rcases hkey with hk | hk
    · exact token_plain_of_lower hk dateKeyword_plain.1 (by decide)
    · exact token_plain_of_lower hk dateKeyword_plain.2 (by decide)
  obtain ⟨hne, htok⟩ := hplain
  have hparse := sscanf_date_dateLine tok Y M D h m st.timeinfo hne htok hY hM hD hh hm
  have hsec := stampedDate_seconds tok Y M D h m st.timeinfo hne htok hY hM hD hh hm hvalid
  obtain ⟨a, r, rfl⟩ : ∃ a r, tok = a :: r := by
    cases tok with
    | nil => exact absurd rfl hne
    | cons a r => exact ⟨a, r, rfl⟩
  have hfirst : firstByte (dateLine (a :: r) Y M D h m) = firstByte (a :: r) := rfl
  have h2 : firstByte (dateLine (a :: r) Y M D h m) ≠ '\n' := by
    rw [hfirst]
    intro hnl
    have := (htok a (List.mem_cons_self _ _)).1
    simp only [firstByte, List.headD_cons] at hnl
    rw [hnl] at this
    revert this
    decide
  have h1 : ∀ f : ParaField, strcasecmp f.keyword (a :: r) = true →
      firstByte (dateLine (a :: r) Y M D h m) ≠ '#' := by
    intro f hf
    rw [hfirst]
    have hlow : (a :: r).map Char.toLower = f.keyword.toList.map Char.toLower := by
      have := hf
      simp only [strcasecmp, beq_iff_eq] at this
      exact this.symm
    exact firstByte_of_lower hlow (keyword_head f)
  have hmul := Civil.seconds_multiple (civilOf Y M D h m)
  have hbad : (civilOf Y M D h m).seconds ≠ BADVAL := by
    obtain ⟨k, hk⟩ := hmul
    rw [hk]
    unfold BADVAL
    omega
  have hmono : ∀ d : Civil, d.valid = true → (civilOf Y M D h m).before d →
      (civilOf Y M D h m).seconds < d.seconds :=
    fun d hd hb => Civil.seconds_lt _ d hvalid hd hb
  have hdiff : ∀ tok : List Char, strcasecmp "START" tok = true →
      strcasecmp "END" tok = true → False := by
    intro tok hs he
    have e : ParaField.StartTime = ParaField.EndTime := @field_unique ParaField.EndTime ParaField.StartTime tok he hs
    cases e
  rcases hkey with hk | hk
  · obtain ⟨st', hrun, hval, -, -⟩ := paraBody_assign (dateLine (a :: r) Y M D h m) (a :: r) st
      ParaField.StartTime (h1 ParaField.StartTime hk) h2 hparse.1 hk rfl
    refine ⟨st', hrun, fun _ => ?_, fun he => (hdiff _ hk he).elim, hmul, hbad, hmono⟩
    have hv : st'.CS.StartTime =
        ((timegm (stampedDate (dateLine (a :: r) Y M D h m) st.timeinfo)).1 : ℚ) := hval
    rw [hv, hsec]
  · obtain ⟨st', hrun, hval, -, -⟩ := paraBody_assign (dateLine (a :: r) Y M D h m) (a :: r) st
      ParaField.EndTime (h1 ParaField.EndTime hk) h2 hparse.1 hk rfl
    refine ⟨st', hrun, fun hs => (hdiff _ hs hk).elim, fun _ => ?_, hmul, hbad, hmono⟩
    have hv : st'.CS.EndTime =
        ((timegm (stampedDate (dateLine (a :: r) Y M D h m) st.timeinfo)).1 : ℚ) := hval
    rw [hv, hsec]

/-- C22 (witness): the line `Start 2024-02-29 12:30` sets `StartTime` to 1709209800,
which is 60 * 28486830, and 2024-03-01 00:00 is later, at 1709251200. -/
theorem C22_start_end_epoch_seconds_witness :
    (civilOf "2024".toList "02".toList "29".toList "12".toList "30".toList).valid = true ∧
      (civilOf "2024".toList "02".toList "29".toList "12".toList "30".toList).seconds
        = 1709209800 ∧
      (Civil.mk 2024 3 1 0 0).seconds = 1709251200 ∧
      Outcome.map (fun s => s.CS.StartTime)
        (paraBody "Start 2024-02-29 12:30\n".toList mem7) = .ok 1709209800 ∧
      ∃ st', paraBody (dateLine "Start".toList "2024".toList "02".toList "29".toList
          "12".toList "30".toList) mem7 = .ok st' ∧
        (strcasecmp "START" "Start".toList = true → st'.CS.StartTime =
          (((civilOf "2024".toList "02".toList "29".toList "12".toList
            "30".toList).seconds : Int) : ℚ)) ∧
        (strcasecmp "END" "Start".toList = true → st'.CS.EndTime =
          (((civilOf "2024".toList "02".toList "29".toList "12".toList
            "30".toList).seconds : Int) : ℚ)) ∧
        (∃ k : Int, (civilOf "2024".toList "02".toList "29".toList "12".toList
            "30".toList).seconds = 60 * k) ∧
        (civilOf "2024".toList "02".toList "29".toList "12".toList "30".toList).seconds
          ≠ BADVAL ∧
        ∀ d : Civil, d.valid = true →
          (civilOf "2024".toList "02".toList "29".toList "12".toList "30".toList).before d →
          (civilOf "2024".toList "02".toList "29".toList "12".toList "30".toList).seconds
            < d.seconds :=
  ⟨by decide, by decide, by decide, by decide!,
    C22_start_end_epoch_seconds "Start".toList "2024".toList "02".toList "29".toList
      "12".toList "30".toList mem7 (Or.inl (by decide)) (by decide) (by decide) (by decide)
      (by decide) (by decide) (by decide)⟩

/-- C23 (amended): first pass over a .forc file in which no line is longer than the buffer of
`fgets`, every line that does not begin with a newline, NUL or a tab has a first token, every
METEO_TS header line carries an index in `1 .. NumTS`, and no counted line stands before the
first header line.  The pass completes, and the length recorded for series `k` is the number
of lines between the last METEO_TS header line with index `k` and the next METEO_TS header
line (or the end of the file) that do not begin with a newline, NUL or a tab and whose first
token is none of METEO_TS, TIME and TS, whatever the case of the letters. -/
theorem C23_first_pass_lengths (L : Loaders) (content : List Char) (st : State) (n k : Int)
    (c : Nat) (hn : fscanf_d content (some st.DS.NumTS) = some n)
    (hfit : fgetsLines content = fileLines content)
    (hwf : wellFormedPass "METEO_TS" n (fileLines content).tail = true)
    (hfirst : rowsUntilHeader "METEO_TS" (fileLines content).tail = 0) (hk1 : 1 ≤ k)
    (hkn : k ≤ n) (hrows : seriesRows "METEO_TS" k (fileLines content).tail = some c) :
    ∃ st', tsPass1 "METEO_TS" CountPtr.meteo n (fgetsLines content).tail (forcAlloc n st) =
          .ok st' ∧
        getLength (.meteo (k - 1).toNat) st'.DS = some (c : Int) ∧
        readForc L content st =
          (checkCount n st').bind fun st => Outcome.ofOption (L.forcData content st) := by
  rw [← hfit] at hwf hfirst hrows
  obtain ⟨st', hrun, -, hlen⟩ := tsPass1_meteo_spec "METEO_TS" n (fgetsLines content).tail
    (forcAlloc n st) hwf (by simp [forcAlloc]) (Or.inr hfirst)
  refine ⟨st', hrun, ?_, readForc_of_pass1 L content st st' n hn hrun⟩
  have hlt : (k - 1).toNat < n.toNat := by omega
  have hcast : (((k - 1).toNat : Nat) : Int) + 1 = k := by omega
  rw [hlen _ hlt, hcast, hrows]

/-- C23 (witness): the file `forcTwo` with two series: the length recorded for series 1 is 2. -/
theorem C23_first_pass_lengths_witness :
    fscanf_d forcTwo.toList (some mem7.DS.NumTS) = some 2 ∧
      fgetsLines forcTwo.toList = fileLines forcTwo.toList ∧
      wellFormedPass "METEO_TS" 2 (fileLines forcTwo.toList).tail = true ∧
      rowsUntilHeader "METEO_TS" (fileLines forcTwo.toList).tail = 0 ∧
      seriesRows "METEO_TS" 1 (fileLines forcTwo.toList).tail = some 2 ∧
      Outcome.map (fun s => s.DS.TSD_meteo_length)
        (tsPass1 "METEO_TS" CountPtr.meteo 2 (fgetsLines forcTwo.toList).tail
          (forcAlloc 2 mem7)) = .ok [some 2, some 1] ∧
      ∃ st', tsPass1 "METEO_TS" CountPtr.meteo 2 (fgetsLines forcTwo.toList).tail
            (forcAlloc 2 mem7) = .ok st' ∧
          getLength (.meteo ((1 : Int) - 1).toNat) st'.DS = some ((2 : Nat) : Int) ∧
          readForc loadNothing forcTwo.toList mem7 =
            (checkCount 2 st').bind fun st =>
              Outcome.ofOption (loadNothing.forcData forcTwo.toList st) :=
  ⟨by decide!, by decide!, by decide!, by decide!, by decide!, by decide!,
    C23_first_pass_lengths loadNothing forcTwo.toList mem7 2 1 2 (by decide!) (by decide!)
      (by decide!) (by decide!) (by decide) (by decide) (by decide!)⟩

/-- C23 (counterexample): the file `forcLongRow` ends with a newline, its only header line has
the index 1 of 1, and one line stands between the header line and the end of the file that
counts as a row; it is 1217 bytes long, `fgets` hands it over in two pieces, and the length
recorded is 2.  In the files `forcBlankAfterRow` and `forcBlankAfterUnits` the same lines stand
after the header line, two rows and a line of one blank, in a different order; the lengths
recorded are 3 and 2. -/
theorem C23_counterexample :
    forcLongRow.getLast? = some '\n' ∧ (fileLines forcLongRow).length = 5 ∧
      (fgetsLines forcLongRow).length = 6 ∧
      wellFormedPass "METEO_TS" 1 (fileLines forcLongRow).tail = true ∧
      seriesRows "METEO_TS" 1 (fileLines forcLongRow).tail = some 1 ∧
      Outcome.map (fun s => s.DS.TSD_meteo_length)
        (tsPass1 "METEO_TS" CountPtr.meteo 1 (fgetsLines forcLongRow).tail (forcAlloc 1 mem7)) =
        .ok [some 2] ∧
      seriesRows "METEO_TS" 1 (fileLines forcBlankAfterRow.toList).tail = some 2 ∧
      seriesRows "METEO_TS" 1 (fileLines forcBlankAfterUnits.toList).tail = some 2 ∧
      Outcome.map (fun s => s.DS.TSD_meteo_length)
        (tsPass1 "METEO_TS" CountPtr.meteo 1 (fgetsLines forcBlankAfterRow.toList).tail
          (forcAlloc 1 mem7)) = .ok [some 3] ∧
      Outcome.map (fun s => s.DS.TSD_meteo_length)
        (tsPass1 "METEO_TS" CountPtr.meteo 1 (fgetsLines forcBlankAfterUnits.toList).tail
          (forcAlloc 1 mem7)) = .ok [some 2] := by
  refine ⟨by decide!, by decide!, by decide!, by decide!, by decide!, by decide!, by decide!,
    by decide!, by decide!, by decide!⟩

/-- C24 (failing input): the file `forcIndexTwo` declares one series and its header line has the
index 2.  Line 407 stores a length in `TSD_meteo[1]`, outside of the block of one series that
line 393 has allocated, before the test of line 428 is reached: the behaviour is undefined,
where the claim has the fatal exit.  For header indices inside `1 .. NumTS` the test does what
the claim says: `forcTwoDeclared` (last index 1 of 2) ends in the exit, `forcSecondOnly` (index
2 of 2, no header line for series 1) passes, and in general the exit is taken exactly when the
index on the last header line differs from `NumTS`. -/
theorem C24_header_index_beyond_NumTS :
    Outcome.map (fun _ => ()) (readForc loadNothing forcIndexTwo.toList mem7) = .undefined ∧
      Outcome.map (fun _ => ()) (readForc loadNothing forcTwoDeclared.toList mem7) =
        .exit 1 .countMismatch ∧
      Outcome.map (fun s => (s.ind, s.DS.TSD_meteo_length))
        (readForc loadNothing forcSecondOnly.toList mem7) = .ok (some 2, [none, some 2]) ∧
      ∀ (L : Loaders) (content : List Char) (st : State) (n i : Int),
        fscanf_d content (some st.DS.NumTS) = some n →
        wellFormedPass "METEO_TS" n (fgetsLines content).tail = true →
        rowsUntilHeader "METEO_TS" (fgetsLines content).tail = 0 →
        lastHeaderIndex "METEO_TS" (fgetsLines content).tail = some i →
        (readForc L content st = .exit 1 .countMismatch ↔ i ≠ n) := by
  refine ⟨by decide!, by decide!, by decide!, ?_⟩
  intro L content st n i hn hwf hfirst hlast
  exact readForc_exit_iff L content st n i hn hwf hfirst hlast

/-- C25 (failing input): the lines `START 2000-01-01 00:00`, `START 2001-01-01 00:00` and a line
of one blank.  After the two START lines `StartTime` is 978307200, the time of the last one.
The line of one blank passes the test of line 711, `sscanf` finds no token on it and leaves
`optstr` as it is, so the branch of `START` runs once more on the fields that `timegm` has
left in `timeinfo`: `StartTime` becomes -58982601600 (0100-12-01 00:00), which no START line
of the file gives.  A line with a keyword as its first token does what the claim says: it
assigns the value that `sscanf` converts to the field of the keyword and leaves every other
field as it is (`SAT_MODE` to `SurfMode`, `CMC` to `PrintIS`, `RIVFLX3` to `PrintRivFlx[3]`,
the last of two `CMC` lines gives the value). -/
theorem C25_blank_line_runs_last_keyword_again :
    Outcome.map (fun s => s.CS.StartTime)
        (paraLoop (fgetsLines paraStartTwice.toList) (paraDefaults mem7)) = .ok 978307200 ∧
      Outcome.map (fun s => s.CS.StartTime)
        (paraLoop (fgetsLines paraStartBlank.toList) (paraDefaults mem7)) =
        .ok (-58982601600) ∧
      Outcome.map (fun s => (s.DS.SurfMode, s.CS.PrintIS, s.CS.PrintRivFlx))
        (paraLoop (fgetsLines "SAT_MODE 1\nCMC 3\nrivflx3 5\nCMC 4\n".toList)
          (paraDefaults mem7)) = .ok (1, 4, [0, 0, 0, 5, 0, 0, 0, 0, 0, 0, 7]) ∧
      ∀ (cmdstr tok : List Char) (st : State) (f : ParaField),
        firstByte cmdstr ≠ '#' → firstByte cmdstr ≠ '\n' → firstToken cmdstr = some tok →
        strcasecmp f.keyword tok = true → f.inArray st = true →
        ∃ st', paraBody cmdstr st = .ok st' ∧ f.get st' = f.scan cmdstr st ∧
          (∀ g, g ≠ f → g.get st' = g.get st) ∧ SameRest st' st := by
  refine ⟨by decide!, by decide!, by decide!, ?_⟩
  intro cmdstr tok st f h1 h2 htok hf harr
  exact paraBody_assign cmdstr tok st f h1 h2 htok hf harr

/-- C26: on normal return of the .calib stage every calibration multiplier of the build whose
keyword is the first token of no line of the .calib file is 1, whatever the memory held
before; for a file without keyword lines that is every multiplier. -/
theorem C26_calibration_defaults_neutral (F : Bool) (content : List Char) (st r : State)
    (h : readCalib F content st = .ok r) (f : CalField) (hf : f.inBuild F = true)
    (habs : keywordAbsent f.keyword content = true) : f.get r = 1 := by
  unfold readCalib at h
  rw [calibLoop_frame F f _ _ _ h habs, calibDefaults_get F st f hf]

/-- C26 (witness): a .calib file with comments and empty lines only, read into a memory whose
fields all hold 7: the stage returns, and `KsatH` is 1. -/
theorem C26_calibration_defaults_neutral_witness :
    ∃ r, readCalib false calibComments.toList mem7 = .ok r ∧
      CalField.inBuild false .KsatH = true ∧
      keywordAbsent CalField.KsatH.keyword calibComments.toList = true ∧
      CalField.KsatH.get r = 1 := by
  have hm : Outcome.map (fun _ => ()) (readCalib false calibComments.toList mem7) = .ok () := by
    decide!
  obtain ⟨r, hr, -⟩ := Outcome.of_map_eq_ok hm
  exact ⟨r, hr, rfl, by decide,
    C26_calibration_defaults_neutral false calibComments.toList mem7 r hr .KsatH rfl (by decide)⟩

/-- C27 (amended): a last line of the .para file that has no newline and is shorter than
`MAXSTRING - 1 = 1023` bytes is not applied.  The loop of lines 707-837 sees the same lines
with and without it, so the .para stage ends the same way on both contents; a file that
consists of such a line alone is read like an empty file. -/
theorem C27_short_unterminated_line_not_applied (pre tail : List Char) (st : State)
    (hpre : pre = [] ∨ pre.getLast? = some '\n') (hnl : '\n' ∉ tail)
    (hlen : tail.length < MAXSTRING - 1) :
    fgetsLines (pre ++ tail) = fgetsLines pre ∧ readPara (pre ++ tail) st = readPara pre st ∧
      readPara tail st = readPara [] st := by
  have h1 := fgetsLines_unterminated pre tail hpre hnl hlen
  have h2 := fgetsLines_unterminated [] tail (Or.inl rfl) hnl hlen
  rw [List.nil_append] at h2
  refine ⟨h1, ?_, ?_⟩
  · unfold readPara
    rw [h1]
  · unfold readPara
    rw [h2]

/-- C27 (witness): the file `paraDay` followed by `VERBOSE 1` without a newline is read like
`paraDay`, with `Verbose` left at 0. -/
theorem C27_short_unterminated_line_not_applied_witness :
    (paraDay.toList = [] ∨ paraDay.toList.getLast? = some '\n') ∧
      '\n' ∉ "VERBOSE 1".toList ∧ "VERBOSE 1".toList.length < MAXSTRING - 1 ∧
      Outcome.map (fun s => s.CS.Verbose) (readPara paraDay.toList mem7) = .ok 0 ∧
      (fgetsLines (paraDay.toList ++ "VERBOSE 1".toList) = fgetsLines paraDay.toList ∧
        readPara (paraDay.toList ++ "VERBOSE 1".toList) mem7 = readPara paraDay.toList mem7 ∧
        readPara "VERBOSE 1".toList mem7 = readPara [] mem7) :=
  ⟨Or.inr (by decide), by decide, by decide, by decide!,
    C27_short_unterminated_line_not_applied paraDay.toList "VERBOSE 1".toList mem7
      (Or.inr (by decide)) (by decide) (by decide)⟩

/-- C27 (counterexample): the file `paraDay` followed by a last line of 1023 bytes without a
newline, `VERBOSE 1` and 1014 blanks.  `fgets` fills its buffer with the 1023 bytes before it
meets the end of the file, so the loop body runs on the line: `Verbose` is 1 on return, and
0 for the same content without the last line. -/
theorem C27_counterexample :
    '\n' ∉ longTail ∧ longTail.length = 1023 ∧
      Outcome.map (fun s => s.CS.Verbose) (readPara (paraDay.toList ++ longTail) mem7) = .ok 1 ∧
      Outcome.map (fun s => s.CS.Verbose) (readPara paraDay.toList mem7) = .ok 0 := by
  refine ⟨by decide!, by decide!, by decide!, by decide!⟩

/-- C28: for a file name with at least one byte other than `.`, the project name is the first
maximal non-empty run of bytes without a `.` (the whole name when it has no `.`), the ensemble
mode is on exactly when the name contains a `.`, and `read_alloc` reads the same files as for
the project name itself. -/
theorem C28_project_name (filename : List Char) (h : ∃ c ∈ filename, c ≠ '.') :
    ∃ name mode, projectName filename = some (name, mode) ∧ IsFirstRun name filename ∧
      (mode = true ↔ '.' ∈ filename) ∧ ('.' ∉ filename → name = filename) ∧
      ∀ (F : Bool) (L : Loaders) (fopen : List Char → Option (List Char)) (st : State),
        read_alloc F L fopen filename st = read_alloc F L fopen name st := by
  by_cases hdot : '.' ∈ filename
  · obtain ⟨name, hname, hrun⟩ := strtokDot_spec filename h
    have hp : projectName filename = some (name, true) := by
      unfold projectName
      rw [if_pos (by simpa using hdot), hname]
    have hn : '.' ∉ name := by
      obtain ⟨-, -, -, -, -, hn, -⟩ := hrun
      exact hn
    exact ⟨name, true, hp, hrun, by simp [hdot], fun hno => absurd hdot hno,
      fun F L fopen st => read_alloc_projectName F L fopen filename name true st hp hn⟩
  · have hp := projectName_plain filename hdot
    refine ⟨filename, false, hp, ⟨[], [], by simp, by simp, ?_, hdot, Or.inl rfl⟩,
      by simp [hdot], fun _ => rfl, fun F L fopen st => rfl⟩
    obtain ⟨c, hc, -⟩ := h
    exact List.ne_nil_of_mem hc

/-- C28 (witness): the file name `..run7.para.bak` gives the project `run7` in ensemble mode. -/
theorem C28_project_name_witness :
    (∃ c ∈ "..run7.para.bak".toList, c ≠ '.') ∧
      projectName "..run7.para.bak".toList = some ("run7".toList, true) ∧
      projectName "run7".toList = some ("run7".toList, false) ∧
      ∃ name mode, projectName "..run7.para.bak".toList = some (name, mode) ∧
        IsFirstRun name "..run7.para.bak".toList ∧
        (mode = true ↔ '.' ∈ "..run7.para.bak".toList) ∧
        ('.' ∉ "..run7.para.bak".toList → name = "..run7.para.bak".toList) ∧
        ∀ (F : Bool) (L : Loaders) (fopen : List Char → Option (List Char)) (st : State),
          read_alloc F L fopen "..run7.para.bak".toList st = read_alloc F L fopen name st :=
  ⟨⟨'r', by decide, by decide⟩, by decide, by decide,
    C28_project_name "..run7.para.bak".toList ⟨'r', by decide, by decide⟩⟩

end PIHM
